import Mathlib

/-!
# linux-do/cdk : claim coordinator and proof-of-work gate

A shallow embedding of `internal/apps/project/routers.go` (handlers
`ReceiveProject`, `UpdateProject`, `DeleteProject`),
`internal/apps/project/pow_middleware.go` (`POWMiddleware`, `verifyPOW`),
`internal/apps/oauth/routers.go` (`GetLoginURL`, `Callback`) and
`internal/apps/project/utils.go` (the queries of `ListProjectsWithTags` and
`ListMyProjectsWithTags`).

* The relational store (gorm) is a record of tables, each a list of rows.
* The cache (redis) is a record of lists and of string entries.
* A handler is a function from the request environment and the state before
  the call to the HTTP response and the state after the call.
* Every place where the source branches on an error value has a flag in the
  request environment that says whether the operation fails in this execution.
  So has every cache command whose result the source discards (the RPUSH of
  `ReceiveProject`, the DEL of `verifyPOW` and of `Callback`): when it fails
  the cache is left as it is and the handler goes on.
* The instants read by `ReceiveProject` (`EndTime`, the clock) are counts of
  nanoseconds; their difference is a `time.Duration`.
-/

namespace Cdk

/-! ## Data model -/

/-- Row of table `projects` (the columns the handlers read or write). -/
structure Project where
  ID : String
  Name : String
  Description : String
  TotalItems : Int
  StartTime : Int
  EndTime : Int
  MinimumTrustLevel : Nat
  AllowSameIP : Bool
  RiskLevel : Int
  CreatorID : Nat
  IsCompleted : Bool
deriving DecidableEq, Repr

/-- Row of table `project_items`; `ReceiverID` and `ReceivedAt` are nullable. -/
structure ProjectItem where
  ID : Nat
  ProjectID : String
  Content : String
  ReceiverID : Option Nat
  ReceivedAt : Option Int
deriving DecidableEq, Repr

/-- Row of table `project_tags`. -/
structure ProjectTag where
  ProjectID : String
  Tag : String
deriving DecidableEq, Repr

/-- String entry of the cache: key, value and the time to live it was set with,
in the unit of the command that wrote it: seconds (`EX`), or milliseconds when
`millis` is set (`PX`). `noExpiry` marks an entry written without a time to live
(its `ttl` is `0`). -/
structure CacheString where
  key : String
  value : String
  ttl : Int
  noExpiry : Bool := false
  millis : Bool := false
deriving DecidableEq, Repr

/-- The relational store. `nextItemID` is the auto-increment counter of
`project_items`; a rollback does not restore it. -/
structure Ledger where
  projects : List Project
  items : List ProjectItem
  tags : List ProjectTag
  nextItemID : Nat
deriving DecidableEq, Repr

/-- The cache: lists (the inventory queues) and string entries. -/
structure Cache where
  lists : List (String × List Nat)
  strings : List CacheString
deriving DecidableEq, Repr

/-- State of the system between two requests. -/
structure State where
  db : Ledger
  redis : Cache
deriving DecidableEq, Repr

/-- The JSON answer of a handler: status code, `error_msg`, and the string
carried in `data` when there is one (`itemContent`). -/
structure Response where
  status : Nat
  errorMsg : String
  data : Option String
deriving DecidableEq, Repr

/-! ## Cache operations (go-redis commands used by the handlers) -/

/-- Content of the list stored at `key`; a missing key is the empty list. -/
def Cache.LRange (c : Cache) (key : String) : List Nat :=
  match c.lists.find? (fun e => e.1 = key) with
  | some e => e.2
  | none => []

/-- Store `v` as the list at `key`. -/
def Cache.setList (c : Cache) (key : String) (v : List Nat) : Cache :=
  { c with lists := (key, v) :: c.lists.filter (fun e => e.1 ≠ key) }

/-- LPOP: remove and return the head of the list at `key`; `none` (redis.Nil)
and no change when the list is empty. -/
def Cache.LPop (c : Cache) (key : String) : Option Nat × Cache :=
  match c.LRange key with
  | [] => (none, c)
  | x :: xs => (some x, c.setList key xs)

/-- RPUSH: append `v` to the tail of the list at `key`. -/
def Cache.RPush (c : Cache) (key : String) (v : Nat) : Cache :=
  c.setList key (c.LRange key ++ [v])

/-- EXISTS on a string key. -/
def Cache.Exists (c : Cache) (key : String) : Bool :=
  c.strings.any (fun e => e.key = key)

/-- Create-if-absent on the server (`SETNX`, `SET ... NX`): the entry is created
when its key is absent, the cache is left as it is when the key is present. -/
def Cache.SetNXEntry (c : Cache) (e : CacheString) : Cache :=
  if c.Exists e.key then c
  else { c with strings := c.strings ++ [e] }

/-- Smallest value of `time.Duration`, an `int64` count of nanoseconds. -/
def minDuration : Int := -9223372036854775808

/-- Largest value of `time.Duration`. -/
def maxDuration : Int := 9223372036854775807

/-- Method `Time.Sub` of package `time` on two instants given in nanoseconds: the
difference as a `time.Duration`, the largest (smallest) duration when the
difference is above (below) the range. -/
def timeSub (t u : Int) : Int :=
  if t - u < minDuration then minDuration
  else if maxDuration < t - u then maxDuration
  else t - u

/-- Constant `time.Millisecond`. -/
def Millisecond : Int := 1000000

/-- Constant `time.Second`. -/
def Second : Int := 1000000000

/-- Constant `redis.KeepTTL` of go-redis. -/
def KeepTTL : Int := -1

/-- Function `usePrecise` of go-redis: whether a duration is sent in
milliseconds (`PX`) rather than in seconds (`EX`). -/
def usePrecise (dur : Int) : Bool :=
  decide (dur < Second ∨ dur.tmod Second ≠ 0)

/-- Function `formatMs` of go-redis: a positive duration below one millisecond is
sent as `1`, any other as its truncated count of milliseconds. -/
def formatMs (dur : Int) : Int :=
  if 0 < dur ∧ dur < Millisecond then 1 else dur.tdiv Millisecond

/-- Function `formatSec` of go-redis. -/
def formatSec (dur : Int) : Int :=
  if 0 < dur ∧ dur < Second then 1 else dur.tdiv Second

/-- The entry that `SetNX(key, value, expiration)` of go-redis asks the server to
create: without a time to live for expiration `0` (plain `SETNX`) and for
`KeepTTL` (`SET key value KEEPTTL NX`), otherwise with `PX` or `EX`; `none` when
the server refuses the command because the time to live it receives is not
positive. -/
def setNXRecord (key value : String) (expiration : Int) : Option CacheString :=
  if expiration = 0 ∨ expiration = KeepTTL then
    some { key := key, value := value, ttl := 0, noExpiry := true }
  else if usePrecise expiration then
    if formatMs expiration ≤ 0 then none
    else some { key := key, value := value, ttl := formatMs expiration, millis := true }
  else if formatSec expiration ≤ 0 then none
  else some { key := key, value := value, ttl := formatSec expiration }

/-- Call `SetNX(key, value, expiration)` of go-redis: the cache after the
command, `none` when the server answers with an error for the time to live. -/
def Cache.SetNX (c : Cache) (key value : String) (expiration : Int) : Option Cache :=
  (setNXRecord key value expiration).map c.SetNXEntry

/-- The cache after a call of `SetNX` that the server accepted; the cache itself
for a refused one. -/
def Cache.SetNXAccepted (c : Cache) (key value : String) (expiration : Int) : Cache :=
  (c.SetNX key value expiration).getD c

/-- SET with a time to live: create or overwrite the entry. -/
def Cache.Set (c : Cache) (key value : String) (ttl : Int) : Cache :=
  let kept := c.strings.filter (fun e => e.key ≠ key)
  { c with strings := kept ++ [{ key := key, value := value, ttl := ttl }] }

/-- DEL of a string key. -/
def Cache.Del (c : Cache) (key : String) : Cache :=
  { c with strings := c.strings.filter (fun e => e.key ≠ key) }

/-! ## Ledger operations (gorm calls used by the handlers) -/

/-- The first row of `project_items` with primary key `id`. -/
def Ledger.findItem (db : Ledger) (id : Nat) : Option ProjectItem :=
  db.items.find? (fun r => r.ID = id)

/-- The first row of `projects` with primary key `id`. -/
def Ledger.findProject (db : Ledger) (id : String) : Option Project :=
  db.projects.find? (fun r => r.ID = id)

/-- gorm `Save` on a project item: `UPDATE ... WHERE id = ?` with every column
of the value, and an insert when no row has that primary key. -/
def Ledger.SaveItem (db : Ledger) (it : ProjectItem) : Ledger :=
  if db.items.any (fun r => r.ID = it.ID) then
    { db with items := db.items.map (fun r => if r.ID = it.ID then it else r) }
  else
    { db with items := db.items ++ [it] }

/-- gorm `Save` on a project: `UPDATE ... WHERE id = ?` with every column of
the value, and an insert when no row has that primary key. -/
def Ledger.SaveProject (db : Ledger) (p : Project) : Ledger :=
  if db.projects.any (fun r => r.ID = p.ID) then
    { db with projects := db.projects.map (fun r => if r.ID = p.ID then p else r) }
  else
    { db with projects := db.projects ++ [p] }

/-- gorm `Transaction`: run `fc`; when it returns an error, or when the commit
fails, the tables are rolled back to what they were before. What `fc` did to
the cache is not part of the ledger transaction and stays, and so does the
auto-increment counter. -/
def Transaction (commitFails : Bool) (fc : State → Except String Unit × State) (s : State) :
    Except String Unit × State :=
  match fc s with
  | (.error e, s1) =>
      (.error e, { db := { s.db with nextItemID := s1.db.nextItemID }, redis := s1.redis })
  | (.ok (), s1) =>
      if commitFails then
        (.error "commit failed",
          { db := { s.db with nextItemID := s1.db.nextItemID }, redis := s1.redis })
      else (.ok (), s1)

/-! ## Methods of `Project` and `ProjectItem` declared elsewhere in package `project` -/

/-- Modelled from the spec: the error text `NoStock` (constant declared
elsewhere in the repository), "if Empty, fail NoStock". -/
def NoStock : String := "NoStock"

/-- Error text of a failed ledger operation. -/
def dbError : String := "database error"

/-- Error text of a failed cache operation. -/
def redisError : String := "redis error"

/-- Error text of the cache server for a time to live that is not positive. -/
def invalidExpire : String := "ERR invalid expire time in set command"

/-- Error text of gorm for a primary key without a row. -/
def recordNotFound : String := "record not found"

/-- Modelled from the spec: `Project.ItemsKey`, the cache key of the
per-project inventory queue (the method is declared outside `routers.go`); the key is
determined by the project id. -/
def Project.ItemsKey (p : Project) : String :=
  "project:" ++ p.ID ++ ":items"

/-- Modelled from the spec: `Project.SameIPCacheKey`, the cache key of the
dedup record, "key = (project id, client address)" (the method is declared
outside `routers.go`). -/
def Project.SameIPCacheKey (p : Project) (ip : String) : String :=
  "project:" ++ p.ID ++ ":ip:" ++ ip

/-- Modelled from the spec: `Project.Exact`, "Load the project; fail NotFound
if absent" (the method is declared outside `routers.go`). `fails` is a failure of the
ledger itself. -/
def Project.Exact (fails : Bool) (db : Ledger) (id : String) : Except String Project :=
  if fails then .error dbError
  else match db.findProject id with
    | some p => .ok p
    | none => .error recordNotFound

/-- Modelled from the spec: `ProjectItem.Exact`, "Load the candidate item row"
(the method is declared outside `routers.go`). `fails` is a failure of the ledger
itself. -/
def ProjectItem.Exact (fails : Bool) (db : Ledger) (id : Nat) : Except String ProjectItem :=
  if fails then .error dbError
  else match db.findItem id with
    | some it => .ok it
    | none => .error recordNotFound

/-- Modelled from the spec: `Project.PrepareReceive`, the queue's
`PopCandidate`: "atomically removes and returns one id, or reports Empty if
none remain", and Empty is the error `NoStock` (the method is declared outside
`routers.go`). -/
def Project.PrepareReceive (p : Project) (c : Cache) : Except String Nat × Cache :=
  match c.LPop p.ItemsKey with
  | (some id, c1) => (.ok id, c1)
  | (none, c1) => (.error NoStock, c1)

/-- Number of rows of `project_items` of project `pid` without a receiver. -/
def Ledger.unclaimedCount (db : Ledger) (pid : String) : Nat :=
  (db.items.filter (fun r => r.ProjectID = pid ∧ r.ReceiverID = none)).length

/-- Number of rows of `project_items` of project `pid` with a receiver. -/
def Ledger.claimedCount (db : Ledger) (pid : String) : Nat :=
  (db.items.filter (fun r => r.ProjectID = pid ∧ r.ReceiverID ≠ none)).length

/-- Modelled from the spec: `Project.HasStock`, "Re-counts remaining Unclaimed
items for the project" (the method is declared outside `routers.go`); the answer is
whether the count is positive. -/
def Project.HasStock (p : Project) (db : Ledger) : Bool :=
  decide (0 < db.unclaimedCount p.ID)

/-! ## `ReceiveProject` (routers.go, lines 317-388) -/

/-- What a call of `ReceiveProject` gets from its surroundings: the session's
user, the client address, the two readings of the clock, and for every
operation whether it fails in this execution. The error of the RPUSH of the
error branch is discarded by the handler (`rpushFails`): when that command
fails the list is left as it is and the handler goes on. -/
structure ReceiveEnv where
  userID : Nat
  clientIP : String
  now : Int
  nowTTL : Int
  loadProjectFails : Bool
  loadItemFails : Bool
  saveItemFails : Bool
  hasStockFails : Bool
  saveProjectFails : Bool
  setNXFails : Bool
  commitFails : Bool
  rpushFails : Bool
deriving DecidableEq, Repr

/-- Lines 364-375: the dedup record, written with `SetNX` when the project does
not allow the same address twice, with `project.EndTime.Sub(time.Now())` as
expiration (`EndTime` and the clock are instants in nanoseconds); only the error
of the command is read, its boolean answer is not. `setNXFails` is a failure of
the connection; a time to live that the server refuses is an error too. -/
def receiveCheckIP (E : ReceiveEnv) (project : Project) (s : State) :
    Except String Unit × State :=
  if !project.AllowSameIP then
    if E.setNXFails then (.error redisError, s)
    else
      match s.redis.SetNX (project.SameIPCacheKey E.clientIP) E.clientIP
          (timeSub project.EndTime E.nowTTL) with
      | none => (.error invalidExpire, s)
      | some c1 => (.ok (), { s with redis := c1 })
  else (.ok (), s)

/-- Lines 344-376: the function run inside the ledger transaction. -/
def receiveTx (E : ReceiveEnv) (project : Project) (item : ProjectItem) (s : State) :
    Except String Unit × State :=
  let item1 : ProjectItem :=
    { item with ReceiverID := some E.userID, ReceivedAt := some E.now }
  if E.saveItemFails then (.error dbError, s)
  else
    let s1 : State := { s with db := s.db.SaveItem item1 }
    if E.hasStockFails then (.error dbError, s1)
    else if !(project.HasStock s1.db) then
      let project1 : Project := { project with IsCompleted := true }
      if E.saveProjectFails then (.error dbError, s1)
      else receiveCheckIP E project1 { s1 with db := s1.db.SaveProject project1 }
    else receiveCheckIP E project s1

/-- Handler `ReceiveProject` for `POST /api/v1/projects/{id}/receive`. -/
def ReceiveProject (E : ReceiveEnv) (id : String) (s : State) : Response × State :=
  match Project.Exact E.loadProjectFails s.db id with
  | .error e => ({ status := 404, errorMsg := e, data := none }, s)
  | .ok project =>
    match project.PrepareReceive s.redis with
    | (.error e, c1) => ({ status := 500, errorMsg := e, data := none }, { s with redis := c1 })
    | (.ok itemID, c1) =>
      let s1 : State := { s with redis := c1 }
      match ProjectItem.Exact E.loadItemFails s1.db itemID with
      | .error e => ({ status := 404, errorMsg := e, data := none }, s1)
      | .ok item =>
        match Transaction E.commitFails (receiveTx E project item) s1 with
        | (.error e, s2) =>
          let s3 : State :=
            if E.rpushFails then s2
            else { s2 with redis := s2.redis.RPush project.ItemsKey itemID }
          ({ status := 500, errorMsg := e, data := none }, s3)
        | (.ok (), s2) =>
          ({ status := 200, errorMsg := "", data := some item.Content }, s2)

/-! ## `UpdateProject` (routers.go, lines 201-250) -/

/-- Body of `PUT /api/v1/projects/{id}` after JSON decoding
(`UpdateProjectRequestBody` with the embedded `ProjectRequest`). -/
structure UpdateProjectRequestBody where
  Name : String
  Description : String
  ProjectTags : List String
  StartTime : Int
  EndTime : Int
  MinimumTrustLevel : Nat
  AllowSameIP : Bool
  RiskLevel : Int
  ProjectItems : List String
deriving DecidableEq, Repr

/-- What a call of `UpdateProject` gets from its surroundings: for every
operation whose error the handler inspects, whether it fails in this
execution. `bindFails` is the answer of gin's `ShouldBindJSON` (decoding and
tag validation of the body). -/
structure UpdateEnv where
  bindFails : Bool
  loadProjectFails : Bool
  saveProjectFails : Bool
  refreshTagsFails : Bool
  createItemsFails : Bool
  seedFails : Bool
  commitFails : Bool
deriving DecidableEq, Repr

/-- Two's complement wrap of a Go `int64` result. -/
def wrapInt64 (x : Int) : Int :=
  (x + 2 ^ 63) % 2 ^ 64 - 2 ^ 63

/-- Modelled from the spec: `Project.RefreshTags` (the method is declared outside
`routers.go`; the spec leaves record editing to a collaborator): the tag rows of
the project are replaced by the requested tags. Only table `project_tags` is
written. -/
def Project.RefreshTags (p : Project) (tags : List String) (db : Ledger) : Ledger :=
  let kept := db.tags.filter (fun t => t.ProjectID ≠ p.ID)
  { db with tags := kept ++ tags.map (fun t => { ProjectID := p.ID, Tag := t }) }

/-- Modelled from the spec: `Project.CreateItems` (the method is declared outside
`routers.go`): items are "created in bulk when a project is created or extended",
each Unclaimed, and the queue's `Seed` "appends all ids". The new rows take
the next values of the auto-increment counter. -/
def Project.CreateItems (createFails seedFails : Bool) (p : Project) (contents : List String)
    (s : State) : Except String Unit × State :=
  if createFails then (.error dbError, s)
  else
    let ids := List.range' s.db.nextItemID contents.length
    let rows : List ProjectItem := List.zipWith
      (fun id c => { ID := id, ProjectID := p.ID, Content := c,
                     ReceiverID := none, ReceivedAt := none }) ids contents
    let db1 : Ledger :=
      { s.db with items := s.db.items ++ rows,
                  nextItemID := s.db.nextItemID + contents.length }
    if seedFails then (.error redisError, { s with db := db1 })
    else
      (.ok (), { db := db1, redis := ids.foldl (fun c id => c.RPush p.ItemsKey id) s.redis })

/-- Lines 228-242: the function run inside the ledger transaction. -/
def updateTx (E : UpdateEnv) (project : Project) (req : UpdateProjectRequestBody) (s : State) :
    Except String Unit × State :=
  if E.saveProjectFails then (.error dbError, s)
  else
    let s1 : State := { s with db := s.db.SaveProject project }
    if E.refreshTagsFails then (.error dbError, s1)
    else
      let s2 : State := { s1 with db := project.RefreshTags req.ProjectTags s1.db }
      project.CreateItems E.createItemsFails E.seedFails req.ProjectItems s2

/-- Handler `UpdateProject` for `PUT /api/v1/projects/{id}`. -/
def UpdateProject (E : UpdateEnv) (id : String) (req : UpdateProjectRequestBody) (s : State) :
    Response × State :=
  if E.bindFails then ({ status := 400, errorMsg := "invalid request", data := none }, s)
  else
    match Project.Exact E.loadProjectFails s.db id with
    | .error e => ({ status := 404, errorMsg := e, data := none }, s)
    | .ok loaded =>
      let project : Project :=
        { loaded with
          Name := req.Name
          Description := req.Description
          TotalItems := wrapInt64 (loaded.TotalItems + req.ProjectItems.length)
          StartTime := req.StartTime
          EndTime := req.EndTime
          MinimumTrustLevel := req.MinimumTrustLevel
          AllowSameIP := req.AllowSameIP
          RiskLevel := req.RiskLevel }
      match Transaction E.commitFails (updateTx E project req) s with
      | (.error e, s1) => ({ status := 500, errorMsg := e, data := none }, s1)
      | (.ok (), s1) => ({ status := 200, errorMsg := "", data := none }, s1)

/-! ## `verifyPOW` (pow_middleware.go, lines 114-138) -/

/-- Constant `POW_DIFFICULTY`. -/
def POW_DIFFICULTY : Nat := 18

/-- Cache key of a challenge: `fmt.Sprintf("pow_challenge:%s", challenge)`. -/
def powKey (challenge : String) : String :=
  "pow_challenge:" ++ challenge

/-- The character of a decimal digit. -/
def digitChar (d : Nat) : Char :=
  Char.ofNat (48 + d)

/-- Decimal digits of `n`, most significant first, without leading zeros. -/
def decimalDigits (n : Nat) : List Char :=
  if n < 10 then [digitChar n]
  else decimalDigits (n / 10) ++ [digitChar (n % 10)]
termination_by n
decreasing_by omega

/-- The verb `%d` of `fmt.Sprintf` on a `uint64`. -/
def formatUint (n : Nat) : String :=
  String.mk (decimalDigits n)

/-- Value of a byte of the nonce as a decimal digit, when it is one. -/
def digitValue (c : Char) : Option Nat :=
  if 48 ≤ c.toNat ∧ c.toNat ≤ 57 then some (c.toNat - 48) else none

/-- The loop of `strconv.ParseUint` for base 10 and bit size 64: a character
that is not a digit is a syntax error, and a value above `2^64 - 1` is a range
error (`cutoff = maxUint64/10 + 1`). -/
def parseUintLoop (n : Nat) : List Char → Option Nat
  | [] => some n
  | c :: cs =>
    match digitValue c with
    | none => none
    | some d =>
      if n ≥ (2 ^ 64 - 1) / 10 + 1 then none
      else if n * 10 + d > 2 ^ 64 - 1 then none
      else parseUintLoop (n * 10 + d) cs

/-- Call `strconv.ParseUint(s, 10, 64)`; `none` is an error. -/
def ParseUint (s : String) : Option Nat :=
  if s.data = [] then none else parseUintLoop 0 s.data

/-- Lowercase hexadecimal digit. -/
def hexDigit (d : Nat) : Char :=
  if d < 10 then Char.ofNat (48 + d) else Char.ofNat (87 + d)

/-- Call `hex.EncodeToString`: two lowercase hexadecimal characters per byte. -/
def hexEncodeToString (bs : List UInt8) : String :=
  String.mk (bs.flatMap (fun b => [hexDigit (b.toNat / 16), hexDigit (b.toNat % 16)]))

/-- Call `strings.HasPrefix`. -/
def HasPrefix (s p : String) : Bool :=
  p.data.isPrefixOf s.data

/-- Call `strings.Repeat` on a one-character string. -/
def Repeat (c : Char) (n : Nat) : String :=
  String.mk (List.replicate n c)

/-- Function `verifyPOW`. `Sum256` stands for `sha256.Sum256` on the bytes of
its argument (standard library), `existsFails` for an error of the EXISTS
command, `delFails` for an error of the DEL command of line 123, whose result
the function discards: the key then stays in the store and the function goes
on. The answer is the boolean of the source together with the cache after the
call. -/
def verifyPOW (Sum256 : String → List UInt8) (existsFails delFails : Bool)
    (challenge nonceStr : String) (c : Cache) : Bool × Cache :=
  let key := powKey challenge
  if existsFails || !(c.Exists key) then (false, c)
  else
    let c1 := if delFails then c else c.Del key
    match ParseUint nonceStr with
    | none => (false, c1)
    | some nonce =>
      let input := challenge ++ ":" ++ formatUint nonce
      let hashStr := hexEncodeToString (Sum256 input)
      (HasPrefix hashStr (Repeat '0' POW_DIFFICULTY), c1)

/-- Length of the leading run of the character `0` in a string. -/
def leadingZeros (s : String) : Nat :=
  (s.data.takeWhile (fun c => c = '0')).length

/-! ## Sequences of calls -/

/-- Run `ReceiveProject` on project `id` once for each environment of the
list, one call after the other; the answers are returned in order. -/
def receiveAll : List ReceiveEnv → String → State → List Response × State
  | [], _, s => ([], s)
  | E :: Es, id, s =>
    let r := ReceiveProject E id s
    let rest := receiveAll Es id r.2
    (r.1 :: rest.1, rest.2)

/-- No operation of the call fails. -/
def ReceiveEnv.healthy (E : ReceiveEnv) : Bool :=
  !E.loadProjectFails && !E.loadItemFails && !E.saveItemFails && !E.hasStockFails &&
    !E.saveProjectFails && !E.setNXFails && !E.commitFails

/-- Project `id` is in the state in which seeding leaves it, with the ids `q`
in its queue: the project row `p` exists, the queue holds exactly `q` without
repetition, every queued id has a row, and the rows of the project without a
receiver are exactly the rows whose id is queued. -/
def Seeded (s : State) (id : String) (p : Project) (q : List Nat) : Prop :=
  s.db.findProject id = some p ∧
  s.redis.LRange p.ItemsKey = q ∧
  q.Nodup ∧
  (∀ it ∈ s.db.items, (it.ProjectID = id ∧ it.ReceiverID = none) ↔ it.ID ∈ q) ∧
  (∀ i ∈ q, ∃ it ∈ s.db.items, it.ID = i)

/-! ## Concrete states and requests -/

/-- A project with one item, same address not allowed twice. -/
def exProject : Project :=
  { ID := "p", Name := "n", Description := "", TotalItems := 1, StartTime := 0, EndTime := 1000,
    MinimumTrustLevel := 0, AllowSameIP := false, RiskLevel := 0, CreatorID := 1,
    IsCompleted := false }

/-- The item of `exProject`, not yet claimed. -/
def exItem : ProjectItem :=
  { ID := 1, ProjectID := "p", Content := "secret", ReceiverID := none, ReceivedAt := none }

/-- The item of `exProject`, claimed by user 10 at time 100. -/
def exItemClaimed : ProjectItem :=
  { ID := 1, ProjectID := "p", Content := "secret", ReceiverID := some 10, ReceivedAt := some 100 }

/-- The project right after its creation: the item is unclaimed and queued. -/
def exFresh : State :=
  { db := { projects := [exProject], items := [exItem], tags := [], nextItemID := 2 },
    redis := { lists := [("project:p:items", [1])], strings := [] } }

/-- A state whose queue holds the id of an item that already has a receiver. -/
def exStale : State :=
  { db := { projects := [exProject], items := [exItemClaimed], tags := [], nextItemID := 2 },
    redis := { lists := [("project:p:items", [1])], strings := [] } }

/-- The project with nothing queued. -/
def exEmpty : State :=
  { db := { projects := [exProject], items := [exItemClaimed], tags := [], nextItemID := 2 },
    redis := { lists := [], strings := [] } }

/-- A call by user 20 from 10.0.0.1 in which nothing fails. -/
def exEnv : ReceiveEnv :=
  { userID := 20, clientIP := "10.0.0.1", now := 200, nowTTL := 201,
    loadProjectFails := false, loadItemFails := false, saveItemFails := false,
    hasStockFails := false, saveProjectFails := false, setNXFails := false,
    commitFails := false, rpushFails := false }

/-- The call `exEnv` in which loading the item row fails. -/
def exEnvItemLoadFails : ReceiveEnv := { exEnv with loadItemFails := true }

/-- The call `exEnv` in which saving the item row fails. -/
def exEnvSaveFails : ReceiveEnv := { exEnv with saveItemFails := true }

/-- The call `exEnv` in which the commit of the ledger transaction fails. -/
def exEnvCommitFails : ReceiveEnv := { exEnv with commitFails := true }

/-- The project `exProject` once completed. -/
def exProjectDone : Project := { exProject with IsCompleted := true }

/-- A completed project whose item is claimed and whose queue is empty. -/
def exDone : State :=
  { db := { projects := [exProjectDone], items := [exItemClaimed], tags := [], nextItemID := 2 },
    redis := { lists := [], strings := [] } }

/-- An update of project `p` that adds two items. -/
def exUpdate : UpdateProjectRequestBody :=
  { Name := "n2", Description := "d", ProjectTags := ["t"], StartTime := 0, EndTime := 2000,
    MinimumTrustLevel := 1, AllowSameIP := true, RiskLevel := 0, ProjectItems := ["a", "b"] }

/-- A call of `UpdateProject` in which nothing fails. -/
def exUpdateEnv : UpdateEnv :=
  { bindFails := false, loadProjectFails := false, saveProjectFails := false,
    refreshTagsFails := false, createItemsFails := false, seedFails := false,
    commitFails := false }

/-- A second item of project `p`. -/
def exItem2 : ProjectItem :=
  { ID := 2, ProjectID := "p", Content := "other", ReceiverID := none, ReceivedAt := none }

/-- Project `p` seeded with two items. -/
def exFresh2 : State :=
  { db := { projects := [{ exProject with TotalItems := 2 }], items := [exItem, exItem2],
            tags := [], nextItemID := 3 },
    redis := { lists := [("project:p:items", [1, 2])], strings := [] } }

/-- A stand-in for the digest function that maps every input to 32 zero bytes. -/
def exZeroDigest : String → List UInt8 := fun _ => List.replicate 32 0

/-- A cache in which the challenge `abc` is stored. -/
def exPowCache : Cache :=
  { lists := [], strings := [{ key := "pow_challenge:abc", value := "1", ttl := 300 }] }

/-! ## `POWMiddleware` and `generateChallenge` (pow_middleware.go, lines 56-112) -/

/-- Constant `POW_EXPIRY`, in seconds. -/
def POW_EXPIRY : Int := 5 * 60

/-- The verb `%d` of `fmt.Sprintf` on an `int64`. -/
def formatInt (n : Int) : String :=
  if n < 0 then "-" ++ formatUint n.natAbs else formatUint n.toNat

/-- Function `generateChallenge`: the clock in nanoseconds, an underscore, and
the hexadecimal form of the 16 bytes read from `crypto/rand`. -/
def generateChallenge (nowNano : Int) (random : List UInt8) : String :=
  formatInt nowNano ++ "_" ++ hexEncodeToString random

/-- What a request gets from its surroundings in `POWMiddleware`: the clock
read by `generateChallenge`, the random bytes, the clock in seconds read for
`expires_at`, and whether the SET, the EXISTS and the DEL command fail. -/
structure POWEnv where
  nowNano : Int
  random : List UInt8
  nowUnix : Int
  setFails : Bool
  existsFails : Bool
  delFails : Bool
deriving DecidableEq, Repr

/-- What the middleware does with the request: it lets it proceed
(`c.Next()`), or aborts with a status and a `POWResponse` (error_msg,
challenge, expires_at). -/
inductive GateOutcome where
  | next : GateOutcome
  | abort (status : Nat) (errorMsg : String) (challenge : String) (expiresAt : Int) : GateOutcome
deriving DecidableEq, Repr

/-- Handler returned by `POWMiddleware`. `challenge` and `nonce` are the
values of the headers `X-POW-Challenge` and `X-POW-Nonce` (`GetHeader` gives
the empty string for an absent header). Times to live are in seconds. -/
def POWMiddleware (Sum256 : String → List UInt8) (E : POWEnv)
    (method path challenge nonce : String) (c : Cache) : GateOutcome × Cache :=
  if method ≠ "GET" ∨ path ≠ "/api/v1/projects" then (.next, c)
  else if challenge = "" ∨ nonce = "" then
    let newChallenge := generateChallenge E.nowNano E.random
    let expiresAt := E.nowUnix + POW_EXPIRY
    let key := powKey newChallenge
    if E.setFails then (.abort 500 "Failed to generate challenge" "" 0, c)
    else (.abort 401 "POW challenge required" newChallenge expiresAt, c.Set key "1" POW_EXPIRY)
  else
    match verifyPOW Sum256 E.existsFails E.delFails challenge nonce c with
    | (false, c1) => (.abort 401 "Invalid POW solution" "" 0, c1)
    | (true, c1) => (.next, c1)

/-- The string that `verifyPOW` hashes (line 132) for a nonce header that
parses; `none` when `ParseUint` returns an error. -/
def hashedInput (challenge nonceStr : String) : Option String :=
  match ParseUint nonceStr with
  | none => none
  | some nonce => some (challenge ++ ":" ++ formatUint nonce)

/-- A request environment of the gate in which nothing fails. -/
def exPowEnv : POWEnv :=
  { nowNano := 1700000000000000000, random := [1, 2, 255], nowUnix := 1700000000,
    setFails := false, existsFails := false, delFails := false }

/-- A stand-in for the digest function: 32 zero bytes for the input `abc:7`,
32 bytes 255 for every other input. -/
def exDigest7 : String → List UInt8 :=
  fun s => if s = "abc:7" then List.replicate 32 0 else List.replicate 32 255

/-! ## The queue of a project and the ids handed out -/

/-- The inventory queue of project `id`, empty when the project has no row. -/
def queueOf (s : State) (id : String) : List Nat :=
  match s.db.findProject id with
  | some p => s.redis.LRange p.ItemsKey
  | none => []

/-- The queue of project `id` holds pairwise distinct ids, and each of them is
the id of a row of `project_items`, every row with that id being an Unclaimed
item of the project. -/
def QueueSound (s : State) (id : String) : Prop :=
  (∃ p, s.db.findProject id = some p) ∧
  (queueOf s id).Nodup ∧
  ∀ i ∈ queueOf s id,
    (∃ it ∈ s.db.items, it.ID = i) ∧
    ∀ it ∈ s.db.items, it.ID = i → it.ProjectID = id ∧ it.ReceiverID = none

/-- The item id handed to the caller by a call of `ReceiveProject`: the head of
the project's queue when the call answers 200, nothing otherwise. -/
def handedID (E : ReceiveEnv) (id : String) (s : State) : Option Nat :=
  if (ReceiveProject E id s).1.status = 200 then (queueOf s id).head? else none

/-- The item ids handed out by a sequence of calls of `ReceiveProject` on
project `id`, in order. -/
def handedIDs : List ReceiveEnv → String → State → List Nat
  | [], _, _ => []
  | E :: Es, id, s => (handedID E id s).toList ++ handedIDs Es id (ReceiveProject E id s).2

/-- A project whose window opens at 500 and closes at 1000, same address
allowed. -/
def exWindowProject : Project :=
  { ID := "w", Name := "n", Description := "", TotalItems := 1, StartTime := 500, EndTime := 1000,
    MinimumTrustLevel := 0, AllowSameIP := true, RiskLevel := 0, CreatorID := 1,
    IsCompleted := false }

/-- The item of `exWindowProject`, not yet claimed. -/
def exWindowItem : ProjectItem :=
  { ID := 5, ProjectID := "w", Content := "key", ReceiverID := none, ReceivedAt := none }

/-- The project `exWindowProject` right after its creation. -/
def exWindow : State :=
  { db := { projects := [exWindowProject], items := [exWindowItem], tags := [], nextItemID := 6 },
    redis := { lists := [("project:w:items", [5])], strings := [] } }

/-- The call `exEnv` made at time 2000. -/
def exEnvLate : ReceiveEnv := { exEnv with now := 2000, nowTTL := 2001 }

/-- The fresh one-item project with the dedup record of address 10.0.0.1
already present. -/
def exFreshMarked : State :=
  { exFresh with redis :=
      { lists := [("project:p:items", [1])],
        strings := [{ key := "project:p:ip:10.0.0.1", value := "10.0.0.1", ttl := 900 }] } }

/-! ## `DeleteProject` (routers.go, lines 259-308) -/

/-- Modelled from the spec: the error text `AlreadyReceived` (constant
declared elsewhere in the repository), the "business-rule conflict, e.g.
blocking deletion of a project with claimed items". -/
def AlreadyReceived : String := "AlreadyReceived"

/-- DEL of a list key. -/
def Cache.DelList (c : Cache) (key : String) : Cache :=
  { c with lists := c.lists.filter (fun e => e.1 ≠ key) }

/-- What a call of `DeleteProject` gets from its surroundings: for every
operation whose error the handler inspects, whether it fails in this
execution. -/
structure DeleteEnv where
  loadProjectFails : Bool
  countFails : Bool
  deleteTagsFails : Bool
  deleteItemsFails : Bool
  deleteProjectFails : Bool
  delCacheFails : Bool
  commitFails : Bool
deriving DecidableEq, Repr

/-- Lines 282-300: the function run inside the ledger transaction. -/
def deleteTx (E : DeleteEnv) (project : Project) (s : State) : Except String Unit × State :=
  if E.deleteTagsFails then (.error dbError, s)
  else
    let tags1 := s.db.tags.filter (fun t => t.ProjectID ≠ project.ID)
    let s1 : State := { s with db := { s.db with tags := tags1 } }
    if E.deleteItemsFails then (.error dbError, s1)
    else
      let items1 := s1.db.items.filter (fun r => r.ProjectID ≠ project.ID)
      let s2 : State := { s1 with db := { s1.db with items := items1 } }
      if E.deleteProjectFails then (.error dbError, s2)
      else
        let projects1 := s2.db.projects.filter (fun r => r.ID ≠ project.ID)
        let s3 : State := { s2 with db := { s2.db with projects := projects1 } }
        if E.delCacheFails then (.error redisError, s3)
        else (.ok (), { s3 with redis := s3.redis.DelList project.ItemsKey })

/-- Handler `DeleteProject` for `DELETE /api/v1/projects/{id}`. -/
def DeleteProject (E : DeleteEnv) (id : String) (s : State) : Response × State :=
  match Project.Exact E.loadProjectFails s.db id with
  | .error e => ({ status := 404, errorMsg := e, data := none }, s)
  | .ok project =>
    if E.countFails then ({ status := 500, errorMsg := dbError, data := none }, s)
    else if s.db.claimedCount project.ID > 0 then
      ({ status := 400, errorMsg := AlreadyReceived, data := none }, s)
    else
      match Transaction E.commitFails (deleteTx E project) s with
      | (.error e, s1) => ({ status := 500, errorMsg := e, data := none }, s1)
      | (.ok (), s1) => ({ status := 200, errorMsg := "", data := none }, s1)

/-- A call of `DeleteProject` in which nothing fails. -/
def exDeleteEnv : DeleteEnv :=
  { loadProjectFails := false, countFails := false, deleteTagsFails := false,
    deleteItemsFails := false, deleteProjectFails := false, delCacheFails := false,
    commitFails := false }

/-! ## `GetLoginURL` and `Callback` (oauth/routers.go, lines 48-107) -/

/-- The constants and the provider configuration of package `oauth` that the
two handlers use and that are declared outside `oauth/routers.go`:
`keyFormat s` is `fmt.Sprintf(OAuthStateCacheKeyFormat, s)`. -/
structure OAuthConfig where
  keyFormat : String → String
  OAuthStateCacheKeyExpiration : Int
  InvalidState : String
  AuthCodeURL : String → String

/-- GET of a string key; `none` is the reply redis.Nil. -/
def Cache.Get (c : Cache) (key : String) : Option String :=
  (c.strings.find? (fun e => e.key = key)).map (fun e => e.value)

/-- Handler `GetLoginURL`: `state` is the value of `uuid.NewString()`. -/
def GetLoginURL (cfg : OAuthConfig) (state : String) (setFails : Bool) (c : Cache) :
    Response × Cache :=
  if setFails then ({ status := 500, errorMsg := redisError, data := none }, c)
  else
    ({ status := 200, errorMsg := "", data := some (cfg.AuthCodeURL state) },
      c.Set (cfg.keyFormat state) state cfg.OAuthStateCacheKeyExpiration)

/-- Body of `POST /api/v1/oauth/callback` after JSON decoding. -/
structure CallbackRequest where
  State : String
  Code : String
deriving DecidableEq, Repr

/-- The user returned by `doOAuth` (the fields the handler reads). -/
structure OAuthUser where
  ID : Nat
  Username : String
deriving DecidableEq, Repr

/-- What a call of `Callback` gets from its surroundings: the answer of
`ShouldBindJSON`, whether the GET command fails (its `Val()` is then the empty
string), whether the DEL command of line 89 fails (its result is discarded: the
key then stays in the cache and the handler goes on), the answer of `doOAuth`
(the code exchange with the provider) should it be called, and whether saving
the session fails. -/
structure CallbackEnv where
  bindFails : Bool
  getFails : Bool
  delFails : Bool
  oauthResult : Except String OAuthUser
  sessionSaveFails : Bool

/-- What a call of `Callback` has done: its answer, whether `doOAuth` was
called, the user bound to the session (if any), and the cache after the
call. -/
structure CallbackResult where
  response : Response
  exchanged : Bool
  session : Option OAuthUser
  cache : Cache

/-- Handler `Callback`. -/
def Callback (cfg : OAuthConfig) (E : CallbackEnv) (req : CallbackRequest) (c : Cache) :
    CallbackResult :=
  if E.bindFails then
    { response := { status := 400, errorMsg := "invalid request", data := none },
      exchanged := false, session := none, cache := c }
  else
    let val : String := if E.getFails then "" else (c.Get (cfg.keyFormat req.State)).getD ""
    if val ≠ req.State then
      { response := { status := 400, errorMsg := cfg.InvalidState, data := none },
        exchanged := false, session := none, cache := c }
    else
      let c1 := if E.delFails then c else c.Del (cfg.keyFormat req.State)
      match E.oauthResult with
      | .error e =>
        { response := { status := 500, errorMsg := e, data := none },
          exchanged := true, session := none, cache := c1 }
      | .ok user =>
        if E.sessionSaveFails then
          { response := { status := 500, errorMsg := "session error", data := none },
            exchanged := true, session := none, cache := c1 }
        else
          { response := { status := 200, errorMsg := "", data := none },
            exchanged := true, session := some user, cache := c1 }

/-- A configuration of the two handlers. -/
def exOAuthConfig : OAuthConfig :=
  { keyFormat := fun s => "oauth:state:" ++ s, OAuthStateCacheKeyExpiration := 600,
    InvalidState := "InvalidState", AuthCodeURL := fun s => "https://provider/authorize?state=" ++ s }

/-- A call of `Callback` in which nothing fails and the provider accepts the
code. -/
def exCallbackEnv : CallbackEnv :=
  { bindFails := false, getFails := false, delFails := false,
    oauthResult := .ok { ID := 7, Username := "mallory" }, sessionSaveFails := false }

/-- A cache without any entry. -/
def exNoCache : Cache := { lists := [], strings := [] }

/-! ## `ListProjectsWithTags` and `ListMyProjectsWithTags` (utils.go, lines 47-324) -/

/-- A value bound to a placeholder of a raw query. -/
inductive SqlParam where
  | time (t : Int) : SqlParam
  | int (n : Int) : SqlParam
  | strings (l : List String) : SqlParam
deriving DecidableEq, Repr

/-- The fields of `ListProjectsRequest` that `utils.go` reads. -/
structure ListProjectsRequest where
  MinTrustLevel : Int
  MaxTrustLevel : Int
  MinTotalItems : Int
  MaxTotalItems : Int
  StartTimeFrom : String
  StartTimeTo : String
  EndTimeFrom : String
  EndTimeTo : String
  SortBy : String
  SortOrder : String
deriving DecidableEq, Repr

/-- What `ListProjectsWithTags` reads of the current user: `ID`,
`TrustLevel` and the value of `RiskLevel()`. -/
structure ListUser where
  ID : Nat
  TrustLevel : Int
  RiskLevel : Int
deriving DecidableEq, Repr

/-- The two query texts under construction and the parameter slice. -/
structure QueryBuilder where
  countSql : String
  listSql : String
  parameters : List SqlParam
deriving DecidableEq, Repr

/-- One filter block of the source: when the block's condition holds (`v` is
the value to bind), the first literal is appended to the count query, the
second literal to the list query, and the value to the parameters. -/
def QueryBuilder.addWhen (b : QueryBuilder) (v : Option SqlParam) (fragCount fragList : String) :
    QueryBuilder :=
  match v with
  | some p =>
    { countSql := b.countSql ++ fragCount, listSql := b.listSql ++ fragList,
      parameters := b.parameters ++ [p] }
  | none => b

/-- The value bound by a filter block guarded by `req != nil` and a
condition on the request. -/
def reqValue (req : Option ListProjectsRequest) (cond : ListProjectsRequest → Bool)
    (v : ListProjectsRequest → SqlParam) : Option SqlParam :=
  match req with
  | some r => if cond r then some (v r) else none
  | none => none

/-- The value bound by a time filter block: the field is not empty and
`time.Parse(time.RFC3339, field)` (`parseTime`) returns no error. -/
def reqTime (parseTime : String → Option Int) (req : Option ListProjectsRequest)
    (field : ListProjectsRequest → String) : Option SqlParam :=
  match req with
  | some r =>
    if field r ≠ "" then
      match parseTime (field r) with
      | some t => some (SqlParam.time t)
      | none => none
    else none
  | none => none

/-- The filter blocks, lines 65-130 of `ListProjectsWithTags` and, with the
same literals in the same order, lines 203-268 of `ListMyProjectsWithTags`. -/
def applyFilters (parseTime : String → Option Int) (tags : List String)
    (req : Option ListProjectsRequest) (b : QueryBuilder) : QueryBuilder :=
  let b1 := b.addWhen (if tags.length > 0 then some (SqlParam.strings tags) else none)
    " AND pt.tag IN (?)" " AND pt.tag IN (?)"
  let b2 := b1.addWhen (reqValue req (fun r => r.MinTrustLevel ≥ 0) (fun r => .int r.MinTrustLevel))
    " AND p.minimum_trust_level >= ?" " AND p.minimum_trust_level >= ?"
  let b3 := b2.addWhen (reqValue req (fun r => r.MaxTrustLevel ≥ 0) (fun r => .int r.MaxTrustLevel))
    " AND p.minimum_trust_level <= ?" " AND p.minimum_trust_level <= ?"
  let b4 := b3.addWhen (reqValue req (fun r => r.MinTotalItems > 0) (fun r => .int r.MinTotalItems))
    " AND p.total_items >= ?" " AND p.total_items >= ?"
  let b5 := b4.addWhen (reqValue req (fun r => r.MaxTotalItems > 0) (fun r => .int r.MaxTotalItems))
    " AND p.total_items <= ?" " AND p.total_items <= ?"
  let b6 := b5.addWhen (reqTime parseTime req (fun r => r.StartTimeFrom))
    " AND p.start_time >= ?" " AND p.start_time >= ?"
  let b7 := b6.addWhen (reqTime parseTime req (fun r => r.StartTimeTo))
    " AND p.start_time <= ?" " AND p.start_time <= ?"
  let b8 := b7.addWhen (reqTime parseTime req (fun r => r.EndTimeFrom))
    " AND p.end_time >= ?" " AND p.end_time >= ?"
  b8.addWhen (reqTime parseTime req (fun r => r.EndTimeTo))
    " AND p.end_time <= ?" " AND p.end_time <= ?"

/-- The `switch req.SortBy` of both functions; `fallback` is the value of
`sortField` before the switch. -/
def sortFieldOf (fallback : String) (req : Option ListProjectsRequest) : String :=
  match req with
  | some r =>
    if r.SortBy ≠ "" then
      if r.SortBy = "trust_level" then "p.minimum_trust_level"
      else if r.SortBy = "total_items" then "p.total_items"
      else if r.SortBy = "start_time" then "p.start_time"
      else if r.SortBy = "end_time" then "p.end_time"
      else if r.SortBy = "created_at" then "p.created_at"
      else fallback
    else fallback
  | none => fallback

/-- The sort direction of `ListProjectsWithTags` (lines 149-168). -/
def sortDirectionList (req : Option ListProjectsRequest) : String :=
  match req with
  | some r => if r.SortBy ≠ "" then (if r.SortOrder = "desc" then "DESC" else "ASC") else "ASC"
  | none => "ASC"

/-- The sort direction of `ListMyProjectsWithTags` (lines 286-309). -/
def sortDirectionMine (req : Option ListProjectsRequest) : String :=
  match req with
  | some r =>
    if r.SortBy ≠ "" then
      if r.SortOrder ≠ "" then (if r.SortOrder = "asc" then "ASC" else "DESC") else "DESC"
    else "DESC"
  | none => "DESC"

/-- The two raw queries a listing function builds, each with the parameters
passed to `Raw`. The list query is issued only when the count query has
answered a total that is not zero. -/
structure ListQueries where
  countSql : String
  countParams : List SqlParam
  listSql : String
  listParams : List SqlParam
deriving DecidableEq, Repr

/-- Initial text of `getTotalCountSql` in `ListProjectsWithTags`. -/
def exploreCountBase : String :=
  "SELECT COUNT(DISTINCT p.id) as total\n\t\t\tFROM projects p\n\t\t\tLEFT JOIN project_tags pt ON p.id = pt.project_id\n\t\t\tWHERE p.end_time > ? AND p.is_completed = false AND p.status = ? AND p.minimum_trust_level <= ? AND p.risk_level >= ? AND p.hide_from_explore = false AND NOT EXISTS ( SELECT 1 FROM project_items pi WHERE pi.project_id = p.id AND pi.receiver_id = ?)"

/-- Initial text of `getProjectWithTagsSql` in `ListProjectsWithTags`. -/
def exploreListBase : String :=
  "SELECT \n    \t\t\tp.id,p.name,p.description,p.distribution_type,p.total_items,\n       \t\t\tp.start_time,p.end_time,p.minimum_trust_level,p.allow_same_ip,p.risk_level,p.created_at,\n\t\t\t\tIF(COUNT(pt.tag) = 0, NULL, JSON_ARRAYAGG(pt.tag)) AS tags\n\t\t\tFROM projects p\n\t\t\tLEFT JOIN project_tags pt ON p.id = pt.project_id\n\t\t\tWHERE p.end_time > ? AND p.is_completed = false AND p.status = ? AND p.minimum_trust_level <= ? AND p.risk_level >= ? AND p.hide_from_explore = false AND NOT EXISTS ( SELECT 1 FROM project_items pi WHERE pi.project_id = p.id AND pi.receiver_id = ?)"

/-- Initial text of `getTotalCountSql` in `ListMyProjectsWithTags`. -/
def mineCountBase : String :=
  "SELECT COUNT(DISTINCT p.id) as total\n\t\t\tFROM projects p\n\t\t\tLEFT JOIN project_tags pt ON p.id = pt.project_id\n\t\t\tWHERE p.creator_id = ? AND p.status = ?"

/-- Initial text of `getMyProjectWithTagsSql` in `ListMyProjectsWithTags`. -/
def mineListBase : String :=
  "SELECT \n\t\t\t\tp.id,p.name,p.description,p.distribution_type,p.total_items,\n\t\t\t\tp.start_time,p.end_time,p.minimum_trust_level,p.allow_same_ip,p.risk_level,p.created_at,\n\t\t\t\tIF(COUNT(pt.tag) = 0, NULL, JSON_ARRAYAGG(pt.tag)) AS tags\n\t\t\tFROM projects p\n\t\t\tLEFT JOIN project_tags pt ON p.id = pt.project_id\n\t\t\tWHERE p.creator_id = ? AND p.status = ?"

/-- Function `ListProjectsWithTags`, as far as the queries it builds.
`statusNormal` is the constant `ProjectStatusNormal`, `now` the clock. -/
def ListProjectsWithTags (parseTime : String → Option Int) (statusNormal : Int) (now : Int)
    (offset limit : Int) (tags : List String) (currentUser : ListUser)
    (req : Option ListProjectsRequest) : ListQueries :=
  let b0 : QueryBuilder :=
    { countSql := exploreCountBase, listSql := exploreListBase,
      parameters := [.time now, .int statusNormal, .int currentUser.TrustLevel,
        .int currentUser.RiskLevel, .int currentUser.ID] }
  let b := applyFilters parseTime tags req b0
  let sortField := sortFieldOf "p.end_time" req
  let sortDirection := sortDirectionList req
  { countSql := b.countSql, countParams := b.parameters,
    listSql := b.listSql ++ " GROUP BY p.id ORDER BY " ++ sortField ++ " " ++ sortDirection
      ++ " LIMIT ? OFFSET ?",
    listParams := b.parameters ++ [.int limit, .int offset] }

/-- Function `ListMyProjectsWithTags`, as far as the queries it builds. -/
def ListMyProjectsWithTags (parseTime : String → Option Int) (statusNormal : Int)
    (creatorID : Nat) (offset limit : Int) (tags : List String)
    (req : Option ListProjectsRequest) : ListQueries :=
  let b0 : QueryBuilder :=
    { countSql := mineCountBase, listSql := mineListBase,
      parameters := [.int creatorID, .int statusNormal] }
  let b := applyFilters parseTime tags req b0
  let sortField := sortFieldOf "p.created_at" req
  let sortDirection := sortDirectionMine req
  { countSql := b.countSql, countParams := b.parameters,
    listSql := b.listSql ++ " GROUP BY p.id ORDER BY " ++ sortField ++ " " ++ sortDirection
      ++ " LIMIT ? OFFSET ?",
    listParams := b.parameters ++ [.int limit, .int offset] }

/-- The nine literals of the filter blocks, in source order. -/
def filterFragments : List String :=
  [" AND pt.tag IN (?)", " AND p.minimum_trust_level >= ?", " AND p.minimum_trust_level <= ?",
   " AND p.total_items >= ?", " AND p.total_items <= ?", " AND p.start_time >= ?",
   " AND p.start_time <= ?", " AND p.end_time >= ?", " AND p.end_time <= ?"]

/-- The five columns a listing can be ordered by. -/
def sortColumns : List String :=
  ["p.minimum_trust_level", "p.total_items", "p.start_time", "p.end_time", "p.created_at"]

/-- The five values of `SortBy` that the switch knows. -/
def sortKeys : List String :=
  ["trust_level", "total_items", "start_time", "end_time", "created_at"]

/-- A request whose SortBy and SortOrder carry SQL text. -/
def exHostileRequest : ListProjectsRequest :=
  { MinTrustLevel := 1, MaxTrustLevel := -1, MinTotalItems := 0, MaxTotalItems := 10,
    StartTimeFrom := "x", StartTimeTo := "", EndTimeFrom := "", EndTimeTo := "",
    SortBy := "name; DROP TABLE projects", SortOrder := "desc; --" }

/-- The texts of a builder are its initial texts followed by some of the
literals of `l`, the same ones for both texts, in the order of `l`. -/
def BuiltFrom (b : QueryBuilder) (countBase listBase : String) (l : List String) : Prop :=
  ∃ frags : List String, List.Sublist frags l ∧
    b.countSql = frags.foldl (fun a x => a ++ x) countBase ∧
    b.listSql = frags.foldl (fun a x => a ++ x) listBase

/-- Number of placeholders `?` in a query text. -/
def placeholders (s : String) : Nat :=
  s.data.count '?'

/-- The time to live of a string entry in nanoseconds. -/
def CacheString.ttlNanos (e : CacheString) : Int :=
  if e.millis then e.ttl * Millisecond else e.ttl * Second

/-- The call `exEnv` in which the cache stops answering after the pop: the
`SetNX` and the RPUSH of the error branch fail. -/
def exEnvCacheDown : ReceiveEnv := { exEnv with setNXFails := true, rpushFails := true }

/-- The call `exEnv` with the clock of the dedup step at 1000, the end_time of
`exProject`. -/
def exEnvAtEnd : ReceiveEnv := { exEnv with nowTTL := 1000 }

/-- The project `exProject` with its end_time 2^64 nanoseconds after the epoch. -/
def exFarProject : Project := { exProject with EndTime := 18446744073709551616 }

/-- The project `exFarProject` right after its creation. -/
def exFar : State :=
  { db := { projects := [exFarProject], items := [exItem], tags := [], nextItemID := 2 },
    redis := { lists := [("project:p:items", [1])], strings := [] } }

/-- Whether the dedup step of a call on `project` is answered without error by
a cache that can be reached: always when the project allows the same address
twice (no command is sent), otherwise when the server accepts the time to live
of the `SetNX`. -/
def ReceiveEnv.expiryAccepted (E : ReceiveEnv) (project : Project) : Bool :=
  project.AllowSameIP ||
    (setNXRecord (project.SameIPCacheKey E.clientIP) E.clientIP
      (timeSub project.EndTime E.nowTTL)).isSome

/-! ## Lemmas on the cache and the ledger -/

theorem LRange_setList (c : Cache) (key : String) (v : List Nat) :
    (c.setList key v).LRange key = v := by
  simp [Cache.LRange, Cache.setList]

theorem LPop_nil {c : Cache} {key : String} (h : c.LRange key = []) :
    c.LPop key = (none, c) := by
  simp [Cache.LPop, h]

theorem LPop_cons {c : Cache} {key : String} {x : Nat} {xs : List Nat}
    (h : c.LRange key = x :: xs) : c.LPop key = (some x, c.setList key xs) := by
  simp [Cache.LPop, h]

theorem PrepareReceive_nil {p : Project} {c : Cache} (h : c.LRange p.ItemsKey = []) :
    p.PrepareReceive c = (.error NoStock, c) := by
  simp [Project.PrepareReceive, LPop_nil h]

theorem PrepareReceive_cons {p : Project} {c : Cache} {x : Nat} {xs : List Nat}
    (h : c.LRange p.ItemsKey = x :: xs) :
    p.PrepareReceive c = (.ok x, c.setList p.ItemsKey xs) := by
  simp [Project.PrepareReceive, LPop_cons h]

theorem timeSub_nonneg {t u : Int} (h : u ≤ t) : 0 ≤ timeSub t u := by
  unfold timeSub minDuration maxDuration
  split
  · omega
  · split <;> omega

theorem timeSub_neg {t u : Int} (h : t + 1 < u) : timeSub t u < -1 := by
  unfold timeSub minDuration maxDuration
  split
  · omega
  · split <;> omega

theorem timeSub_eq {t u : Int} (h1 : minDuration ≤ t - u) (h2 : t - u ≤ maxDuration) :
    timeSub t u = t - u := by
  unfold timeSub
  rw [if_neg (by omega), if_neg (by omega)]

theorem timeSub_le_max (t u : Int) : timeSub t u ≤ maxDuration := by
  unfold timeSub minDuration maxDuration
  split
  · omega
  · split <;> omega

/-- The server refuses every negative expiration other than `KeepTTL`. -/
theorem setNXRecord_neg (k v : String) {d : Int} (h : d < -1) : setNXRecord k v d = none := by
  have hm : d.tdiv Millisecond ≤ 0 := by
    have h1 : 0 ≤ (-d).tdiv Millisecond :=
      Int.tdiv_nonneg (by omega) (by unfold Millisecond; omega)
    rw [Int.neg_tdiv] at h1
    omega
  have hp : usePrecise d = true := by
    unfold usePrecise Second
    exact decide_eq_true (Or.inl (by omega))
  have h0 : ¬ (d = 0 ∨ d = KeepTTL) := by unfold KeepTTL; omega
  have hf : formatMs d ≤ 0 := by
    unfold formatMs
    rw [if_neg (by omega)]
    exact hm
  unfold setNXRecord
  rw [if_neg h0, hp, if_pos rfl, if_pos hf]

/-- The server accepts every expiration that is not negative. -/
theorem setNXRecord_nonneg (k v : String) {d : Int} (h : 0 ≤ d) :
    (setNXRecord k v d).isSome = true := by
  unfold setNXRecord
  split
  · rfl
  · rename_i h0
    have hd : 0 < d := by
      rcases Int.lt_or_lt_of_ne (fun e : d = 0 => h0 (Or.inl e)) with h1 | h1
      · omega
      · exact h1
    split
    · have hf : ¬ formatMs d ≤ 0 := by
        unfold formatMs
        split
        · omega
        · rename_i hlt
          have hge : Millisecond ≤ d := by
            by_contra hc
            exact hlt ⟨hd, by omega⟩
          rw [Int.tdiv_eq_ediv (by omega) (by unfold Millisecond; omega)]
          unfold Millisecond at hge ⊢
          omega
      rw [if_neg hf]
      rfl
    · have hf : ¬ formatSec d ≤ 0 := by
        unfold formatSec
        split
        · omega
        · rename_i hlt
          have hge : Second ≤ d := by
            by_contra hc
            exact hlt ⟨hd, by omega⟩
          rw [Int.tdiv_eq_ediv (by omega) (by unfold Second; omega)]
          unfold Second at hge ⊢
          omega
      rw [if_neg hf]
      rfl

theorem setNXRecord_key {k v : String} {d : Int} {e : CacheString}
    (h : setNXRecord k v d = some e) : e.key = k ∧ e.value = v := by
  unfold setNXRecord at h
  split at h
  · cases h; exact ⟨rfl, rfl⟩
  · split at h
    · split at h
      · cases h
      · cases h; exact ⟨rfl, rfl⟩
    · split at h
      · cases h
      · cases h; exact ⟨rfl, rfl⟩

theorem SetNXEntry_lists (c : Cache) (e : CacheString) : (c.SetNXEntry e).lists = c.lists := by
  unfold Cache.SetNXEntry
  split <;> rfl

theorem SetNXAccepted_lists (c : Cache) (k v : String) (d : Int) :
    (c.SetNXAccepted k v d).lists = c.lists := by
  unfold Cache.SetNXAccepted Cache.SetNX
  cases setNXRecord k v d with
  | none => rfl
  | some e => exact SetNXEntry_lists c e

theorem SetNXAccepted_of_some {c : Cache} {k v : String} {d : Int} {e : CacheString}
    (h : setNXRecord k v d = some e) : c.SetNXAccepted k v d = c.SetNXEntry e := by
  unfold Cache.SetNXAccepted Cache.SetNX
  rw [h]
  rfl

theorem receiveCheckIP_db (E : ReceiveEnv) (p : Project) (s : State) :
    (receiveCheckIP E p s).2.db = s.db := by
  unfold receiveCheckIP
  split
  · split
    · rfl
    · split <;> rfl
  · rfl

theorem receiveCheckIP_lists (E : ReceiveEnv) (p : Project) (s : State) :
    (receiveCheckIP E p s).2.redis.lists = s.redis.lists := by
  unfold receiveCheckIP
  split
  · split
    · rfl
    · unfold Cache.SetNX
      cases setNXRecord (p.SameIPCacheKey E.clientIP) E.clientIP (timeSub p.EndTime E.nowTTL) with
      | none => rfl
      | some e => exact SetNXEntry_lists _ e
  · rfl

theorem Transaction_ok {c : Bool} {fc : State → Except String Unit × State} {s s2 : State}
    (h : Transaction c fc s = (.ok (), s2)) : c = false ∧ fc s = (.ok (), s2) := by
  unfold Transaction at h
  split at h
  · simp at h
  · rename_i s1 heq
    cases c with
    | true => simp at h
    | false =>
      simp only [Bool.false_eq_true, if_false, Prod.mk.injEq, true_and] at h
      exact ⟨rfl, by rw [heq, h]⟩

theorem Transaction_error {c : Bool} {fc : State → Except String Unit × State} {s s2 : State}
    {e : String} (h : Transaction c fc s = (.error e, s2)) :
    s2.db.projects = s.db.projects ∧ s2.db.items = s.db.items ∧ s2.db.tags = s.db.tags ∧
      s2.redis = (fc s).2.redis ∧ s2.db.nextItemID = (fc s).2.db.nextItemID ∧
      ((fc s).1 = .error e ∨ ((fc s).1 = .ok () ∧ c = true)) := by
  unfold Transaction at h
  split at h
  · rename_i e1 s1 heq
    simp only [Prod.mk.injEq, Except.error.injEq] at h
    obtain ⟨he, hs⟩ := h
    subst hs
    simp [heq, he]
  · rename_i s1 heq
    cases c with
    | true =>
      simp only [if_true, Prod.mk.injEq, Except.error.injEq] at h
      obtain ⟨he, hs⟩ := h
      subst hs
      simp [heq]
    | false => simp at h

/-- The five ways a call of `ReceiveProject` can run. -/
theorem ReceiveProject_cases (E : ReceiveEnv) (id : String) (s : State) :
    (∃ e, Project.Exact E.loadProjectFails s.db id = .error e ∧
        ReceiveProject E id s = ({ status := 404, errorMsg := e, data := none }, s)) ∨
    (∃ project, Project.Exact E.loadProjectFails s.db id = .ok project ∧
        s.redis.LRange project.ItemsKey = [] ∧
        ReceiveProject E id s = ({ status := 500, errorMsg := NoStock, data := none }, s)) ∨
    (∃ project itemID rest e, Project.Exact E.loadProjectFails s.db id = .ok project ∧
        s.redis.LRange project.ItemsKey = itemID :: rest ∧
        ProjectItem.Exact E.loadItemFails s.db itemID = .error e ∧
        ReceiveProject E id s = ({ status := 404, errorMsg := e, data := none },
          { s with redis := s.redis.setList project.ItemsKey rest })) ∨
    (∃ project itemID rest item e s2, Project.Exact E.loadProjectFails s.db id = .ok project ∧
        s.redis.LRange project.ItemsKey = itemID :: rest ∧
        ProjectItem.Exact E.loadItemFails s.db itemID = .ok item ∧
        Transaction E.commitFails (receiveTx E project item)
          { s with redis := s.redis.setList project.ItemsKey rest } = (.error e, s2) ∧
        ReceiveProject E id s = ({ status := 500, errorMsg := e, data := none },
          if E.rpushFails then s2
          else { s2 with redis := s2.redis.RPush project.ItemsKey itemID })) ∨
    (∃ project itemID rest item s2, Project.Exact E.loadProjectFails s.db id = .ok project ∧
        s.redis.LRange project.ItemsKey = itemID :: rest ∧
        ProjectItem.Exact E.loadItemFails s.db itemID = .ok item ∧
        Transaction E.commitFails (receiveTx E project item)
          { s with redis := s.redis.setList project.ItemsKey rest } = (.ok (), s2) ∧
        ReceiveProject E id s =
          ({ status := 200, errorMsg := "", data := some item.Content }, s2)) := by
  cases hp : Project.Exact E.loadProjectFails s.db id with
  | error e =>
    left
    exact ⟨e, rfl, by simp [ReceiveProject, hp]⟩
  | ok project =>
    right
    cases hq : s.redis.LRange project.ItemsKey with
    | nil =>
      left
      exact ⟨project, rfl, hq, by simp [ReceiveProject, hp, PrepareReceive_nil hq]⟩
    | cons itemID rest =>
      right
      cases hi : ProjectItem.Exact E.loadItemFails s.db itemID with
      | error e =>
        left
        exact ⟨project, itemID, rest, e, rfl, hq, hi,
          by simp [ReceiveProject, hp, PrepareReceive_cons hq, hi]⟩
      | ok item =>
        right
        cases ht : Transaction E.commitFails (receiveTx E project item)
            { s with redis := s.redis.setList project.ItemsKey rest } with
        | mk r s2 =>
          cases r with
          | error e =>
            left
            exact ⟨project, itemID, rest, item, e, s2, rfl, hq, hi, ht,
              by simp [ReceiveProject, hp, PrepareReceive_cons hq, hi, ht]⟩
          | ok u =>
            right
            exact ⟨project, itemID, rest, item, s2, rfl, hq, hi, ht,
              by simp [ReceiveProject, hp, PrepareReceive_cons hq, hi, ht]⟩

theorem receiveCheckIP_ok {E : ReceiveEnv} {p : Project} {s s2 : State}
    (h : receiveCheckIP E p s = (.ok (), s2)) :
    s2.db = s.db ∧
    s2.redis = (if p.AllowSameIP then s.redis
      else s.redis.SetNXAccepted (p.SameIPCacheKey E.clientIP) E.clientIP
        (timeSub p.EndTime E.nowTTL)) ∧
    (p.AllowSameIP = false → E.setNXFails = false) ∧
    (p.AllowSameIP = false →
      (setNXRecord (p.SameIPCacheKey E.clientIP) E.clientIP
        (timeSub p.EndTime E.nowTTL)).isSome = true) := by
  unfold receiveCheckIP at h
  cases ha : p.AllowSameIP with
  | true =>
    simp only [ha, Bool.not_true, Bool.false_eq_true, if_false, Prod.mk.injEq, true_and] at h
    subst h
    simp
  | false =>
    cases hn : E.setNXFails with
    | true => simp [ha, hn] at h
    | false =>
      simp only [ha, hn, Bool.not_false, if_true, Bool.false_eq_true, if_false] at h
      unfold Cache.SetNXAccepted
      unfold Cache.SetNX at h ⊢
      cases hr : setNXRecord (p.SameIPCacheKey E.clientIP) E.clientIP
          (timeSub p.EndTime E.nowTTL) with
      | none => simp [hr] at h
      | some e =>
        simp only [hr, Option.map_some', Prod.mk.injEq, true_and] at h
        subst h
        simp

theorem receiveCheckIP_error {E : ReceiveEnv} {p : Project} {s s2 : State} {e : String}
    (h : receiveCheckIP E p s = (.error e, s2)) : s2 = s := by
  unfold receiveCheckIP at h
  cases ha : p.AllowSameIP with
  | true => simp [ha] at h
  | false =>
    cases hn : E.setNXFails with
    | true =>
      simp only [ha, hn, Bool.not_false, if_true, Prod.mk.injEq] at h
      exact h.2.symm
    | false =>
      simp only [ha, hn, Bool.not_false, if_true, Bool.false_eq_true, if_false] at h
      unfold Cache.SetNX at h
      cases hr : setNXRecord (p.SameIPCacheKey E.clientIP) E.clientIP
          (timeSub p.EndTime E.nowTTL) with
      | none =>
        simp only [hr, Option.map_none', Prod.mk.injEq] at h
        exact h.2.symm
      | some e => simp [hr] at h

/-- What the transaction function has done when it returns without error. -/
theorem receiveTx_ok {E : ReceiveEnv} {p : Project} {it : ProjectItem} {s s2 : State}
    (h : receiveTx E p it s = (.ok (), s2)) :
    E.saveItemFails = false ∧ E.hasStockFails = false ∧
    s2.db = (if p.HasStock
                (s.db.SaveItem { it with ReceiverID := some E.userID, ReceivedAt := some E.now })
      then s.db.SaveItem { it with ReceiverID := some E.userID, ReceivedAt := some E.now }
      else (s.db.SaveItem { it with ReceiverID := some E.userID, ReceivedAt := some E.now }
            ).SaveProject { p with IsCompleted := true }) ∧
    s2.redis = (if p.AllowSameIP then s.redis
      else s.redis.SetNXAccepted (p.SameIPCacheKey E.clientIP) E.clientIP
        (timeSub p.EndTime E.nowTTL)) ∧
    (p.AllowSameIP = false → E.setNXFails = false) ∧
    (p.AllowSameIP = false →
      (setNXRecord (p.SameIPCacheKey E.clientIP) E.clientIP
        (timeSub p.EndTime E.nowTTL)).isSome = true) := by
  unfold receiveTx at h
  cases h1 : E.saveItemFails with
  | true => simp [h1] at h
  | false =>
    cases h2 : E.hasStockFails with
    | true => simp [h1, h2] at h
    | false =>
      cases h3 : p.HasStock
          (s.db.SaveItem { it with ReceiverID := some E.userID, ReceivedAt := some E.now }) with
      | true =>
        simp only [h1, h2, h3, Bool.false_eq_true, if_false, Bool.not_true] at h
        obtain ⟨hd, hr, hn, hacc⟩ := receiveCheckIP_ok h
        exact ⟨rfl, rfl, by simpa using hd, by simpa using hr, hn, hacc⟩
      | false =>
        cases h4 : E.saveProjectFails with
        | true => simp [h1, h2, h3, h4] at h
        | false =>
          simp only [h1, h2, h3, h4, Bool.false_eq_true, if_false, Bool.not_false, if_true] at h
          obtain ⟨hd, hr, hn, hacc⟩ := receiveCheckIP_ok h
          exact ⟨rfl, rfl, by simpa using hd, by simpa [Project.SameIPCacheKey] using hr,
            by simpa using hn, by simpa [Project.SameIPCacheKey] using hacc⟩

/-- A transaction function that returns an error has not written to the cache. -/
theorem receiveTx_error {E : ReceiveEnv} {p : Project} {it : ProjectItem} {s s2 : State}
    {e : String} (h : receiveTx E p it s = (.error e, s2)) : s2.redis = s.redis := by
  unfold receiveTx at h
  cases h1 : E.saveItemFails with
  | true =>
    simp only [h1, if_true, Prod.mk.injEq] at h
    rw [← h.2]
  | false =>
    cases h2 : E.hasStockFails with
    | true =>
      simp only [h1, h2, if_true, Bool.false_eq_true, if_false, Prod.mk.injEq] at h
      rw [← h.2]
    | false =>
      cases h3 : p.HasStock
          (s.db.SaveItem { it with ReceiverID := some E.userID, ReceivedAt := some E.now }) with
      | true =>
        simp only [h1, h2, h3, Bool.false_eq_true, if_false, Bool.not_true] at h
        rw [receiveCheckIP_error h]
      | false =>
        cases h4 : E.saveProjectFails with
        | true =>
          simp only [h1, h2, h3, h4, if_true, Bool.false_eq_true, if_false, Bool.not_false,
            Prod.mk.injEq] at h
          rw [← h.2]
        | false =>
          simp only [h1, h2, h3, h4, Bool.false_eq_true, if_false, Bool.not_false, if_true] at h
          rw [receiveCheckIP_error h]

theorem receiveTx_nextItemID (E : ReceiveEnv) (p : Project) (it : ProjectItem) (s : State) :
    (receiveTx E p it s).2.db.nextItemID = s.db.nextItemID := by
  have hs : ∀ (d : Ledger) (x : ProjectItem), (d.SaveItem x).nextItemID = d.nextItemID := by
    intro d x; unfold Ledger.SaveItem; split <;> rfl
  have hp : ∀ (d : Ledger) (x : Project), (d.SaveProject x).nextItemID = d.nextItemID := by
    intro d x; unfold Ledger.SaveProject; split <;> rfl
  unfold receiveTx
  dsimp only
  split
  · rfl
  · split
    · exact hs _ _
    · split
      · split
        · exact hs _ _
        · rw [receiveCheckIP_db]; simp [hs, hp]
      · rw [receiveCheckIP_db]; exact hs _ _

theorem find?_replace {α β : Type} [DecidableEq β] (f : α → β) (x : α) (l : List α) (b : β) :
    (l.map (fun r => if f r = f x then x else r)).find? (fun r => decide (f r = b)) =
      if b = f x then (if l.any (fun r => decide (f r = f x)) then some x else none)
      else l.find? (fun r => decide (f r = b)) := by
  induction l with
  | nil => simp
  | cons a t ih =>
    simp only [List.map_cons, List.find?_cons, List.any_cons, ih]
    by_cases hb : b = f x
    · subst hb
      by_cases ha : f a = f x
      · simp [ha]
      · simp [ha]
    · by_cases ha : f a = f x
      · have : ¬ f x = b := fun h => hb h.symm
        simp [ha, hb, this]
      · simp [ha, hb]

theorem find?_append_single {α β : Type} [DecidableEq β] (f : α → β) (x : α) (l : List α) (b : β)
    (h : l.any (fun r => decide (f r = f x)) = false) :
    (l ++ [x]).find? (fun r => decide (f r = b)) =
      if b = f x then some x else l.find? (fun r => decide (f r = b)) := by
  induction l with
  | nil =>
    by_cases hb : b = f x
    · simp [hb]
    · have : ¬ f x = b := fun h => hb h.symm
      simp [hb, this]
  | cons a t ih =>
    simp only [List.any_cons, Bool.or_eq_false_iff, decide_eq_false_iff_not] at h
    simp only [List.cons_append, List.find?_cons, ih h.2]
    by_cases hb : b = f x
    · subst hb
      simp [h.1]
    · by_cases ha : f a = b
      · simp [ha, hb]
      · simp [ha, hb]

theorem findItem_SaveItem (db : Ledger) (it : ProjectItem) (id : Nat) :
    (db.SaveItem it).findItem id = if id = it.ID then some it else db.findItem id := by
  unfold Ledger.SaveItem Ledger.findItem
  by_cases h : db.items.any (fun r => decide (r.ID = it.ID)) = true
  · rw [if_pos h]
    simp only
    rw [find?_replace (fun r : ProjectItem => r.ID) it db.items id, h]
    simp
  · rw [if_neg h]
    simp only
    rw [find?_append_single (fun r : ProjectItem => r.ID) it db.items id (by simpa using h)]

theorem findProject_SaveProject (db : Ledger) (p : Project) (id : String) :
    (db.SaveProject p).findProject id = if id = p.ID then some p else db.findProject id := by
  unfold Ledger.SaveProject Ledger.findProject
  by_cases h : db.projects.any (fun r => decide (r.ID = p.ID)) = true
  · rw [if_pos h]
    simp only
    rw [find?_replace (fun r : Project => r.ID) p db.projects id, h]
    simp
  · rw [if_neg h]
    simp only
    rw [find?_append_single (fun r : Project => r.ID) p db.projects id (by simpa using h)]

theorem SaveItem_projects (db : Ledger) (it : ProjectItem) :
    (db.SaveItem it).projects = db.projects := by
  unfold Ledger.SaveItem; split <;> rfl

theorem SaveProject_items (db : Ledger) (p : Project) :
    (db.SaveProject p).items = db.items := by
  unfold Ledger.SaveProject; split <;> rfl

theorem findItem_SaveProject (db : Ledger) (p : Project) (id : Nat) :
    (db.SaveProject p).findItem id = db.findItem id := by
  unfold Ledger.findItem; rw [SaveProject_items]

theorem findProject_SaveItem (db : Ledger) (it : ProjectItem) (id : String) :
    (db.SaveItem it).findProject id = db.findProject id := by
  unfold Ledger.findProject; rw [SaveItem_projects]

theorem Project_Exact_ok {fails : Bool} {db : Ledger} {id : String} {p : Project}
    (h : Project.Exact fails db id = .ok p) : fails = false ∧ db.findProject id = some p := by
  unfold Project.Exact at h
  cases fails with
  | true => simp at h
  | false =>
    cases hf : db.findProject id with
    | none => simp [hf] at h
    | some q =>
      simp only [hf, Bool.false_eq_true, if_false, Except.ok.injEq] at h
      exact ⟨rfl, by rw [h]⟩

theorem ProjectItem_Exact_ok {fails : Bool} {db : Ledger} {id : Nat} {it : ProjectItem}
    (h : ProjectItem.Exact fails db id = .ok it) : fails = false ∧ db.findItem id = some it := by
  unfold ProjectItem.Exact at h
  cases fails with
  | true => simp at h
  | false =>
    cases hf : db.findItem id with
    | none => simp [hf] at h
    | some q =>
      simp only [hf, Bool.false_eq_true, if_false, Except.ok.injEq] at h
      exact ⟨rfl, by rw [h]⟩

theorem findItem_ID {db : Ledger} {id : Nat} {it : ProjectItem} (h : db.findItem id = some it) :
    it.ID = id := by
  unfold Ledger.findItem at h
  simpa using List.find?_some h

theorem findProject_ID {db : Ledger} {id : String} {p : Project}
    (h : db.findProject id = some p) : p.ID = id := by
  unfold Ledger.findProject at h
  simpa using List.find?_some h

/-- A call that does not answer 200 leaves the ledger as it was. -/
theorem ReceiveProject_error_db {E : ReceiveEnv} {id : String} {s : State}
    (h : (ReceiveProject E id s).1.status ≠ 200) : (ReceiveProject E id s).2.db = s.db := by
  rcases ReceiveProject_cases E id s with ⟨e, _, hr⟩ | ⟨p, _, _, hr⟩ | ⟨p, i, r, e, _, _, _, hr⟩ |
    ⟨p, i, r, it, e, s2, _, _, _, ht, hr⟩ | ⟨p, i, r, it, s2, _, _, _, _, hr⟩
  · rw [hr]
  · rw [hr]
  · rw [hr]
  · rw [hr]
    obtain ⟨h1, h2, h3, _, h5, _⟩ := Transaction_error ht
    rw [receiveTx_nextItemID] at h5
    have : s2.db = s.db := by
      cases hd : s2.db
      cases hd0 : s.db
      simp_all
    split <;> simpa using this
  · rw [hr] at h
    exact absurd rfl h

/-! ## The claim path: `ReceiveProject` -/

theorem LRange_SetNX (c : Cache) (k v : String) (ttl : Int) (key : String) :
    (c.SetNXAccepted k v ttl).LRange key = c.LRange key := by
  unfold Cache.LRange
  rw [SetNXAccepted_lists]

theorem LRange_RPush (c : Cache) (key : String) (v : Nat) :
    (c.RPush key v).LRange key = c.LRange key ++ [v] := by
  unfold Cache.RPush
  rw [LRange_setList]

theorem strings_setList (c : Cache) (key : String) (v : List Nat) :
    (c.setList key v).strings = c.strings := rfl

theorem strings_RPush (c : Cache) (key : String) (v : Nat) :
    (c.RPush key v).strings = c.strings := rfl

/-- Inversion of a call that answers 200: what was loaded and popped, and the
state that was committed. -/
theorem ReceiveProject_ok_inv {E : ReceiveEnv} {id : String} {s : State}
    (h : (ReceiveProject E id s).1.status = 200) :
    ∃ project itemID rest item,
      s.db.findProject id = some project ∧
      s.redis.LRange project.ItemsKey = itemID :: rest ∧
      s.db.findItem itemID = some item ∧
      (ReceiveProject E id s).1 = { status := 200, errorMsg := "", data := some item.Content } ∧
      (ReceiveProject E id s).2.db =
        (if project.HasStock
              (s.db.SaveItem { item with ReceiverID := some E.userID, ReceivedAt := some E.now })
         then s.db.SaveItem { item with ReceiverID := some E.userID, ReceivedAt := some E.now }
         else (s.db.SaveItem { item with ReceiverID := some E.userID, ReceivedAt := some E.now }
              ).SaveProject { project with IsCompleted := true }) ∧
      (ReceiveProject E id s).2.redis =
        (if project.AllowSameIP then s.redis.setList project.ItemsKey rest
         else (s.redis.setList project.ItemsKey rest).SetNXAccepted
                (project.SameIPCacheKey E.clientIP) E.clientIP
                (timeSub project.EndTime E.nowTTL)) := by
  rcases ReceiveProject_cases E id s with ⟨e, _, hr⟩ | ⟨p, _, _, hr⟩ | ⟨p, i, r, e, _, _, _, hr⟩ |
    ⟨p, i, r, it, e, s2, _, _, _, _, hr⟩ | ⟨p, i, r, it, s2, hp, hq, hi, ht, hr⟩
  · rw [hr] at h; simp at h
  · rw [hr] at h; simp at h
  · rw [hr] at h; simp at h
  · rw [hr] at h; simp at h
  · obtain ⟨_, hfp⟩ := Project_Exact_ok hp
    obtain ⟨_, hfi⟩ := ProjectItem_Exact_ok hi
    obtain ⟨_, htx⟩ := Transaction_ok ht
    obtain ⟨_, _, hdb, hred, _⟩ := receiveTx_ok htx
    refine ⟨p, i, r, it, hfp, hq, hfi, ?_, ?_, ?_⟩
    · rw [hr]
    · rw [hr]; exact hdb
    · rw [hr]; exact hred

/-- A call that answers 200 on a project that does not allow the same address
twice had its `SetNX` accepted by the server. -/
theorem ReceiveProject_ok_accepted {E : ReceiveEnv} {id : String} {s : State} {project : Project}
    (h : (ReceiveProject E id s).1.status = 200) (hfp : s.db.findProject id = some project)
    (ha : project.AllowSameIP = false) :
    (setNXRecord (project.SameIPCacheKey E.clientIP) E.clientIP
      (timeSub project.EndTime E.nowTTL)).isSome = true := by
  rcases ReceiveProject_cases E id s with ⟨e, _, hr⟩ | ⟨p, _, _, hr⟩ | ⟨p, i, r, e, _, _, _, hr⟩ |
    ⟨p, i, r, it, e, s2, _, _, _, _, hr⟩ | ⟨p, i, r, it, s2, hp, hq, hi, ht, hr⟩
  · rw [hr] at h; simp at h
  · rw [hr] at h; simp at h
  · rw [hr] at h; simp at h
  · rw [hr] at h; simp at h
  · obtain ⟨_, hfp2⟩ := Project_Exact_ok hp
    rw [hfp] at hfp2
    cases hfp2
    obtain ⟨_, htx⟩ := Transaction_ok ht
    obtain ⟨_, _, _, _, _, hacc⟩ := receiveTx_ok htx
    exact hacc ha

/-- Claim C1, counterexample. The queue of project `p` holds id 1, whose row
already has receiver 10 (received at 100). The call by user 20 answers 200 with
the item's content and the row now has receiver 20 and received_at 200: the
update was not conditional on the item being unclaimed. -/
theorem C1_counterexample :
    exStale.redis.LRange exProject.ItemsKey = [1] ∧
    exStale.db.findItem 1 = some exItemClaimed ∧
    exItemClaimed.ReceiverID = some 10 ∧
    (ReceiveProject exEnv "p" exStale).1 =
      { status := 200, errorMsg := "", data := some "secret" } ∧
    (ReceiveProject exEnv "p" exStale).2.db.findItem 1 =
      some { exItemClaimed with ReceiverID := some 20, ReceivedAt := some 200 } := by
  decide

/-- Claim C1, amended. The ledger update of `ReceiveProject` is an unconditional
save of the loaded row. Every call either does not answer 200, and then every
item row is as it was before; or it answers 200, and then the id at the head of
the project's queue has been removed from the queue and its row carries the
caller's user id as receiver_id and the call's time as received_at, whatever
receiver the row had before. -/
theorem C1_receive_update_unconditional (E : ReceiveEnv) (id : String) (s : State) :
    ((ReceiveProject E id s).1.status ≠ 200 ∧ (ReceiveProject E id s).2.db.items = s.db.items) ∨
    ((ReceiveProject E id s).1.status = 200 ∧
      ∃ project itemID rest item,
        s.db.findProject id = some project ∧
        s.redis.LRange project.ItemsKey = itemID :: rest ∧
        s.db.findItem itemID = some item ∧
        (ReceiveProject E id s).2.redis.LRange project.ItemsKey = rest ∧
        (ReceiveProject E id s).2.db.findItem itemID =
          some { item with ReceiverID := some E.userID, ReceivedAt := some E.now }) := by
  by_cases h : (ReceiveProject E id s).1.status = 200
  · right
    refine ⟨h, ?_⟩
    obtain ⟨p, i, r, it, hfp, hq, hfi, _, hdb, hred⟩ := ReceiveProject_ok_inv h
    refine ⟨p, i, r, it, hfp, hq, hfi, ?_, ?_⟩
    · rw [hred]
      split
      · exact LRange_setList _ _ _
      · rw [LRange_SetNX]; exact LRange_setList _ _ _
    · rw [hdb]
      have hid : it.ID = i := findItem_ID hfi
      split
      · rw [findItem_SaveItem]; simp [hid]
      · rw [findItem_SaveProject, findItem_SaveItem]; simp [hid]
  · left
    exact ⟨h, by rw [ReceiveProject_error_db h]⟩

/-- Claim C2, the failing input evaluated. Project `p` has one unclaimed item
with id 1, queued. In a call where loading the item row fails, the handler
answers 404 after the pop and the id is no longer in the queue, while the item
is still unclaimed in the ledger: this exit does not return the id. -/
theorem C2_item_load_failure_drops_id :
    exFresh.redis.LRange exProject.ItemsKey = [1] ∧
    (ReceiveProject exEnvItemLoadFails "p" exFresh).1.status = 404 ∧
    (ReceiveProject exEnvItemLoadFails "p" exFresh).2.redis.LRange exProject.ItemsKey = [] ∧
    (ReceiveProject exEnvItemLoadFails "p" exFresh).2.db.findItem 1 = some exItem := by
  decide

/-- When the ledger transaction of `ReceiveProject` fails after the pop of
`itemID` and the RPUSH of the error branch is executed by the cache, the call
answers 500 with the transaction's error, the ledger is exactly as before and
the queue is the queue before without its head followed by `itemID`; with
nothing else queued the next pop returns `itemID`. -/
theorem ReceiveProject_tx_failure_compensated (E : ReceiveEnv) (id : String) (s : State)
    (project : Project) (itemID : Nat) (rest : List Nat) (item : ProjectItem) (e : String)
    (hl : E.loadProjectFails = false) (hp : s.db.findProject id = some project)
    (hq : s.redis.LRange project.ItemsKey = itemID :: rest)
    (hli : E.loadItemFails = false) (hi : s.db.findItem itemID = some item)
    (hfail : (Transaction E.commitFails (receiveTx E project item)
      { s with redis := s.redis.setList project.ItemsKey rest }).1 = .error e)
    (hpush : E.rpushFails = false) :
    (ReceiveProject E id s).1 = { status := 500, errorMsg := e, data := none } ∧
    (ReceiveProject E id s).2.db = s.db ∧
    (ReceiveProject E id s).2.db.findItem itemID = some item ∧
    (ReceiveProject E id s).2.db.findProject id = some project ∧
    (ReceiveProject E id s).2.redis.LRange project.ItemsKey = rest ++ [itemID] ∧
    (rest = [] →
      (project.PrepareReceive (ReceiveProject E id s).2.redis).1 = .ok itemID) := by
  have hpe : Project.Exact E.loadProjectFails s.db id = .ok project := by
    simp [Project.Exact, hl, hp]
  have hie : ProjectItem.Exact E.loadItemFails s.db itemID = .ok item := by
    simp [ProjectItem.Exact, hli, hi]
  have hr : (ReceiveProject E id s).1 = { status := 500, errorMsg := e, data := none } ∧
      (ReceiveProject E id s).2.redis.LRange project.ItemsKey = rest ++ [itemID] := by
    cases ht : Transaction E.commitFails (receiveTx E project item)
        { s with redis := s.redis.setList project.ItemsKey rest } with
    | mk r s2 =>
      rw [ht] at hfail
      simp only at hfail
      subst hfail
      obtain ⟨_, _, _, hred, _, hor⟩ := Transaction_error ht
      have hl2 : s2.redis.LRange project.ItemsKey = rest := by
        rw [hred]
        rcases hor with h1 | ⟨h1, _⟩
        · have h2 : receiveTx E project item
              { s with redis := s.redis.setList project.ItemsKey rest } =
              (.error e, (receiveTx E project item
                { s with redis := s.redis.setList project.ItemsKey rest }).2) := by
            rw [← h1]
          rw [receiveTx_error h2]
          exact LRange_setList _ _ _
        · have h2 : receiveTx E project item
              { s with redis := s.redis.setList project.ItemsKey rest } =
              (.ok (), (receiveTx E project item
                { s with redis := s.redis.setList project.ItemsKey rest }).2) := by
            rw [← h1]
          have := receiveTx_ok h2
          rw [this.2.2.2.1]
          split
          · exact LRange_setList _ _ _
          · rw [LRange_SetNX]; exact LRange_setList _ _ _
      simp only [ReceiveProject, hpe, PrepareReceive_cons hq, hie, ht, hpush,
        Bool.false_eq_true, if_false, true_and]
      rw [LRange_RPush, hl2]
  have hdb : (ReceiveProject E id s).2.db = s.db :=
    ReceiveProject_error_db (by rw [hr.1]; simp)
  refine ⟨hr.1, hdb, by rw [hdb]; exact hi, by rw [hdb]; exact hp, hr.2, ?_⟩
  intro hrest
  have := hr.2
  rw [hrest] at this
  have h3 : (ReceiveProject E id s).2.redis.LRange project.ItemsKey = itemID :: [] := by
    simpa using this
  rw [PrepareReceive_cons h3]

/-- Claim C3, evaluation at the failing input. Project `p` has one unclaimed
item, id 1, and its queue is [1]. In a call in which the cache stops answering
after the pop (the `SetNX` inside the transaction fails, and so does the RPUSH
of the error branch, whose result the handler discards), the answer is 500,
the ledger is as before (the item is still unclaimed), and the queue is empty:
the popped id has not been appended and no later pop can return it. -/
theorem C3_failed_rpush_loses_id :
    exFresh.redis.LRange exProject.ItemsKey = [1] ∧
    exFresh.db.findItem 1 = some exItem ∧ exItem.ReceiverID = none ∧
    (ReceiveProject exEnvCacheDown "p" exFresh).1 =
      { status := 500, errorMsg := redisError, data := none } ∧
    (ReceiveProject exEnvCacheDown "p" exFresh).2.db = exFresh.db ∧
    (ReceiveProject exEnvCacheDown "p" exFresh).2.redis.LRange exProject.ItemsKey = [] ∧
    (exProject.PrepareReceive (ReceiveProject exEnvCacheDown "p" exFresh).2.redis).1 =
      .error NoStock := by
  refine ⟨by decide, by decide, by decide, by decide, by decide, by decide, by rfl⟩

/-- Claim C4. A call of `ReceiveProject` that answers 200 carries as itemContent
the content of the item whose id was at the head of the project's queue; after
the call that item's row has receiver_id equal to the caller's user id and
received_at equal to the call's time (content unchanged), and the queue is
exactly the queue before without its head. -/
theorem C4_success_effect (E : ReceiveEnv) (id : String) (s : State)
    (h : (ReceiveProject E id s).1.status = 200) :
    ∃ project itemID rest item,
      s.db.findProject id = some project ∧
      s.redis.LRange project.ItemsKey = itemID :: rest ∧
      s.db.findItem itemID = some item ∧
      (ReceiveProject E id s).1 = { status := 200, errorMsg := "", data := some item.Content } ∧
      (ReceiveProject E id s).2.db.findItem itemID =
        some { ID := item.ID, ProjectID := item.ProjectID, Content := item.Content,
               ReceiverID := some E.userID, ReceivedAt := some E.now } ∧
      (ReceiveProject E id s).2.redis.LRange project.ItemsKey = rest := by
  obtain ⟨p, i, r, it, hfp, hq, hfi, hresp, hdb, hred⟩ := ReceiveProject_ok_inv h
  refine ⟨p, i, r, it, hfp, hq, hfi, hresp, ?_, ?_⟩
  · rw [hdb]
    have hid : it.ID = i := findItem_ID hfi
    split
    · rw [findItem_SaveItem]; simp [hid]
    · rw [findItem_SaveProject, findItem_SaveItem]; simp [hid]
  · rw [hred]
    split
    · exact LRange_setList _ _ _
    · rw [LRange_SetNX]; exact LRange_setList _ _ _

/-- Claim C4, witness: the healthy call on the fresh one-item project. -/
theorem C4_success_effect_witness :
    ∃ project itemID rest item,
      exFresh.db.findProject "p" = some project ∧
      exFresh.redis.LRange project.ItemsKey = itemID :: rest ∧
      exFresh.db.findItem itemID = some item ∧
      (ReceiveProject exEnv "p" exFresh).1 =
        { status := 200, errorMsg := "", data := some item.Content } ∧
      (ReceiveProject exEnv "p" exFresh).2.db.findItem itemID =
        some { ID := item.ID, ProjectID := item.ProjectID, Content := item.Content,
               ReceiverID := some exEnv.userID, ReceivedAt := some exEnv.now } ∧
      (ReceiveProject exEnv "p" exFresh).2.redis.LRange project.ItemsKey = rest :=
  C4_success_effect exEnv "p" exFresh (by decide)

/-- Claim C5. When the project is found and its queue is empty, `ReceiveProject`
answers with the NoStock error and the state after the call is the state
before it: no item row, project row, dedup record or queue entry has changed
(no transaction was opened). -/
theorem C5_empty_queue_no_stock (E : ReceiveEnv) (id : String) (s : State) (project : Project)
    (hl : E.loadProjectFails = false) (hp : s.db.findProject id = some project)
    (hq : s.redis.LRange project.ItemsKey = []) :
    ReceiveProject E id s = ({ status := 500, errorMsg := NoStock, data := none }, s) := by
  have hpe : Project.Exact E.loadProjectFails s.db id = .ok project := by
    simp [Project.Exact, hl, hp]
  simp [ReceiveProject, hpe, PrepareReceive_nil hq]

/-- Claim C5, witness: project `p` with nothing queued. -/
theorem C5_empty_queue_no_stock_witness :
    ReceiveProject exEnv "p" exEmpty =
      ({ status := 500, errorMsg := NoStock, data := none }, exEmpty) :=
  C5_empty_queue_no_stock exEnv "p" exEmpty exProject (by decide) (by decide) (by decide)

theorem Transaction_redis (c : Bool) (fc : State → Except String Unit × State) (s : State) :
    (Transaction c fc s).2.redis = (fc s).2.redis := by
  unfold Transaction
  split
  · rename_i heq; rw [heq]
  · rename_i heq
    rw [heq]
    split <;> rfl

theorem receiveTx_lists (E : ReceiveEnv) (p : Project) (it : ProjectItem) (s : State) :
    (receiveTx E p it s).2.redis.lists = s.redis.lists := by
  unfold receiveTx
  dsimp only
  split
  · rfl
  · split
    · rfl
    · split
      · split
        · rfl
        · rw [receiveCheckIP_lists]
      · rw [receiveCheckIP_lists]

theorem LRange_congr {c1 c2 : Cache} (h : c1.lists = c2.lists) (key : String) :
    c1.LRange key = c2.LRange key := by
  unfold Cache.LRange
  rw [h]

theorem Exists_SetNXEntry (c : Cache) (e : CacheString) :
    (c.SetNXEntry e).Exists e.key = true := by
  unfold Cache.SetNXEntry
  by_cases h : c.Exists e.key = true
  · rw [if_pos h]; exact h
  · rw [if_neg h]
    simp [Cache.Exists]

theorem Exists_SetNX (c : Cache) {k v : String} {ttl : Int}
    (h : (setNXRecord k v ttl).isSome = true) :
    (c.SetNXAccepted k v ttl).Exists k = true := by
  obtain ⟨e, he⟩ := Option.isSome_iff_exists.mp h
  rw [SetNXAccepted_of_some he]
  have := Exists_SetNXEntry c e
  rwa [(setNXRecord_key he).1] at this

theorem unclaimedCount_SaveProject (db : Ledger) (p : Project) (pid : String) :
    (db.SaveProject p).unclaimedCount pid = db.unclaimedCount pid := by
  unfold Ledger.unclaimedCount
  rw [SaveProject_items]

/-- For a call that answers 200: the flip of is_completed follows the re-count. -/
theorem ReceiveProject_ok_completion {E : ReceiveEnv} {id : String} {s : State}
    {project : Project} (h : (ReceiveProject E id s).1.status = 200)
    (hp : s.db.findProject id = some project) :
    ((ReceiveProject E id s).2.db.unclaimedCount project.ID = 0 →
      (ReceiveProject E id s).2.db.findProject id = some { project with IsCompleted := true }) ∧
    (0 < (ReceiveProject E id s).2.db.unclaimedCount project.ID →
      (ReceiveProject E id s).2.db.projects = s.db.projects) := by
  obtain ⟨p, i, r, it, hfp, _, _, _, hdb, _⟩ := ReceiveProject_ok_inv h
  rw [hp] at hfp
  cases hfp
  have hid : project.ID = id := findProject_ID hp
  rw [hdb]
  cases hs : project.HasStock
      (s.db.SaveItem { it with ReceiverID := some E.userID, ReceivedAt := some E.now }) with
  | true =>
    have hpos : 0 < (s.db.SaveItem
        { it with ReceiverID := some E.userID, ReceivedAt := some E.now }).unclaimedCount
        project.ID := by
      simpa [Project.HasStock] using hs
    simp only [if_true]
    constructor
    · intro h0; omega
    · intro _; exact SaveItem_projects _ _
  | false =>
    have hz : (s.db.SaveItem
        { it with ReceiverID := some E.userID, ReceivedAt := some E.now }).unclaimedCount
        project.ID = 0 := by
      simpa [Project.HasStock] using hs
    simp only [Bool.false_eq_true, if_false]
    constructor
    · intro _
      rw [findProject_SaveProject]
      simp [hid]
    · intro hpos
      rw [unclaimedCount_SaveProject, hz] at hpos
      omega

/-- Claim C6, counterexample. In the call on the fresh one-item project whose
commit fails, the unit of work does not persist (answer 500, ledger as
before), yet the dedup record of (project `p`, address 10.0.0.1), absent before
the call, exists after it. -/
theorem C6_counterexample :
    (ReceiveProject exEnvCommitFails "p" exFresh).1.status = 500 ∧
    (ReceiveProject exEnvCommitFails "p" exFresh).2.db = exFresh.db ∧
    exFresh.redis.Exists (exProject.SameIPCacheKey "10.0.0.1") = false ∧
    (ReceiveProject exEnvCommitFails "p" exFresh).2.redis.Exists
      (exProject.SameIPCacheKey "10.0.0.1") = true := by
  decide

/-- Claim C6, amended. The two ledger sub-steps are all or none, the dedup record
is not covered by the rollback. Every call of `ReceiveProject` either does not
answer 200, and then the ledger is as before (no ownership update, no
completion flip) and, unless the failure is that of the commit itself, the
string entries of the cache are as before (no dedup record was created); or it
answers 200, and then the popped item's row carries the caller as receiver,
is_completed is true when no unclaimed item of the project is left, and a
dedup record for (project, client address) exists when allow_same_ip is
false. -/
theorem C6_ledger_steps_all_or_none (E : ReceiveEnv) (id : String) (s : State) :
    ((ReceiveProject E id s).1.status ≠ 200 ∧
      (ReceiveProject E id s).2.db = s.db ∧
      (E.commitFails = false → (ReceiveProject E id s).2.redis.strings = s.redis.strings)) ∨
    ((ReceiveProject E id s).1.status = 200 ∧
      ∃ project itemID rest item,
        s.db.findProject id = some project ∧
        s.redis.LRange project.ItemsKey = itemID :: rest ∧
        s.db.findItem itemID = some item ∧
        (ReceiveProject E id s).2.db.findItem itemID =
          some { item with ReceiverID := some E.userID, ReceivedAt := some E.now } ∧
        ((ReceiveProject E id s).2.db.unclaimedCount project.ID = 0 →
          (ReceiveProject E id s).2.db.findProject id =
            some { project with IsCompleted := true }) ∧
        (project.AllowSameIP = false →
          (ReceiveProject E id s).2.redis.Exists (project.SameIPCacheKey E.clientIP) = true)) := by
  by_cases h : (ReceiveProject E id s).1.status = 200
  · right
    refine ⟨h, ?_⟩
    obtain ⟨p, i, r, it, hfp, hq, hfi, _, hdb, hred⟩ := ReceiveProject_ok_inv h
    refine ⟨p, i, r, it, hfp, hq, hfi, ?_, (ReceiveProject_ok_completion h hfp).1, ?_⟩
    · rw [hdb]
      have hid : it.ID = i := findItem_ID hfi
      split
      · rw [findItem_SaveItem]; simp [hid]
      · rw [findItem_SaveProject, findItem_SaveItem]; simp [hid]
    · intro ha
      rw [hred, ha]
      simp only [Bool.false_eq_true, if_false]
      exact Exists_SetNX _ (ReceiveProject_ok_accepted h hfp ha)
  · left
    refine ⟨h, ReceiveProject_error_db h, ?_⟩
    intro hc
    rcases ReceiveProject_cases E id s with ⟨e, _, hr⟩ | ⟨p, _, _, hr⟩ |
      ⟨p, i, r, e, _, _, _, hr⟩ | ⟨p, i, r, it, e, s2, _, _, _, ht, hr⟩ |
      ⟨p, i, r, it, s2, _, _, _, _, hr⟩
    · rw [hr]
    · rw [hr]
    · rw [hr]; rfl
    · rw [hr]
      obtain ⟨_, _, _, hred, _, hor⟩ := Transaction_error ht
      have hs2 : s2.redis.strings = s.redis.strings := by
        rcases hor with h1 | ⟨_, h1⟩
        · have h2 : receiveTx E p it { s with redis := s.redis.setList p.ItemsKey r } =
              (.error e, (receiveTx E p it
                { s with redis := s.redis.setList p.ItemsKey r }).2) := by
            rw [← h1]
          rw [hred, receiveTx_error h2]
          rfl
        · rw [hc] at h1
          exact absurd h1 (by decide)
      split
      · exact hs2
      · simpa [strings_RPush] using hs2
    · rw [hr] at h
      exact absurd rfl h

/-- Claim C6, witness: the amended statement at the healthy call on the fresh
one-item project, which answers 200. -/
theorem C6_ledger_steps_all_or_none_witness :
    (((ReceiveProject exEnv "p" exFresh).1.status ≠ 200 ∧
      (ReceiveProject exEnv "p" exFresh).2.db = exFresh.db ∧
      (exEnv.commitFails = false →
        (ReceiveProject exEnv "p" exFresh).2.redis.strings = exFresh.redis.strings)) ∨
    ((ReceiveProject exEnv "p" exFresh).1.status = 200 ∧
      ∃ project itemID rest item,
        exFresh.db.findProject "p" = some project ∧
        exFresh.redis.LRange project.ItemsKey = itemID :: rest ∧
        exFresh.db.findItem itemID = some item ∧
        (ReceiveProject exEnv "p" exFresh).2.db.findItem itemID =
          some { item with ReceiverID := some exEnv.userID, ReceivedAt := some exEnv.now } ∧
        ((ReceiveProject exEnv "p" exFresh).2.db.unclaimedCount project.ID = 0 →
          (ReceiveProject exEnv "p" exFresh).2.db.findProject "p" =
            some { project with IsCompleted := true }) ∧
        (project.AllowSameIP = false →
          (ReceiveProject exEnv "p" exFresh).2.redis.Exists
            (project.SameIPCacheKey exEnv.clientIP) = true))) ∧
    (ReceiveProject exEnv "p" exFresh).1.status = 200 :=
  ⟨C6_ledger_steps_all_or_none exEnv "p" exFresh, by decide⟩

theorem findProject_congr {d1 d2 : Ledger} (h : d1.projects = d2.projects) (id : String) :
    d1.findProject id = d2.findProject id := by
  unfold Ledger.findProject
  rw [h]

theorem CreateItems_projects (a b : Bool) (p : Project) (contents : List String) (s : State) :
    (p.CreateItems a b contents s).2.db.projects = s.db.projects := by
  unfold Project.CreateItems
  dsimp only
  split
  · rfl
  · split <;> rfl

theorem updateTx_projects (E : UpdateEnv) (project : Project) (req : UpdateProjectRequestBody)
    (s : State) :
    (updateTx E project req s).2.db.projects = s.db.projects ∨
    (updateTx E project req s).2.db.projects = (s.db.SaveProject project).projects := by
  unfold updateTx
  dsimp only
  split
  · left; rfl
  · split
    · right; rfl
    · right
      rw [CreateItems_projects]
      rfl

theorem Transaction_projects (c : Bool) (fc : State → Except String Unit × State) (s : State) :
    (Transaction c fc s).2.db.projects = s.db.projects ∨
    (Transaction c fc s).2.db.projects = (fc s).2.db.projects := by
  unfold Transaction
  split
  · left; rfl
  · rename_i heq
    split
    · left; rfl
    · right; rw [heq]

/-- The table `projects` after `UpdateProject`: as before, or with the loaded
row saved with the request's fields (is_completed as loaded). -/
theorem UpdateProject_projects (E : UpdateEnv) (id : String) (req : UpdateProjectRequestBody)
    (s : State) :
    (UpdateProject E id req s).2.db.projects = s.db.projects ∨
    ∃ loaded project, s.db.findProject id = some loaded ∧
      project.ID = loaded.ID ∧ project.IsCompleted = loaded.IsCompleted ∧
      (UpdateProject E id req s).2.db.projects = (s.db.SaveProject project).projects := by
  unfold UpdateProject
  split
  · left; rfl
  · split
    · left; rfl
    · rename_i loaded hl
      obtain ⟨_, hfp⟩ := Project_Exact_ok hl
      dsimp only
      generalize hproj : ({ loaded with
          Name := req.Name
          Description := req.Description
          TotalItems := wrapInt64 (loaded.TotalItems + req.ProjectItems.length)
          StartTime := req.StartTime
          EndTime := req.EndTime
          MinimumTrustLevel := req.MinimumTrustLevel
          AllowSameIP := req.AllowSameIP
          RiskLevel := req.RiskLevel } : Project) = project
      have hid : project.ID = loaded.ID := by rw [← hproj]
      have hc : project.IsCompleted = loaded.IsCompleted := by rw [← hproj]
      have key : (Transaction E.commitFails (updateTx E project req) s).2.db.projects
            = s.db.projects ∨
          (Transaction E.commitFails (updateTx E project req) s).2.db.projects
            = (s.db.SaveProject project).projects := by
        rcases Transaction_projects E.commitFails (updateTx E project req) s with h | h
        · left; exact h
        · rcases updateTx_projects E project req s with h2 | h2
          · left; rw [h, h2]
          · right; rw [h, h2]
      split
      · rename_i e s1 heq
        rw [heq] at key
        rcases key with h | h
        · left; exact h
        · right; exact ⟨loaded, project, hfp, hid, hc, h⟩
      · rename_i s1 heq
        rw [heq] at key
        rcases key with h | h
        · left; exact h
        · right; exact ⟨loaded, project, hfp, hid, hc, h⟩

/-- The table `projects` after `ReceiveProject`: as before, or with the loaded
row saved with is_completed set. -/
theorem ReceiveProject_projects (E : ReceiveEnv) (id : String) (s : State) :
    (ReceiveProject E id s).2.db.projects = s.db.projects ∨
    ∃ project, s.db.findProject id = some project ∧
      (ReceiveProject E id s).2.db.projects =
        (s.db.SaveProject { project with IsCompleted := true }).projects := by
  by_cases h : (ReceiveProject E id s).1.status = 200
  · obtain ⟨p, i, r, it, hfp, _, _, _, hdb, _⟩ := ReceiveProject_ok_inv h
    rw [hdb]
    split
    · left; exact SaveItem_projects _ _
    · right
      refine ⟨p, hfp, ?_⟩
      unfold Ledger.SaveProject
      rw [SaveItem_projects]
      split <;> rfl
  · left
    rw [ReceiveProject_error_db h]

/-- Claim C7. For a project whose is_completed is true, after any call of
`ReceiveProject` and after any call of `UpdateProject` (on this project or on
another one, failing or not, adding items or returning an id to the queue) the
project's row still has is_completed = true. -/
theorem C7_completion_monotonic (s : State) (pid : String) (p : Project)
    (hp : s.db.findProject pid = some p) (hc : p.IsCompleted = true) :
    (∀ (E : ReceiveEnv) (id : String),
      ∃ q, (ReceiveProject E id s).2.db.findProject pid = some q ∧ q.IsCompleted = true) ∧
    (∀ (E : UpdateEnv) (id : String) (req : UpdateProjectRequestBody),
      ∃ q, (UpdateProject E id req s).2.db.findProject pid = some q ∧
        q.IsCompleted = true) := by
  constructor
  · intro E id
    rcases ReceiveProject_projects E id s with h | ⟨project, _, h⟩
    · exact ⟨p, by rw [findProject_congr h]; exact hp, hc⟩
    · rw [findProject_congr h, findProject_SaveProject]
      by_cases hid : pid = project.ID
      · exact ⟨{ project with IsCompleted := true }, by simp [hid], rfl⟩
      · exact ⟨p, by simp [hid, hp], hc⟩
  · intro E id req
    rcases UpdateProject_projects E id req s with h | ⟨loaded, project, hfl, hid, hcl, h⟩
    · exact ⟨p, by rw [findProject_congr h]; exact hp, hc⟩
    · rw [findProject_congr h, findProject_SaveProject]
      by_cases hpid : pid = project.ID
      · refine ⟨project, by simp [hpid], ?_⟩
        have h1 : loaded.ID = id := findProject_ID hfl
        have h2 : pid = id := by rw [hpid, hid, h1]
        rw [← h2, hp] at hfl
        cases hfl
        rw [hcl]; exact hc
      · exact ⟨p, by simp [hpid, hp], hc⟩

/-- Claim C7, witness: the completed project `p`. -/
theorem C7_completion_monotonic_witness :
    (∀ (E : ReceiveEnv) (id : String),
      ∃ q, (ReceiveProject E id exDone).2.db.findProject "p" = some q ∧
        q.IsCompleted = true) ∧
    (∀ (E : UpdateEnv) (id : String) (req : UpdateProjectRequestBody),
      ∃ q, (UpdateProject E id req exDone).2.db.findProject "p" = some q ∧
        q.IsCompleted = true) :=
  C7_completion_monotonic exDone "p" exProjectDone (by decide) (by decide)

theorem filter_replace_le (P : ProjectItem → Bool) (it : ProjectItem) (l : List ProjectItem)
    (hnd : (l.map (fun r => r.ID)).Nodup) :
    ((l.map (fun r => if r.ID = it.ID then it else r)).filter P).length
      ≤ (l.filter P).length + 1 := by
  induction l with
  | nil => simp
  | cons a t ih =>
    rw [List.map_cons, List.nodup_cons] at hnd
    obtain ⟨ha, ht⟩ := hnd
    by_cases hid : a.ID = it.ID
    · have hsame : t.map (fun r => if r.ID = it.ID then it else r) = t := by
        have hcongr : t.map (fun r => if r.ID = it.ID then it else r) = t.map id := by
          apply List.map_congr_left
          intro r hr
          have hne : r.ID ≠ it.ID := by
            intro h
            apply ha
            rw [hid, ← h]
            exact List.mem_map_of_mem (fun r => r.ID) hr
          simp [hne]
        rw [hcongr, List.map_id]
      simp only [List.map_cons, hid, if_true, hsame]
      have h1 : (List.filter P (it :: t)).length ≤ (List.filter P t).length + 1 := by
        rw [List.filter_cons]
        split <;> simp
      have h2 : (List.filter P t).length ≤ (List.filter P (a :: t)).length := by
        rw [List.filter_cons]
        split <;> simp
      omega
    · have := ih ht
      simp only [List.map_cons, hid, if_false, List.filter_cons]
      split <;> simp <;> omega

theorem claimedCount_SaveItem_le (db : Ledger) (it : ProjectItem) (pid : String)
    (hnd : (db.items.map (fun r => r.ID)).Nodup) :
    (db.SaveItem it).claimedCount pid ≤ db.claimedCount pid + 1 := by
  unfold Ledger.claimedCount Ledger.SaveItem
  split
  · exact filter_replace_le _ it db.items hnd
  · simp only [List.filter_append, List.length_append]
    have : (List.filter (fun r => decide (r.ProjectID = pid ∧ r.ReceiverID ≠ none)) [it]).length
        ≤ 1 := by
      rw [List.filter_cons]
      split <;> simp
    omega

theorem claimedCount_SaveProject (db : Ledger) (p : Project) (pid : String) :
    (db.SaveProject p).claimedCount pid = db.claimedCount pid := by
  unfold Ledger.claimedCount
  rw [SaveProject_items]

/-- A call that does not answer 200 does not lengthen the project's queue. -/
theorem ReceiveProject_error_queue {E : ReceiveEnv} {id : String} {s : State}
    {project : Project} (hp : s.db.findProject id = some project)
    (h : (ReceiveProject E id s).1.status ≠ 200) :
    ((ReceiveProject E id s).2.redis.LRange project.ItemsKey).length
      ≤ (s.redis.LRange project.ItemsKey).length := by
  rcases ReceiveProject_cases E id s with ⟨e, _, hr⟩ | ⟨p, _, _, hr⟩ |
    ⟨p, i, r, e, hpe, hq, _, hr⟩ | ⟨p, i, r, it, e, s2, hpe, hq, _, ht, hr⟩ |
    ⟨p, i, r, it, s2, _, _, _, _, hr⟩
  · rw [hr]
  · rw [hr]
  · have hpp := (Project_Exact_ok hpe).2
    rw [hp] at hpp
    cases hpp
    rw [hr, hq]
    simp only
    rw [LRange_setList]
    simp
  · have hpp := (Project_Exact_ok hpe).2
    rw [hp] at hpp
    cases hpp
    have hs2 : s2.redis.LRange project.ItemsKey = r := by
      have h1 := Transaction_redis E.commitFails (receiveTx E project it)
        { s with redis := s.redis.setList project.ItemsKey r }
      rw [ht] at h1
      simp only at h1
      rw [h1, LRange_congr (receiveTx_lists _ _ _ _)]
      exact LRange_setList _ _ _
    rw [hr, hq]
    simp only
    split
    · rw [hs2]; simp
    · simp only
      rw [LRange_RPush, hs2]
      simp
  · rw [hr] at h
    exact absurd rfl h

/-- Claim C8. With unique primary keys in `project_items`: when
claimed_count + queue_length <= total_items holds for the project before a call
of `ReceiveProject` on it, it holds after the call, whatever the outcome, and
the project's total_items is the same as before. -/
theorem C8_conservation (E : ReceiveEnv) (id : String) (s : State) (project : Project)
    (hp : s.db.findProject id = some project)
    (hpk : (s.db.items.map (fun r => r.ID)).Nodup)
    (hinv : (s.db.claimedCount id : Int) + (s.redis.LRange project.ItemsKey).length
      ≤ project.TotalItems) :
    ∃ q, (ReceiveProject E id s).2.db.findProject id = some q ∧
      q.TotalItems = project.TotalItems ∧
      ((ReceiveProject E id s).2.db.claimedCount id : Int)
        + ((ReceiveProject E id s).2.redis.LRange project.ItemsKey).length ≤ q.TotalItems := by
  by_cases h : (ReceiveProject E id s).1.status = 200
  · obtain ⟨p, i, r, it, hfp, hq, _, _, hdb, hred⟩ := ReceiveProject_ok_inv h
    rw [hp] at hfp
    cases hfp
    have hid : project.ID = id := findProject_ID hp
    have hqueue : (ReceiveProject E id s).2.redis.LRange project.ItemsKey = r := by
      rw [hred]
      split
      · exact LRange_setList _ _ _
      · rw [LRange_SetNX]; exact LRange_setList _ _ _
    have hcount : (ReceiveProject E id s).2.db.claimedCount id ≤ s.db.claimedCount id + 1 := by
      rw [hdb]
      split
      · exact claimedCount_SaveItem_le _ _ _ hpk
      · rw [claimedCount_SaveProject]
        exact claimedCount_SaveItem_le _ _ _ hpk
    have hlen : (s.redis.LRange project.ItemsKey).length = r.length + 1 := by
      rw [hq]; simp
    have hfind : ∃ q, (ReceiveProject E id s).2.db.findProject id = some q ∧
        q.TotalItems = project.TotalItems := by
      rw [hdb]
      split
      · exact ⟨project, by rw [findProject_SaveItem]; exact hp, rfl⟩
      · exact ⟨{ project with IsCompleted := true },
          by rw [findProject_SaveProject]; simp [hid], rfl⟩
    obtain ⟨q, hq1, hq2⟩ := hfind
    refine ⟨q, hq1, hq2, ?_⟩
    rw [hqueue, hq2]
    rw [hlen] at hinv
    push_cast at hinv
    have : ((ReceiveProject E id s).2.db.claimedCount id : Int) ≤ s.db.claimedCount id + 1 := by
      exact_mod_cast hcount
    omega
  · have hdb := ReceiveProject_error_db h
    have hqueue := ReceiveProject_error_queue hp h
    refine ⟨project, by rw [hdb]; exact hp, rfl, ?_⟩
    rw [hdb]
    have : (((ReceiveProject E id s).2.redis.LRange project.ItemsKey).length : Int)
        ≤ (s.redis.LRange project.ItemsKey).length := by
      exact_mod_cast hqueue
    omega

/-- Claim C8, witness: the healthy call on the fresh one-item project
(0 claimed, 1 queued, total 1). -/
theorem C8_conservation_witness :
    ∃ q, (ReceiveProject exEnv "p" exFresh).2.db.findProject "p" = some q ∧
      q.TotalItems = exProject.TotalItems ∧
      ((ReceiveProject exEnv "p" exFresh).2.db.claimedCount "p" : Int)
        + ((ReceiveProject exEnv "p" exFresh).2.redis.LRange exProject.ItemsKey).length
        ≤ q.TotalItems :=
  C8_conservation exEnv "p" exFresh exProject (by decide) (by decide) (by decide)

theorem healthy_flags {E : ReceiveEnv} (h : E.healthy = true) :
    E.loadProjectFails = false ∧ E.loadItemFails = false ∧ E.saveItemFails = false ∧
    E.hasStockFails = false ∧ E.saveProjectFails = false ∧ E.setNXFails = false ∧
    E.commitFails = false := by
  unfold ReceiveEnv.healthy at h
  simp only [Bool.and_eq_true, Bool.not_eq_true'] at h
  obtain ⟨⟨⟨⟨⟨⟨h1, h2⟩, h3⟩, h4⟩, h5⟩, h6⟩, h7⟩ := h
  exact ⟨h1, h2, h3, h4, h5, h6, h7⟩

/-- A call made no later than `EndTime` has its time to live accepted. -/
theorem expiryAccepted_of_le {E : ReceiveEnv} {p : Project}
    (h : p.AllowSameIP = true ∨ E.nowTTL ≤ p.EndTime) : E.expiryAccepted p = true := by
  unfold ReceiveEnv.expiryAccepted
  rcases h with h | h
  · rw [h]; rfl
  · rw [setNXRecord_nonneg _ _ (timeSub_nonneg h)]
    simp

/-- A call made more than a nanosecond after `EndTime` on a project that does
not allow the same address twice has its time to live refused. -/
theorem expiryAccepted_of_lt {E : ReceiveEnv} {p : Project}
    (ha : p.AllowSameIP = false) (h : p.EndTime + 1 < E.nowTTL) :
    E.expiryAccepted p = false := by
  unfold ReceiveEnv.expiryAccepted
  rw [ha, setNXRecord_neg _ _ (timeSub_neg h)]
  rfl

theorem receiveCheckIP_healthy {E : ReceiveEnv} (p : Project) (s : State)
    (h : E.setNXFails = false) (hw : E.expiryAccepted p = true) :
    (receiveCheckIP E p s).1 = .ok () := by
  unfold receiveCheckIP
  cases ha : p.AllowSameIP with
  | true => simp
  | false =>
    unfold ReceiveEnv.expiryAccepted at hw
    rw [ha, Bool.false_or] at hw
    obtain ⟨e, he⟩ := Option.isSome_iff_exists.mp hw
    simp [h, Cache.SetNX, he]

theorem receiveTx_healthy {E : ReceiveEnv} (p : Project) (it : ProjectItem) (s : State)
    (h3 : E.saveItemFails = false) (h4 : E.hasStockFails = false)
    (h5 : E.saveProjectFails = false) (h6 : E.setNXFails = false)
    (hw : E.expiryAccepted p = true) :
    (receiveTx E p it s).1 = .ok () := by
  unfold receiveTx
  simp only [h3, h4, h5, Bool.false_eq_true, if_false]
  split
  · exact receiveCheckIP_healthy _ _ h6 hw
  · exact receiveCheckIP_healthy _ _ h6 hw

/-- A call in which nothing fails, with the project found, an id queued and
its row present, answers 200. -/
theorem ReceiveProject_healthy_status {E : ReceiveEnv} {id : String} {s : State}
    {p : Project} {i : Nat} {t : List Nat} {it : ProjectItem}
    (hE : E.healthy = true) (hp : s.db.findProject id = some p)
    (hq : s.redis.LRange p.ItemsKey = i :: t) (hi : s.db.findItem i = some it)
    (hw : E.expiryAccepted p = true) :
    (ReceiveProject E id s).1.status = 200 := by
  obtain ⟨h1, h2, h3, h4, h5, h6, h7⟩ := healthy_flags hE
  have hpe : Project.Exact E.loadProjectFails s.db id = .ok p := by
    simp [Project.Exact, h1, hp]
  rcases ReceiveProject_cases E id s with ⟨e, hx, _⟩ | ⟨p1, hx, hn, _⟩ |
    ⟨p1, i1, r1, e, hx, hq1, hie, _⟩ | ⟨p1, i1, r1, it1, e, s2, hx, hq1, _, ht, _⟩ |
    ⟨p1, i1, r1, it1, s2, _, _, _, _, hr⟩
  · rw [hpe] at hx; cases hx
  · rw [hpe] at hx; cases hx
    rw [hq] at hn; cases hn
  · rw [hpe] at hx; cases hx
    rw [hq] at hq1; cases hq1
    simp [ProjectItem.Exact, h2, hi] at hie
  · obtain ⟨_, _, _, _, _, hor⟩ := Transaction_error ht
    rw [hpe] at hx; cases hx
    have hok := receiveTx_healthy p it1
      { s with redis := s.redis.setList p.ItemsKey r1 } h3 h4 h5 h6 hw
    rcases hor with h | ⟨_, h⟩
    · rw [hok] at h; cases h
    · rw [h7] at h; cases h
  · rw [hr]

theorem replace_rows (l : List ProjectItem) (it1 : ProjectItem) (id : String) (h : Nat)
    (t : List Nat) (hid : it1.ID = h) (hrec : it1.ReceiverID ≠ none) (hnd : (h :: t).Nodup)
    (hrows : ∀ r ∈ l, (r.ProjectID = id ∧ r.ReceiverID = none) ↔ r.ID ∈ h :: t)
    (hex : ∀ i ∈ h :: t, ∃ r ∈ l, r.ID = i) :
    (∀ r ∈ l.map (fun r => if r.ID = it1.ID then it1 else r),
      (r.ProjectID = id ∧ r.ReceiverID = none) ↔ r.ID ∈ t) ∧
    (∀ i ∈ t, ∃ r ∈ l.map (fun r => if r.ID = it1.ID then it1 else r), r.ID = i) := by
  rw [List.nodup_cons] at hnd
  obtain ⟨hnot, _⟩ := hnd
  constructor
  · intro r hr
    rw [List.mem_map] at hr
    obtain ⟨r0, hr0, hreq⟩ := hr
    by_cases hc : r0.ID = it1.ID
    · rw [if_pos hc] at hreq
      subst hreq
      constructor
      · intro hp
        exact absurd hp.2 hrec
      · intro hm
        rw [hid] at hm
        exact absurd hm hnot
    · rw [if_neg hc] at hreq
      subst hreq
      rw [hrows r0 hr0, List.mem_cons]
      constructor
      · intro hm
        rcases hm with hm | hm
        · exact absurd (hm.trans hid.symm) hc
        · exact hm
      · intro hm
        exact Or.inr hm
  · intro i hi
    obtain ⟨r0, hr0, hri⟩ := hex i (List.mem_cons_of_mem _ hi)
    refine ⟨r0, ?_, hri⟩
    rw [List.mem_map]
    refine ⟨r0, hr0, ?_⟩
    have hne : r0.ID ≠ it1.ID := by
      intro hc
      apply hnot
      rw [← hid, ← hc, hri]
      exact hi
    rw [if_neg hne]

theorem SaveItem_items_of_findItem {db : Ledger} {it0 : ProjectItem} (it1 : ProjectItem)
    (hf : db.findItem it1.ID = some it0) :
    (db.SaveItem it1).items = db.items.map (fun r => if r.ID = it1.ID then it1 else r) := by
  unfold Ledger.SaveItem
  have hany : db.items.any (fun r => decide (r.ID = it1.ID)) = true := by
    unfold Ledger.findItem at hf
    have hm := List.mem_of_find?_eq_some hf
    have hid := List.find?_some hf
    rw [List.any_eq_true]
    exact ⟨it0, hm, hid⟩
  rw [if_pos hany]

theorem unclaimedCount_pos_iff (db : Ledger) (pid : String) :
    0 < db.unclaimedCount pid ↔ ∃ r ∈ db.items, r.ProjectID = pid ∧ r.ReceiverID = none := by
  unfold Ledger.unclaimedCount
  rw [List.length_pos_iff_exists_mem]
  constructor
  · rintro ⟨r, hr⟩
    rw [List.mem_filter] at hr
    exact ⟨r, hr.1, by simpa using hr.2⟩
  · rintro ⟨r, hr, hp⟩
    exact ⟨r, by rw [List.mem_filter]; exact ⟨hr, by simpa using hp⟩⟩

theorem exists_findItem {db : Ledger} {i : Nat} (h : ∃ r ∈ db.items, r.ID = i) :
    ∃ it, db.findItem i = some it := by
  unfold Ledger.findItem
  cases hf : db.items.find? (fun r => decide (r.ID = i)) with
  | some it => exact ⟨it, rfl⟩
  | none =>
    obtain ⟨r, hr, hri⟩ := h
    rw [List.find?_eq_none] at hf
    exact absurd (by simpa using hri) (hf r hr)

/-- One healthy call on a seeded project: it answers 200, the project is
seeded with the rest of the queue, and is_completed is true afterwards when
the queue has run empty (and stays true when it was). -/
theorem Seeded_step {E : ReceiveEnv} {id : String} {s : State} {p : Project} {h : Nat}
    {t : List Nat} (hE : E.healthy = true) (hw : E.expiryAccepted p = true)
    (hs : Seeded s id p (h :: t)) :
    (ReceiveProject E id s).1.status = 200 ∧
    ∃ q, Seeded (ReceiveProject E id s).2 id q t ∧
      (t = [] → q.IsCompleted = true) ∧ (p.IsCompleted = true → q.IsCompleted = true) ∧
      (∀ E2 : ReceiveEnv, E2.expiryAccepted q = E2.expiryAccepted p) := by
  obtain ⟨hp, hq, hnd, hrows, hex⟩ := hs
  obtain ⟨it0, hfi⟩ := exists_findItem (hex h (List.mem_cons_self _ _))
  have hstatus := ReceiveProject_healthy_status hE hp hq hfi hw
  refine ⟨hstatus, ?_⟩
  obtain ⟨p1, i1, r1, it1, hfp, hq1, hfi1, _, hdb, hred⟩ := ReceiveProject_ok_inv hstatus
  rw [hp] at hfp; cases hfp
  rw [hq] at hq1; cases hq1
  rw [hfi] at hfi1; cases hfi1
  have hpid : p.ID = id := findProject_ID hp
  have hitid : it0.ID = h := findItem_ID hfi
  have hitems : (s.db.SaveItem
      { it0 with ReceiverID := some E.userID, ReceivedAt := some E.now }).items =
      s.db.items.map (fun r => if r.ID = it0.ID then
        { it0 with ReceiverID := some E.userID, ReceivedAt := some E.now } else r) :=
    SaveItem_items_of_findItem { it0 with ReceiverID := some E.userID, ReceivedAt := some E.now }
      (by rw [hitid]; exact hfi)
  obtain ⟨hA, hB⟩ := replace_rows s.db.items
    { it0 with ReceiverID := some E.userID, ReceivedAt := some E.now } id h t hitid
    (by simp) hnd hrows hex
  rw [← hitems] at hA hB
  have hqueue : (ReceiveProject E id s).2.redis.LRange p.ItemsKey = t := by
    rw [hred]
    split
    · exact LRange_setList _ _ _
    · rw [LRange_SetNX]; exact LRange_setList _ _ _
  have hnd2 : t.Nodup := (List.nodup_cons.mp hnd).2
  cases hst : p.HasStock
      (s.db.SaveItem { it0 with ReceiverID := some E.userID, ReceivedAt := some E.now }) with
  | true =>
    rw [hst] at hdb
    simp only [if_true] at hdb
    have hne : t ≠ [] := by
      intro ht
      have hpos : 0 < (s.db.SaveItem
          { it0 with ReceiverID := some E.userID, ReceivedAt := some E.now }).unclaimedCount
          p.ID := by
        simpa [Project.HasStock] using hst
      rw [unclaimedCount_pos_iff] at hpos
      obtain ⟨r, hr, hpr⟩ := hpos
      rw [hpid] at hpr
      have := (hA r hr).mp hpr
      rw [ht] at this
      cases this
    refine ⟨p, ⟨?_, hqueue, hnd2, ?_, ?_⟩, fun ht => absurd ht hne, fun hc => hc, fun _ => rfl⟩
    · rw [hdb, findProject_SaveItem]; exact hp
    · rw [hdb]; exact hA
    · rw [hdb]; exact hB
  | false =>
    rw [hst] at hdb
    simp only [Bool.false_eq_true, if_false] at hdb
    refine ⟨{ p with IsCompleted := true }, ⟨?_, hqueue, hnd2, ?_, ?_⟩, fun _ => rfl,
      fun _ => rfl, fun _ => rfl⟩
    · rw [hdb, findProject_SaveProject]; simp [hpid]
    · rw [hdb, SaveProject_items]; exact hA
    · rw [hdb, SaveProject_items]; exact hB

/-- As many healthy calls as there are queued ids, on a seeded project: every
call answers 200 and the project ends seeded with the empty queue, completed
when at least one call was made. -/
theorem Seeded_receiveAll (id : String) (q : List Nat) :
    ∀ (s : State) (p : Project) (envs : List ReceiveEnv), Seeded s id p q →
      envs.length = q.length → (∀ E ∈ envs, E.healthy = true) →
      (∀ E ∈ envs, E.expiryAccepted p = true) →
      (∀ r ∈ (receiveAll envs id s).1, r.status = 200) ∧
      ∃ p1, Seeded (receiveAll envs id s).2 id p1 [] ∧
        (q ≠ [] ∨ p.IsCompleted = true → p1.IsCompleted = true) := by
  induction q with
  | nil =>
    intro s p envs hs hlen _ _
    have : envs = [] := List.length_eq_zero.mp (by simpa using hlen)
    subst this
    refine ⟨by simp [receiveAll], p, hs, ?_⟩
    intro h
    rcases h with h | h
    · exact absurd rfl h
    · exact h
  | cons h t ih =>
    intro s p envs hs hlen hE hW
    cases envs with
    | nil => simp at hlen
    | cons E Es =>
      obtain ⟨hst, p1, hs1, ht1, hc1, hw1⟩ :=
        Seeded_step (hE E (List.mem_cons_self _ _)) (hW E (List.mem_cons_self _ _)) hs
      obtain ⟨hall, p2, hs2, hc2⟩ := ih (ReceiveProject E id s).2 p1 Es hs1
        (by simpa using hlen) (fun e he => hE e (List.mem_cons_of_mem _ he))
        (fun e he => by rw [hw1 e]; exact hW e (List.mem_cons_of_mem _ he))
      simp only [receiveAll]
      refine ⟨?_, p2, hs2, ?_⟩
      · intro r hr
        rw [List.mem_cons] at hr
        rcases hr with hr | hr
        · rw [hr]; exact hst
        · exact hall r hr
      · intro _
        apply hc2
        by_cases hte : t = []
        · exact Or.inr (ht1 hte)
        · exact Or.inl hte

/-- Claim C9. (1) For a call of `ReceiveProject` that answers 200: when the
re-count of the project's unclaimed items is zero the project's row has
is_completed = true, and when it is positive the table of projects is as it
was. (2) For a project seeded with the ids `q` (at least one): after as many
calls without failure as there are ids (no operation fails and the server
accepts the time to live of the dedup record, as it does for every call made no
later than end_time), every call has answered 200, is_completed is true, and a
further call answers with the NoStock error and changes nothing. -/
theorem C9_completion_flip :
    (∀ (E : ReceiveEnv) (id : String) (s : State) (project : Project),
      s.db.findProject id = some project → (ReceiveProject E id s).1.status = 200 →
      ((ReceiveProject E id s).2.db.unclaimedCount project.ID = 0 →
        (ReceiveProject E id s).2.db.findProject id =
          some { project with IsCompleted := true }) ∧
      (0 < (ReceiveProject E id s).2.db.unclaimedCount project.ID →
        (ReceiveProject E id s).2.db.projects = s.db.projects)) ∧
    (∀ (id : String) (s : State) (project : Project) (q : List Nat) (envs : List ReceiveEnv)
      (E : ReceiveEnv),
      Seeded s id project q → q ≠ [] → envs.length = q.length →
      (∀ e ∈ envs, e.healthy = true) → (∀ e ∈ envs, e.expiryAccepted project = true) →
      E.loadProjectFails = false →
      (∀ r ∈ (receiveAll envs id s).1, r.status = 200) ∧
      (∃ p1, (receiveAll envs id s).2.db.findProject id = some p1 ∧ p1.IsCompleted = true) ∧
      ReceiveProject E id (receiveAll envs id s).2 =
        ({ status := 500, errorMsg := NoStock, data := none }, (receiveAll envs id s).2)) := by
  constructor
  · intro E id s project hp h
    exact ReceiveProject_ok_completion h hp
  · intro id s project q envs E hs hq hlen hE hW hl
    obtain ⟨hall, p1, hs1, hc⟩ := Seeded_receiveAll id q s project envs hs hlen hE hW
    obtain ⟨hp1, hq1, _, _, _⟩ := hs1
    refine ⟨hall, ⟨p1, hp1, hc (Or.inl hq)⟩, ?_⟩
    have hpe : Project.Exact E.loadProjectFails (receiveAll envs id s).2.db id = .ok p1 := by
      simp [Project.Exact, hl, hp1]
    simp [ReceiveProject, hpe, PrepareReceive_nil hq1]

/-- Claim C9, witness: (1) at the healthy call on the fresh one-item project,
(2) at two healthy calls on the fresh two-item project. -/
theorem C9_completion_flip_witness :
    (ReceiveProject exEnv "p" exFresh).2.db.findProject "p" =
      some { exProject with IsCompleted := true } ∧
    ((∀ r ∈ (receiveAll [exEnv, exEnv] "p" exFresh2).1, r.status = 200) ∧
      (∃ p1, (receiveAll [exEnv, exEnv] "p" exFresh2).2.db.findProject "p" = some p1 ∧
        p1.IsCompleted = true) ∧
      ReceiveProject exEnv "p" (receiveAll [exEnv, exEnv] "p" exFresh2).2 =
        ({ status := 500, errorMsg := NoStock, data := none },
          (receiveAll [exEnv, exEnv] "p" exFresh2).2)) :=
  ⟨(C9_completion_flip.1 exEnv "p" exFresh exProject (by decide) (by decide)).1 (by decide),
   C9_completion_flip.2 "p" exFresh2 { exProject with TotalItems := 2 } [1, 2] [exEnv, exEnv]
    exEnv (by unfold Seeded; decide) (by decide) (by decide) (by decide) (by decide)
    (by decide)⟩

/-! ## The proof-of-work gate: `verifyPOW` -/

theorem digitValue_digitChar (d : Nat) (h : d < 10) : digitValue (digitChar d) = some d := by
  interval_cases d <;> rfl

theorem parseUintLoop_append (n : Nat) (xs : List Char) (c : Char) :
    parseUintLoop n (xs ++ [c]) = (parseUintLoop n xs).bind (fun m => parseUintLoop m [c]) := by
  induction xs generalizing n with
  | nil => simp [parseUintLoop]
  | cons x t ih =>
    simp only [List.cons_append, parseUintLoop]
    cases digitValue x with
    | none => simp
    | some d =>
      simp only
      split
      · simp
      · split
        · simp
        · exact ih _

theorem decimalDigits_ne_nil (n : Nat) : decimalDigits n ≠ [] := by
  rw [decimalDigits]
  split <;> simp

/-- `ParseUint` reads back what `%d` prints, for every `uint64`. -/
theorem parseUintLoop_decimalDigits (n : Nat) (hn : n < 2 ^ 64) :
    parseUintLoop 0 (decimalDigits n) = some n := by
  induction n using Nat.strong_induction_on with
  | _ n ih =>
    rw [decimalDigits]
    split
    · rename_i hlt
      simp only [parseUintLoop, digitValue_digitChar n hlt]
      have h1 : ¬ (0 ≥ (2 ^ 64 - 1) / 10 + 1) := by norm_num
      have h2 : ¬ (0 * 10 + n > 2 ^ 64 - 1) := by omega
      simp only [h1, h2, if_false]
      simp
    · rename_i hge
      have hdiv : n / 10 < n := by omega
      rw [parseUintLoop_append, ih (n / 10) hdiv (by omega)]
      simp only [Option.some_bind, parseUintLoop, digitValue_digitChar (n % 10) (by omega)]
      have h1 : ¬ (n / 10 ≥ (2 ^ 64 - 1) / 10 + 1) := by omega
      have h2 : ¬ (n / 10 * 10 + n % 10 > 2 ^ 64 - 1) := by omega
      simp only [h1, h2, if_false]
      congr 1
      omega

theorem ParseUint_formatUint (n : Nat) (hn : n < 2 ^ 64) :
    ParseUint (formatUint n) = some n := by
  unfold ParseUint formatUint
  simp only [decimalDigits_ne_nil, if_false]
  exact parseUintLoop_decimalDigits n hn

theorem isPrefixOf_replicate_zero (k : Nat) :
    ∀ l : List Char, (List.replicate k '0').isPrefixOf l = true ↔
      k ≤ (l.takeWhile (fun c => decide (c = '0'))).length := by
  induction k with
  | zero => intro l; simp
  | succ k ih =>
    intro l
    cases l with
    | nil => simp [List.replicate_succ]
    | cons c cs =>
      by_cases hc : c = '0'
      · subst hc
        simp [List.replicate_succ, List.takeWhile_cons, ih cs]
      · have hc2 : ¬ ('0' = c) := fun h => hc h.symm
        simp [List.replicate_succ, List.takeWhile_cons, hc, hc2]

/-- Claim C10. For a challenge `c` whose key is in the challenge store (and an
EXISTS command that answers, whatever the DEL command does), and a nonce
`n < 2^64` written in canonical decimal, `verifyPOW` accepts exactly when the
lowercase hexadecimal digest of `c ++ ":" ++ decimal n` begins with 18
characters `0`; a digest whose leading run of `0` has length 17 or less is
rejected. -/
theorem C10_pow_difficulty_boundary (Sum256 : String → List UInt8) (delFails : Bool)
    (c : String) (n : Nat)
    (cache : Cache) (hn : n < 2 ^ 64) (hstored : cache.Exists (powKey c) = true) :
    ((verifyPOW Sum256 false delFails c (formatUint n) cache).1 = true ↔
      List.replicate 18 '0' <+: (hexEncodeToString (Sum256 (c ++ ":" ++ formatUint n))).data) ∧
    (leadingZeros (hexEncodeToString (Sum256 (c ++ ":" ++ formatUint n))) ≤ 17 →
      (verifyPOW Sum256 false delFails c (formatUint n) cache).1 = false) := by
  have hv : (verifyPOW Sum256 false delFails c (formatUint n) cache).1 =
      (List.replicate 18 '0').isPrefixOf
        (hexEncodeToString (Sum256 (c ++ ":" ++ formatUint n))).data := by
    simp [verifyPOW, hstored, ParseUint_formatUint n hn, HasPrefix, Repeat, POW_DIFFICULTY]
  constructor
  · rw [hv, List.isPrefixOf_iff_prefix]
  · intro hz
    rw [hv]
    cases hb : (List.replicate 18 '0').isPrefixOf
        (hexEncodeToString (Sum256 (c ++ ":" ++ formatUint n))).data with
    | false => rfl
    | true =>
      rw [isPrefixOf_replicate_zero] at hb
      unfold leadingZeros at hz
      omega

/-- Claim C10, witness: challenge `abc`, nonce 42, the all-zero digest. -/
theorem C10_pow_difficulty_boundary_witness :
    ((verifyPOW exZeroDigest false false "abc" (formatUint 42) exPowCache).1 = true ↔
      List.replicate 18 '0' <+:
        (hexEncodeToString (exZeroDigest ("abc" ++ ":" ++ formatUint 42))).data) ∧
    (leadingZeros (hexEncodeToString (exZeroDigest ("abc" ++ ":" ++ formatUint 42))) ≤ 17 →
      (verifyPOW exZeroDigest false false "abc" (formatUint 42) exPowCache).1 = false) :=
  C10_pow_difficulty_boundary exZeroDigest false "abc" 42 exPowCache (by norm_num) (by decide)

theorem Exists_Del (c : Cache) (key : String) : (c.Del key).Exists key = false := by
  simp [Cache.Del, Cache.Exists]

theorem verifyPOW_absent (Sum256 : String → List UInt8) (e d : Bool)
    (challenge nonceStr : String)
    (c : Cache) (h : c.Exists (powKey challenge) = false) :
    verifyPOW Sum256 e d challenge nonceStr c = (false, c) := by
  simp [verifyPOW, h]

theorem verifyPOW_cache (Sum256 : String → List UInt8) (d : Bool) (challenge nonceStr : String)
    (c : Cache) (h : c.Exists (powKey challenge) = true) :
    (verifyPOW Sum256 false d challenge nonceStr c).2 =
      if d then c else c.Del (powKey challenge) := by
  unfold verifyPOW
  simp only [h, Bool.not_true, Bool.or_self, Bool.false_eq_true, if_false]
  split <;> rfl

theorem verifyPOW_fails (Sum256 : String → List UInt8) (d : Bool) (challenge nonceStr : String)
    (c : Cache) : verifyPOW Sum256 true d challenge nonceStr c = (false, c) := by
  simp [verifyPOW]

/-- When the DEL command of the first attempt succeeds, a stored challenge is
used once: the first verification attempt (with an EXISTS command that answers)
removes the challenge from the store whatever its outcome, a second attempt
with the same token is rejected whatever its nonce, and of two attempts on the
same token, whether their EXISTS commands answer or not, at most one is
accepted. -/
theorem verifyPOW_single_use (Sum256 : String → List UInt8) (c : String)
    (nonce1 nonce2 : String) (cache : Cache) (hstored : cache.Exists (powKey c) = true) :
    (verifyPOW Sum256 false false c nonce1 cache).2.Exists (powKey c) = false ∧
    (∀ e2 d2 : Bool,
      (verifyPOW Sum256 e2 d2 c nonce2
        (verifyPOW Sum256 false false c nonce1 cache).2).1 = false) ∧
    (∀ e1 e2 d2 : Bool,
      ¬ ((verifyPOW Sum256 e1 false c nonce1 cache).1 = true ∧
         (verifyPOW Sum256 e2 d2 c nonce2
          (verifyPOW Sum256 e1 false c nonce1 cache).2).1 = true)) := by
  have h1 : (verifyPOW Sum256 false false c nonce1 cache).2.Exists (powKey c) = false := by
    rw [verifyPOW_cache Sum256 false c nonce1 cache hstored]
    exact Exists_Del _ _
  have h2 : ∀ e2 d2 : Bool,
      (verifyPOW Sum256 e2 d2 c nonce2
        (verifyPOW Sum256 false false c nonce1 cache).2).1 = false := by
    intro e2 d2
    rw [verifyPOW_absent Sum256 e2 d2 c nonce2 _ h1]
  refine ⟨h1, h2, ?_⟩
  intro e1 e2 d2 h
  cases e1 with
  | true =>
    rw [verifyPOW_fails] at h
    exact absurd h.1 (by simp)
  | false =>
    rw [h2 e2 d2] at h
    exact absurd h.2 (by simp)

/-- When the DEL command fails, a verification attempt on a stored challenge
leaves the store as it was, and the answer is that of the first attempt again
at every later attempt with the same nonce. -/
theorem verifyPOW_del_fails (Sum256 : String → List UInt8) (challenge nonceStr : String)
    (c : Cache) :
    (verifyPOW Sum256 false true challenge nonceStr c).2 = c := by
  unfold verifyPOW
  simp only [Bool.false_or, if_true]
  split
  · rfl
  · split <;> rfl

/-- Claim C11, evaluation at the failing input. The challenge `abc` is stored;
the nonce 42 is a solution (the digest function gives the all-zero digest). In
a request whose DEL command fails, `verifyPOW` accepts and the challenge is
still in the store; the same token and nonce sent a second time are accepted
again. -/
theorem C11_failed_del_allows_replay :
    exPowCache.Exists (powKey "abc") = true ∧
    verifyPOW exZeroDigest false true "abc" "42" exPowCache = (true, exPowCache) ∧
    (verifyPOW exZeroDigest false true "abc" "42" exPowCache).2.Exists (powKey "abc") = true ∧
    (verifyPOW exZeroDigest false false "abc" "42"
      (verifyPOW exZeroDigest false true "abc" "42" exPowCache).2).1 = true ∧
    (verifyPOW exZeroDigest false true "abc" "42"
      (verifyPOW exZeroDigest false true "abc" "42" exPowCache).2).1 = true := by
  decide

/-- Claim C12. For a request `GET /api/v1/projects` whose challenge header or
nonce header is empty, the middleware never lets the request proceed. When
the SET command succeeds it answers 401 with the challenge made by
`generateChallenge` and expires_at equal to the clock in seconds plus 300,
and the store then holds that challenge's key with value `1` and a time to
live of 300 seconds; when the SET command fails it answers 500 with an empty
challenge and the store is as before. -/
theorem C12_missing_headers_issue_challenge (Sum256 : String → List UInt8) (E : POWEnv)
    (challenge nonce : String) (c : Cache) (h : challenge = "" ∨ nonce = "") :
    (POWMiddleware Sum256 E "GET" "/api/v1/projects" challenge nonce c).1 ≠ GateOutcome.next ∧
    (E.setFails = false →
      (POWMiddleware Sum256 E "GET" "/api/v1/projects" challenge nonce c).1 =
        GateOutcome.abort 401 "POW challenge required"
          (generateChallenge E.nowNano E.random) (E.nowUnix + 300) ∧
      ({ key := powKey (generateChallenge E.nowNano E.random), value := "1", ttl := 300 }
          : CacheString) ∈
        (POWMiddleware Sum256 E "GET" "/api/v1/projects" challenge nonce c).2.strings ∧
      (POWMiddleware Sum256 E "GET" "/api/v1/projects" challenge nonce c).2.Exists
        (powKey (generateChallenge E.nowNano E.random)) = true) ∧
    (E.setFails = true →
      POWMiddleware Sum256 E "GET" "/api/v1/projects" challenge nonce c =
        (GateOutcome.abort 500 "Failed to generate challenge" "" 0, c)) := by
  unfold POWMiddleware
  simp only [ne_eq, not_true_eq_false, or_self, if_false, h, if_true]
  cases hs : E.setFails with
  | true => simp
  | false =>
    simp [POW_EXPIRY, Cache.Set, Cache.Exists]

/-- Claim C12, witness: a request without headers on an empty store. -/
theorem C12_missing_headers_issue_challenge_witness :
    (POWMiddleware exZeroDigest exPowEnv "GET" "/api/v1/projects" "" "" exPowCache).1
      ≠ GateOutcome.next ∧
    (exPowEnv.setFails = false →
      (POWMiddleware exZeroDigest exPowEnv "GET" "/api/v1/projects" "" "" exPowCache).1 =
        GateOutcome.abort 401 "POW challenge required"
          (generateChallenge exPowEnv.nowNano exPowEnv.random) (exPowEnv.nowUnix + 300) ∧
      ({ key := powKey (generateChallenge exPowEnv.nowNano exPowEnv.random), value := "1",
         ttl := 300 } : CacheString) ∈
        (POWMiddleware exZeroDigest exPowEnv "GET" "/api/v1/projects" "" "" exPowCache).2.strings ∧
      (POWMiddleware exZeroDigest exPowEnv "GET" "/api/v1/projects" "" "" exPowCache).2.Exists
        (powKey (generateChallenge exPowEnv.nowNano exPowEnv.random)) = true) ∧
    (exPowEnv.setFails = true →
      POWMiddleware exZeroDigest exPowEnv "GET" "/api/v1/projects" "" "" exPowCache =
        (GateOutcome.abort 500 "Failed to generate challenge" "" 0, exPowCache)) :=
  C12_missing_headers_issue_challenge exZeroDigest exPowEnv "" "" exPowCache (by decide)

theorem formatUint_seven : formatUint 7 = "7" := by
  unfold formatUint
  rw [decimalDigits]
  decide

theorem hashedInput_abc_007 : hashedInput "abc" "007" = some "abc:7" := by
  have hp : ParseUint "007" = some 7 := by decide
  simp only [hashedInput, hp, formatUint_seven]
  decide

theorem verifyPOW_abc_007 :
    (verifyPOW exDigest7 false false "abc" "007" exPowCache).1 = true := by
  have hp : ParseUint "007" = some 7 := by decide
  have hs : exPowCache.Exists (powKey "abc") = true := by decide
  simp only [verifyPOW, hs, hp, formatUint_seven, Bool.not_true, Bool.or_self,
    Bool.false_eq_true, if_false]
  decide

/-- Claim C18, counterexample. The nonce header `007` parses (as 7); the
string hashed for challenge `abc` is `abc:7`, not `abc:007`. With a digest
function that gives the all-zero digest on `abc:7` only, `verifyPOW` accepts
the header `007` although the digest of `abc:007` has no leading zero. -/
theorem C18_counterexample :
    ParseUint "007" = some 7 ∧
    hashedInput "abc" "007" = some "abc:7" ∧
    hashedInput "abc" "007" ≠ some ("abc" ++ ":" ++ "007") ∧
    (verifyPOW exDigest7 false false "abc" "007" exPowCache).1 = true ∧
    HasPrefix (hexEncodeToString (exDigest7 ("abc" ++ ":" ++ "007")))
      (Repeat '0' POW_DIFFICULTY) = false := by
  refine ⟨by decide, hashedInput_abc_007, ?_, verifyPOW_abc_007, by decide⟩
  rw [hashedInput_abc_007]
  decide

theorem append_colon_cancel (c a b : String) : c ++ ":" ++ a = c ++ ":" ++ b ↔ a = b := by
  constructor
  · intro h
    have hd := congrArg String.data h
    simp only [String.data_append, List.append_cancel_left_eq] at hd
    exact String.ext hd
  · intro h
    rw [h]

/-- Claim C18, amended. For a nonce header `s` that parses to `n`, the string
hashed by `verifyPOW` is the challenge, a colon and the canonical decimal of
`n`; the answer of `verifyPOW` on a stored challenge is the test of that
string's digest; and the hashed string is the literal pairing `c ++ ":" ++ s`
exactly when `s` is the canonical decimal of `n`. -/
theorem C18_hashed_input_canonical (Sum256 : String → List UInt8) (delFails : Bool)
    (c s : String) (n : Nat)
    (cache : Cache) (hp : ParseUint s = some n) (hstored : cache.Exists (powKey c) = true) :
    hashedInput c s = some (c ++ ":" ++ formatUint n) ∧
    (verifyPOW Sum256 false delFails c s cache).1 =
      HasPrefix (hexEncodeToString (Sum256 (c ++ ":" ++ formatUint n)))
        (Repeat '0' POW_DIFFICULTY) ∧
    (hashedInput c s = some (c ++ ":" ++ s) ↔ s = formatUint n) := by
  have h1 : hashedInput c s = some (c ++ ":" ++ formatUint n) := by
    simp [hashedInput, hp]
  refine ⟨h1, ?_, ?_⟩
  · simp [verifyPOW, hstored, hp]
  · rw [h1, Option.some.injEq, append_colon_cancel]
    exact eq_comm

/-- Claim C18, witness: the header `007` on the stored challenge `abc`. -/
theorem C18_hashed_input_canonical_witness :
    hashedInput "abc" "007" = some ("abc" ++ ":" ++ formatUint 7) ∧
    (verifyPOW exDigest7 false false "abc" "007" exPowCache).1 =
      HasPrefix (hexEncodeToString (exDigest7 ("abc" ++ ":" ++ formatUint 7)))
        (Repeat '0' POW_DIFFICULTY) ∧
    (hashedInput "abc" "007" = some ("abc" ++ ":" ++ "007") ↔ "007" = formatUint 7) :=
  C18_hashed_input_canonical exDigest7 false "abc" "007" 7 exPowCache (by decide) (by decide)

/-! ## The dedup record and the distribution window -/

theorem strings_SetNXEntry_present {c : Cache} {e : CacheString}
    (h : c.Exists e.key = true) : (c.SetNXEntry e).strings = c.strings := by
  unfold Cache.SetNXEntry
  rw [if_pos h]

theorem strings_SetNXEntry_absent {c : Cache} {e : CacheString}
    (h : c.Exists e.key = false) : (c.SetNXEntry e).strings = c.strings ++ [e] := by
  unfold Cache.SetNXEntry
  simp [h]

theorem Exists_setList (c : Cache) (key : String) (v : List Nat) (k : String) :
    (c.setList key v).Exists k = c.Exists k := rfl

/-- The entry that an accepted `SetNX` asks for: the expiration is at least
`KeepTTL`; the entry has no time to live for expiration `0` and `KeepTTL`, a
time to live of one millisecond for a positive expiration below a millisecond,
and otherwise the expiration truncated to whole milliseconds. -/
theorem setNXRecord_ttl {k v : String} {d : Int} {e : CacheString}
    (h : setNXRecord k v d = some e) :
    -1 ≤ d ∧
    (d = 0 ∨ d = -1 → e = { key := k, value := v, ttl := 0, noExpiry := true }) ∧
    (0 < d → e.noExpiry = false) ∧
    (0 < d → d < Millisecond → e.ttlNanos = Millisecond) ∧
    (Millisecond ≤ d → d - Millisecond < e.ttlNanos ∧ e.ttlNanos ≤ d) := by
  have hge : -1 ≤ d := by
    by_contra hc
    rw [setNXRecord_neg k v (by omega)] at h
    cases h
  refine ⟨hge, ?_⟩
  unfold setNXRecord at h
  by_cases h0 : d = 0 ∨ d = KeepTTL
  · rw [if_pos h0] at h
    cases h
    have hd : ¬ 0 < d := by unfold KeepTTL at h0; omega
    have hd2 : ¬ Millisecond ≤ d := by unfold KeepTTL at h0; unfold Millisecond; omega
    exact ⟨fun _ => rfl, fun x => absurd x hd, fun x => absurd x hd, fun x => absurd x hd2⟩
  · rw [if_neg h0] at h
    have hpos : 0 < d := by unfold KeepTTL at h0; omega
    have hn : ¬ (d = 0 ∨ d = -1) := by omega
    refine ⟨fun x => absurd x hn, ?_⟩
    by_cases hp : usePrecise d = true
    · rw [if_pos hp] at h
      split at h
      · cases h
      · cases h
        refine ⟨fun _ => rfl, ?_, ?_⟩
        · intro _ hlt
          simp only [CacheString.ttlNanos, formatMs, if_true]
          rw [if_pos ⟨hpos, hlt⟩]
          unfold Millisecond
          rfl
        · intro hle
          simp only [CacheString.ttlNanos, formatMs, if_true]
          rw [if_neg (by omega), Int.tdiv_eq_ediv (by omega) (by unfold Millisecond; omega)]
          unfold Millisecond at hle ⊢
          omega
    · rw [if_neg hp] at h
      have hs : Second ≤ d ∧ d % Second = 0 := by
        unfold usePrecise at hp
        have hq : ¬ (d < Second ∨ d.tmod Second ≠ 0) := by simpa using hp
        have h1 : Second ≤ d := by
          by_contra hc
          exact hq (Or.inl (by omega))
        have h2 : d.tmod Second = 0 := by
          by_contra hc
          exact hq (Or.inr hc)
        rw [Int.tmod_eq_emod (by omega) (by unfold Second; omega)] at h2
        exact ⟨h1, h2⟩
      split at h
      · cases h
      · cases h
        refine ⟨fun _ => rfl, ?_, ?_⟩
        · intro _ hlt
          unfold Millisecond at hlt
          unfold Second at hs
          omega
        · intro _
          simp only [CacheString.ttlNanos, formatSec, Bool.false_eq_true, if_false]
          rw [if_neg (by omega), Int.tdiv_eq_ediv (by omega) (by unfold Second; omega)]
          unfold Second at hs ⊢
          unfold Millisecond
          omega

/-- The string entries of the cache after a call that answers 200. -/
theorem ReceiveProject_ok_strings {E : ReceiveEnv} {id : String} {s : State}
    (h : (ReceiveProject E id s).1.status = 200) :
    ∃ project, s.db.findProject id = some project ∧
      (project.AllowSameIP = true →
        (ReceiveProject E id s).2.redis.strings = s.redis.strings) ∧
      (project.AllowSameIP = false →
        ∃ e, setNXRecord (project.SameIPCacheKey E.clientIP) E.clientIP
            (timeSub project.EndTime E.nowTTL) = some e ∧
          (ReceiveProject E id s).2.redis.Exists (project.SameIPCacheKey E.clientIP) = true ∧
          (s.redis.Exists (project.SameIPCacheKey E.clientIP) = true →
            (ReceiveProject E id s).2.redis.strings = s.redis.strings) ∧
          (s.redis.Exists (project.SameIPCacheKey E.clientIP) = false →
            (ReceiveProject E id s).2.redis.strings = s.redis.strings ++ [e])) := by
  obtain ⟨p, i, r, it, hfp, _, _, _, _, hred⟩ := ReceiveProject_ok_inv h
  refine ⟨p, hfp, ?_, ?_⟩
  · intro ha
    rw [hred, ha]
    rfl
  · intro ha
    have hacc := ReceiveProject_ok_accepted h hfp ha
    obtain ⟨e, he⟩ := Option.isSome_iff_exists.mp hacc
    have hk : e.key = p.SameIPCacheKey E.clientIP := (setNXRecord_key he).1
    refine ⟨e, he, ?_⟩
    rw [hred, ha]
    simp only [Bool.false_eq_true, if_false]
    refine ⟨Exists_SetNX _ hacc, ?_, ?_⟩
    · intro hex
      rw [SetNXAccepted_of_some he,
        strings_SetNXEntry_present (by rw [hk, Exists_setList]; exact hex)]
      rfl
    · intro hex
      rw [SetNXAccepted_of_some he,
        strings_SetNXEntry_absent (by rw [hk, Exists_setList]; exact hex)]
      rfl

/-- Claim C13, counterexample. (1) The call on the fresh one-item project made
exactly at end_time (end_time - now = 0) answers 200 and creates the dedup
record without any time to live. (2) On the project whose end_time lies 2^64
nanoseconds after the epoch, the call at 201 answers 200 and creates the record
with a time to live of 9223372036854 milliseconds, the largest `time.Duration`,
while end_time - now is 18446744073709 milliseconds. -/
theorem C13_counterexample :
    exProject.AllowSameIP = false ∧ exProject.EndTime - exEnvAtEnd.nowTTL = 0 ∧
    exFresh.redis.strings = [] ∧
    (ReceiveProject exEnvAtEnd "p" exFresh).1.status = 200 ∧
    (ReceiveProject exEnvAtEnd "p" exFresh).2.redis.strings =
      [{ key := "project:p:ip:10.0.0.1", value := "10.0.0.1", ttl := 0, noExpiry := true }] ∧
    exFarProject.AllowSameIP = false ∧
    (exFarProject.EndTime - exEnv.nowTTL) / Millisecond = 18446744073709 ∧
    exFar.redis.strings = [] ∧
    (ReceiveProject exEnv "p" exFar).1.status = 200 ∧
    (ReceiveProject exEnv "p" exFar).2.redis.strings =
      [{ key := "project:p:ip:10.0.0.1", value := "10.0.0.1", ttl := 9223372036854,
         millis := true }] := by
  decide

/-- Claim C13, amended. After a call of `ReceiveProject` that answers 200: on a
project with allow_same_ip = true the string entries of the cache are as
before; on a project with allow_same_ip = false a dedup record with the key of
(project id, client address) exists, an already existing record is left as it
was, and when none existed the string entries are those before followed by the
record that `SetNX` asks for with expiration d = `EndTime.Sub(now)`, where d is
end_time - now capped at the largest `time.Duration` and at least -1: the
record has no time to live when d is 0 or -1, a time to live of one millisecond
when 0 < d < 1 ms, and otherwise a time to live of d truncated to whole
milliseconds. -/
theorem C13_dedup_record (E : ReceiveEnv) (id : String) (s : State)
    (h : (ReceiveProject E id s).1.status = 200) :
    ∃ project, s.db.findProject id = some project ∧
      (project.AllowSameIP = true →
        (ReceiveProject E id s).2.redis.strings = s.redis.strings) ∧
      (project.AllowSameIP = false →
        ∃ e, setNXRecord (project.SameIPCacheKey E.clientIP) E.clientIP
            (timeSub project.EndTime E.nowTTL) = some e ∧
          e.key = project.SameIPCacheKey E.clientIP ∧ e.value = E.clientIP ∧
          (ReceiveProject E id s).2.redis.Exists (project.SameIPCacheKey E.clientIP) = true ∧
          (s.redis.Exists (project.SameIPCacheKey E.clientIP) = true →
            (ReceiveProject E id s).2.redis.strings = s.redis.strings) ∧
          (s.redis.Exists (project.SameIPCacheKey E.clientIP) = false →
            (ReceiveProject E id s).2.redis.strings = s.redis.strings ++ [e]) ∧
          timeSub project.EndTime E.nowTTL = min (project.EndTime - E.nowTTL) maxDuration ∧
          -1 ≤ timeSub project.EndTime E.nowTTL ∧
          (timeSub project.EndTime E.nowTTL = 0 ∨ timeSub project.EndTime E.nowTTL = -1 →
            e = { key := project.SameIPCacheKey E.clientIP, value := E.clientIP, ttl := 0,
                  noExpiry := true }) ∧
          (0 < timeSub project.EndTime E.nowTTL → e.noExpiry = false) ∧
          (0 < timeSub project.EndTime E.nowTTL →
            timeSub project.EndTime E.nowTTL < Millisecond → e.ttlNanos = Millisecond) ∧
          (Millisecond ≤ timeSub project.EndTime E.nowTTL →
            timeSub project.EndTime E.nowTTL - Millisecond < e.ttlNanos ∧
            e.ttlNanos ≤ timeSub project.EndTime E.nowTTL)) := by
  obtain ⟨p, hfp, ht, hf⟩ := ReceiveProject_ok_strings h
  refine ⟨p, hfp, ht, ?_⟩
  intro ha
  obtain ⟨e, he, hex, hpres, habs⟩ := hf ha
  obtain ⟨hge, hz, hne, hsmall, htrunc⟩ := setNXRecord_ttl he
  refine ⟨e, he, (setNXRecord_key he).1, (setNXRecord_key he).2, hex, hpres, habs, ?_, hge, hz,
    hne, hsmall, htrunc⟩
  have hge2 := hge
  unfold timeSub minDuration maxDuration at hge2 ⊢
  split
  · rename_i h1
    rw [if_pos h1] at hge2
    omega
  · split
    · rw [min_eq_right (by omega)]
    · rw [min_eq_left (by omega)]

/-- Claim C13, witness: the healthy call at time 201 on the fresh one-item
project, whose end_time is 1000. -/
theorem C13_dedup_record_witness :
    (ReceiveProject exEnv "p" exFresh).1.status = 200 ∧
    ∃ project, exFresh.db.findProject "p" = some project ∧
      (project.AllowSameIP = true →
        (ReceiveProject exEnv "p" exFresh).2.redis.strings = exFresh.redis.strings) ∧
      (project.AllowSameIP = false →
        ∃ e, setNXRecord (project.SameIPCacheKey exEnv.clientIP) exEnv.clientIP
            (timeSub project.EndTime exEnv.nowTTL) = some e ∧
          e.key = project.SameIPCacheKey exEnv.clientIP ∧ e.value = exEnv.clientIP ∧
          (ReceiveProject exEnv "p" exFresh).2.redis.Exists
            (project.SameIPCacheKey exEnv.clientIP) = true ∧
          (exFresh.redis.Exists (project.SameIPCacheKey exEnv.clientIP) = true →
            (ReceiveProject exEnv "p" exFresh).2.redis.strings = exFresh.redis.strings) ∧
          (exFresh.redis.Exists (project.SameIPCacheKey exEnv.clientIP) = false →
            (ReceiveProject exEnv "p" exFresh).2.redis.strings =
              exFresh.redis.strings ++ [e]) ∧
          timeSub project.EndTime exEnv.nowTTL =
            min (project.EndTime - exEnv.nowTTL) maxDuration ∧
          -1 ≤ timeSub project.EndTime exEnv.nowTTL ∧
          (timeSub project.EndTime exEnv.nowTTL = 0 ∨
              timeSub project.EndTime exEnv.nowTTL = -1 →
            e = { key := project.SameIPCacheKey exEnv.clientIP, value := exEnv.clientIP,
                  ttl := 0, noExpiry := true }) ∧
          (0 < timeSub project.EndTime exEnv.nowTTL → e.noExpiry = false) ∧
          (0 < timeSub project.EndTime exEnv.nowTTL →
            timeSub project.EndTime exEnv.nowTTL < Millisecond → e.ttlNanos = Millisecond) ∧
          (Millisecond ≤ timeSub project.EndTime exEnv.nowTTL →
            timeSub project.EndTime exEnv.nowTTL - Millisecond < e.ttlNanos ∧
            e.ttlNanos ≤ timeSub project.EndTime exEnv.nowTTL)) :=
  ⟨by decide, C13_dedup_record exEnv "p" exFresh (by decide)⟩

/-- A call in which nothing fails, with the project found, an id queued and
its row present: the answer and the row after the call. -/
theorem ReceiveProject_healthy_effect {E : ReceiveEnv} {id : String} {s : State}
    {p : Project} {i : Nat} {t : List Nat} {it : ProjectItem}
    (hE : E.healthy = true) (hp : s.db.findProject id = some p)
    (hq : s.redis.LRange p.ItemsKey = i :: t) (hi : s.db.findItem i = some it)
    (hw : E.expiryAccepted p = true) :
    (ReceiveProject E id s).1 = { status := 200, errorMsg := "", data := some it.Content } ∧
    (ReceiveProject E id s).2.db.findItem i =
      some { it with ReceiverID := some E.userID, ReceivedAt := some E.now } := by
  have hst := ReceiveProject_healthy_status hE hp hq hi hw
  obtain ⟨p1, i1, r1, it1, hfp, hq1, hfi, hresp, hdb, _⟩ := ReceiveProject_ok_inv hst
  rw [hp] at hfp; cases hfp
  rw [hq] at hq1; cases hq1
  rw [hi] at hfi; cases hfi
  refine ⟨hresp, ?_⟩
  rw [hdb]
  have hid : it.ID = i := findItem_ID hi
  split
  · rw [findItem_SaveItem]; simp [hid]
  · rw [findItem_SaveProject, findItem_SaveItem]; simp [hid]

/-- Claim C14. On a project with allow_same_ip = false whose dedup record for
the caller's address already exists, a call of `ReceiveProject` from that
address in which no operation fails (the `SetNX` included: the cache is reached
and the server accepts its time to live, as it does for every call made no later
than end_time), with an id queued and its row present, answers 200 with the
item's content and assigns the item to the caller; the existing record is left
as it was. -/
theorem C14_dedup_does_not_block (E : ReceiveEnv) (id : String) (s : State) (p : Project)
    (i : Nat) (t : List Nat) (it : ProjectItem)
    (hE : E.healthy = true) (hw : E.expiryAccepted p = true)
    (hp : s.db.findProject id = some p)
    (ha : p.AllowSameIP = false)
    (hd : s.redis.Exists (p.SameIPCacheKey E.clientIP) = true)
    (hq : s.redis.LRange p.ItemsKey = i :: t) (hi : s.db.findItem i = some it) :
    (ReceiveProject E id s).1 = { status := 200, errorMsg := "", data := some it.Content } ∧
    (ReceiveProject E id s).2.db.findItem i =
      some { it with ReceiverID := some E.userID, ReceivedAt := some E.now } ∧
    (ReceiveProject E id s).2.redis.strings = s.redis.strings := by
  obtain ⟨h1, h2⟩ := ReceiveProject_healthy_effect hE hp hq hi hw
  refine ⟨h1, h2, ?_⟩
  have hst : (ReceiveProject E id s).1.status = 200 := by rw [h1]
  obtain ⟨p1, hfp, _, hno⟩ := ReceiveProject_ok_strings hst
  rw [hp] at hfp; cases hfp
  obtain ⟨_, _, _, hpres, _⟩ := hno ha
  exact hpres hd

/-- Claim C14, witness: the fresh one-item project with the dedup record of
the caller's address already in the cache. -/
theorem C14_dedup_does_not_block_witness :
    (ReceiveProject exEnv "p" exFreshMarked).1 =
      { status := 200, errorMsg := "", data := some exItem.Content } ∧
    (ReceiveProject exEnv "p" exFreshMarked).2.db.findItem 1 =
      some { exItem with ReceiverID := some exEnv.userID, ReceivedAt := some exEnv.now } ∧
    (ReceiveProject exEnv "p" exFreshMarked).2.redis.strings = exFreshMarked.redis.strings :=
  C14_dedup_does_not_block exEnv "p" exFreshMarked exProject 1 [] exItem
    (by decide) (by decide) (by decide) (by decide) (by decide) (by decide) (by decide)

/-- Claim C16, counterexample. The window of project `w` is [500, 1000). A call
at time 200 (before start_time) answers 200 and the item is claimed, and so
does a call at time 2000 (after end_time). -/
theorem C16_counterexample :
    exWindowProject.StartTime = 500 ∧ exWindowProject.EndTime = 1000 ∧
    exEnv.now = 200 ∧ exEnvLate.now = 2000 ∧
    exWindow.db.findItem 5 = some exWindowItem ∧ exWindowItem.ReceiverID = none ∧
    (ReceiveProject exEnv "w" exWindow).1.status = 200 ∧
    (ReceiveProject exEnv "w" exWindow).2.db.findItem 5 =
      some { exWindowItem with ReceiverID := some 20, ReceivedAt := some 200 } ∧
    (ReceiveProject exEnvLate "w" exWindow).1.status = 200 ∧
    (ReceiveProject exEnvLate "w" exWindow).2.db.findItem 5 =
      some { exWindowItem with ReceiverID := some 20, ReceivedAt := some 2000 } := by
  decide

/-- Claim C16, amended. The handler never compares the clock with start_time,
and end_time bounds a claim only through the time to live of the dedup record.
For a project found in the ledger: (1) when allow_same_ip is false, a call whose
clock is more than a nanosecond past end_time does not answer 200 and leaves the
ledger as it was, whatever else happens in the call (the server refuses the
negative time to live and the transaction is rolled back), so no item becomes
Claimed; (2) a call in which no operation fails, with an id queued and its row
present, on a project with allow_same_ip = true or made no later than end_time,
answers 200 and assigns the item at the time of the call: before start_time as
well, and with allow_same_ip = true after end_time as well. -/
theorem C16_window_only_by_expiry (E : ReceiveEnv) (id : String) (s : State) (p : Project)
    (hp : s.db.findProject id = some p) :
    (p.AllowSameIP = false → p.EndTime + 1 < E.nowTTL →
      (ReceiveProject E id s).1.status ≠ 200 ∧ (ReceiveProject E id s).2.db = s.db) ∧
    (∀ (i : Nat) (t : List Nat) (it : ProjectItem),
      E.healthy = true → (p.AllowSameIP = true ∨ E.nowTTL ≤ p.EndTime) →
      s.redis.LRange p.ItemsKey = i :: t → s.db.findItem i = some it →
      (ReceiveProject E id s).1 = { status := 200, errorMsg := "", data := some it.Content } ∧
      (ReceiveProject E id s).2.db.findItem i =
        some { it with ReceiverID := some E.userID, ReceivedAt := some E.now }) := by
  constructor
  · intro ha hlate
    have hst : (ReceiveProject E id s).1.status ≠ 200 := by
      intro h
      have hacc := ReceiveProject_ok_accepted h hp ha
      rw [setNXRecord_neg _ _ (timeSub_neg hlate)] at hacc
      cases hacc
    exact ⟨hst, ReceiveProject_error_db hst⟩
  · intro i t it hE hw hq hi
    exact ReceiveProject_healthy_effect hE hp hq hi (expiryAccepted_of_le hw)

/-- Claim C16, witness: (1) the fresh one-item project `p`, allow_same_ip =
false and end_time 1000, called at time 2000; (2) project `w`, allow_same_ip =
true and window [500, 1000), called at time 2000. -/
theorem C16_window_only_by_expiry_witness :
    ((ReceiveProject exEnvLate "p" exFresh).1.status ≠ 200 ∧
      (ReceiveProject exEnvLate "p" exFresh).2.db = exFresh.db) ∧
    ((ReceiveProject exEnvLate "w" exWindow).1 =
        { status := 200, errorMsg := "", data := some exWindowItem.Content } ∧
      (ReceiveProject exEnvLate "w" exWindow).2.db.findItem 5 =
        some { exWindowItem with ReceiverID := some exEnvLate.userID,
                                 ReceivedAt := some exEnvLate.now }) :=
  ⟨(C16_window_only_by_expiry exEnvLate "p" exFresh exProject (by decide)).1
      (by decide) (by decide),
   (C16_window_only_by_expiry exEnvLate "w" exWindow exWindowProject (by decide)).2
      5 [] exWindowItem (by decide) (by decide) (by decide) (by decide)⟩

/-! ## The queue invariant -/

theorem queueOf_eq {s : State} {id : String} {p : Project} (h : s.db.findProject id = some p) :
    queueOf s id = s.redis.LRange p.ItemsKey := by
  simp [queueOf, h]

theorem ItemsKey_of_ID {p q : Project} (h : p.ID = q.ID) : p.ItemsKey = q.ItemsKey := by
  simp [Project.ItemsKey, h]

/-- The project's queue after a call that does not answer 200: as before, or
without its head, or without its head and with the head appended. -/
theorem ReceiveProject_error_queue_shape {E : ReceiveEnv} {id : String} {s : State}
    {project : Project} (hp : s.db.findProject id = some project)
    (h : (ReceiveProject E id s).1.status ≠ 200) :
    (ReceiveProject E id s).2.redis.LRange project.ItemsKey = s.redis.LRange project.ItemsKey ∨
    ∃ i rest, s.redis.LRange project.ItemsKey = i :: rest ∧
      ((ReceiveProject E id s).2.redis.LRange project.ItemsKey = rest ∨
       (ReceiveProject E id s).2.redis.LRange project.ItemsKey = rest ++ [i]) := by
  rcases ReceiveProject_cases E id s with ⟨e, _, hr⟩ | ⟨p, _, _, hr⟩ |
    ⟨p, i, r, e, hpe, hq, _, hr⟩ | ⟨p, i, r, it, e, s2, hpe, hq, _, ht, hr⟩ |
    ⟨p, i, r, it, s2, _, _, _, _, hr⟩
  · left; rw [hr]
  · left; rw [hr]
  · have hpp := (Project_Exact_ok hpe).2
    rw [hp] at hpp
    cases hpp
    right
    refine ⟨i, r, hq, Or.inl ?_⟩
    rw [hr]
    exact LRange_setList _ _ _
  · have hpp := (Project_Exact_ok hpe).2
    rw [hp] at hpp
    cases hpp
    have hs2 : s2.redis.LRange project.ItemsKey = r := by
      have h1 := Transaction_redis E.commitFails (receiveTx E project it)
        { s with redis := s.redis.setList project.ItemsKey r }
      rw [ht] at h1
      simp only at h1
      rw [h1, LRange_congr (receiveTx_lists _ _ _ _)]
      exact LRange_setList _ _ _
    right
    refine ⟨i, r, hq, ?_⟩
    rw [hr]
    simp only
    split
    · exact Or.inl hs2
    · right
      simp only
      rw [LRange_RPush, hs2]
  · rw [hr] at h
    exact absurd rfl h

/-- A state with the same ledger and a queue that is a rearrangement of part
of the old queue keeps the invariant. -/
theorem QueueSound_of_sub {s s1 : State} {id : String} (hs : QueueSound s id)
    (hdb : s1.db = s.db) (hnd : (queueOf s1 id).Nodup)
    (hsub : ∀ i ∈ queueOf s1 id, i ∈ queueOf s id) : QueueSound s1 id := by
  obtain ⟨⟨p, hp⟩, _, hrows⟩ := hs
  refine ⟨⟨p, by rw [hdb]; exact hp⟩, hnd, ?_⟩
  intro i hi
  rw [hdb]
  exact hrows i (hsub i hi)

/-- One call of `ReceiveProject` on a project whose queue is sound: the queue
is sound after the call, every id queued after the call was queued before,
and an id handed out was queued before and is not queued after. -/
theorem QueueSound_step {E : ReceiveEnv} {id : String} {s : State} (hs : QueueSound s id) :
    QueueSound (ReceiveProject E id s).2 id ∧
    (∀ i ∈ queueOf (ReceiveProject E id s).2 id, i ∈ queueOf s id) ∧
    (∀ h, handedID E id s = some h →
      h ∈ queueOf s id ∧ h ∉ queueOf (ReceiveProject E id s).2 id) := by
  obtain ⟨⟨p, hp⟩, hnd, hrows⟩ := hs
  have hqs : queueOf s id = s.redis.LRange p.ItemsKey := queueOf_eq hp
  by_cases hst : (ReceiveProject E id s).1.status = 200
  · obtain ⟨p1, i, r, it, hfp, hq, hfi, _, hdb, hred⟩ := ReceiveProject_ok_inv hst
    rw [hp] at hfp; cases hfp
    have hpid : p.ID = id := findProject_ID hp
    have hitid : it.ID = i := findItem_ID hfi
    have hqueue : (ReceiveProject E id s).2.redis.LRange p.ItemsKey = r := by
      rw [hred]
      split
      · exact LRange_setList _ _ _
      · rw [LRange_SetNX]; exact LRange_setList _ _ _
    have hfind : ∃ q, (ReceiveProject E id s).2.db.findProject id = some q ∧ q.ID = p.ID := by
      rw [hdb]
      split
      · exact ⟨p, by rw [findProject_SaveItem]; exact hp, rfl⟩
      · exact ⟨{ p with IsCompleted := true },
          by rw [findProject_SaveProject]; simp [hpid], rfl⟩
    obtain ⟨q, hq1, hq2⟩ := hfind
    have hqs1 : queueOf (ReceiveProject E id s).2 id = r := by
      rw [queueOf_eq hq1, ItemsKey_of_ID hq2, hqueue]
    have hitems : (ReceiveProject E id s).2.db.items =
        s.db.items.map (fun x => if x.ID = it.ID then
          { it with ReceiverID := some E.userID, ReceivedAt := some E.now } else x) := by
      rw [hdb]
      split
      · exact SaveItem_items_of_findItem
          { it with ReceiverID := some E.userID, ReceivedAt := some E.now }
          (by rw [hitid]; exact hfi)
      · rw [SaveProject_items]
        exact SaveItem_items_of_findItem
          { it with ReceiverID := some E.userID, ReceivedAt := some E.now }
          (by rw [hitid]; exact hfi)
    rw [hqs, hq] at hnd hrows
    rw [hqs, hq, hqs1]
    have hnot : i ∉ r := (List.nodup_cons.mp hnd).1
    refine ⟨⟨⟨q, hq1⟩, by rw [hqs1]; exact (List.nodup_cons.mp hnd).2, ?_⟩,
      fun j hj => List.mem_cons_of_mem _ hj, ?_⟩
    · rw [hqs1, hitems]
      intro j hj
      have hne : j ≠ i := fun hji => hnot (hji ▸ hj)
      obtain ⟨⟨x, hx, hxj⟩, hall⟩ := hrows j (List.mem_cons_of_mem _ hj)
      constructor
      · refine ⟨x, ?_, hxj⟩
        rw [List.mem_map]
        refine ⟨x, hx, ?_⟩
        have : x.ID ≠ it.ID := by rw [hxj, hitid]; exact hne
        rw [if_neg this]
      · intro y hy hyj
        rw [List.mem_map] at hy
        obtain ⟨x0, hx0, hxy⟩ := hy
        by_cases hc : x0.ID = it.ID
        · rw [if_pos hc] at hxy
          subst hxy
          exact absurd (hyj.symm.trans hitid) hne
        · rw [if_neg hc] at hxy
          subst hxy
          exact hall x0 hx0 hyj
    · intro h hh
      unfold handedID at hh
      rw [if_pos hst, hqs, hq] at hh
      simp only [List.head?_cons, Option.some.injEq] at hh
      subst hh
      exact ⟨List.mem_cons_self _ _, hnot⟩
  · have hdb := ReceiveProject_error_db hst
    have hp1 : (ReceiveProject E id s).2.db.findProject id = some p := by rw [hdb]; exact hp
    have hqs1 : queueOf (ReceiveProject E id s).2 id =
        (ReceiveProject E id s).2.redis.LRange p.ItemsKey := queueOf_eq hp1
    have hshape := ReceiveProject_error_queue_shape hp hst
    have hnone : ∀ h, handedID E id s = some h →
        h ∈ queueOf s id ∧ h ∉ queueOf (ReceiveProject E id s).2 id := by
      intro h hh
      unfold handedID at hh
      rw [if_neg hst] at hh
      cases hh
    have hkey : (queueOf (ReceiveProject E id s).2 id).Nodup ∧
        ∀ i ∈ queueOf (ReceiveProject E id s).2 id, i ∈ queueOf s id := by
      rw [hqs1, hqs]
      rcases hshape with h1 | ⟨i, rest, hq, h1 | h1⟩
      · rw [h1]
        exact ⟨by rw [← hqs]; exact hnd, fun _ h => h⟩
      · rw [h1, hq]
        rw [hqs, hq] at hnd
        exact ⟨(List.nodup_cons.mp hnd).2, fun j hj => List.mem_cons_of_mem _ hj⟩
      · rw [h1, hq]
        rw [hqs, hq] at hnd
        constructor
        · have hperm : List.Perm (rest ++ [i]) (i :: rest) :=
            (List.perm_append_comm : List.Perm (rest ++ [i]) ([i] ++ rest))
          exact hperm.nodup_iff.mpr hnd
        · intro j hj
          rw [List.mem_append, List.mem_singleton] at hj
          rcases hj with hj | hj
          · exact List.mem_cons_of_mem _ hj
          · rw [hj]; exact List.mem_cons_self _ _
    exact ⟨QueueSound_of_sub ⟨⟨p, hp⟩, hnd, hrows⟩ hdb hkey.1 hkey.2, hkey.2, hnone⟩

/-- A sequence of calls on a project whose queue is sound: the queue is sound
at the end, and the ids handed out are queued ids, pairwise distinct. -/
theorem QueueSound_receiveAll (id : String) (envs : List ReceiveEnv) :
    ∀ s : State, QueueSound s id →
      QueueSound (receiveAll envs id s).2 id ∧
      (∀ h ∈ handedIDs envs id s, h ∈ queueOf s id) ∧
      (handedIDs envs id s).Nodup := by
  induction envs with
  | nil =>
    intro s hs
    exact ⟨hs, by simp [handedIDs], by simp [handedIDs]⟩
  | cons E Es ih =>
    intro s hs
    obtain ⟨hs1, hsub, hh⟩ := QueueSound_step (E := E) hs
    obtain ⟨hs2, hin, hnd⟩ := ih (ReceiveProject E id s).2 hs1
    refine ⟨hs2, ?_, ?_⟩
    · intro h hmem
      simp only [handedIDs, List.mem_append, Option.mem_toList, Option.mem_def] at hmem
      rcases hmem with hmem | hmem
      · exact (hh h hmem).1
      · exact hsub h (hin h hmem)
    · simp only [handedIDs]
      rw [List.nodup_append]
      refine ⟨?_, hnd, ?_⟩
      · cases handedID E id s <;> simp
      · intro a ha hb
        simp only [Option.mem_toList, Option.mem_def] at ha
        exact (hh a ha).2 (hin a hb)

/-- Claim C19. From a state in which the project's queue holds pairwise
distinct ids, each the id of an Unclaimed item of the project: after any call
of `ReceiveProject` on the project (whatever its outcome) the state has the
same property, and so has the state after any sequence of such calls; in such
a sequence no item id is handed out twice. -/
theorem C19_queue_invariant (id : String) (s : State) (hs : QueueSound s id) :
    (∀ E : ReceiveEnv, QueueSound (ReceiveProject E id s).2 id) ∧
    (∀ envs : List ReceiveEnv,
      QueueSound (receiveAll envs id s).2 id ∧ (handedIDs envs id s).Nodup) := by
  constructor
  · intro E
    exact (QueueSound_step hs).1
  · intro envs
    obtain ⟨h1, _, h3⟩ := QueueSound_receiveAll id envs s hs
    exact ⟨h1, h3⟩

/-- Claim C19, witness: the fresh two-item project. -/
theorem C19_queue_invariant_witness :
    (∀ E : ReceiveEnv, QueueSound (ReceiveProject E "p" exFresh2).2 "p") ∧
    (∀ envs : List ReceiveEnv,
      QueueSound (receiveAll envs "p" exFresh2).2 "p" ∧ (handedIDs envs "p" exFresh2).Nodup) :=
  C19_queue_invariant "p" exFresh2 ⟨⟨_, rfl⟩, by decide, by decide⟩

/-! ## `DeleteProject` -/

theorem LRange_DelList (c : Cache) (key : String) : (c.DelList key).LRange key = [] := by
  unfold Cache.DelList Cache.LRange
  have h : (c.lists.filter (fun e => decide (e.1 ≠ key))).find?
      (fun e => decide (e.1 = key)) = none := by
    rw [List.find?_eq_none]
    intro x hx
    rw [List.mem_filter] at hx
    simpa using hx.2
  simp only
  rw [h]

/-- The table `project_items` after `DeleteProject`: as before unless the call
answers 200. -/
theorem DeleteProject_shape (E : DeleteEnv) (id : String) (s : State) :
    ((DeleteProject E id s).1.status ≠ 200 ∧
      (DeleteProject E id s).2.db.items = s.db.items ∧
      (DeleteProject E id s).2.db.projects = s.db.projects ∧
      (DeleteProject E id s).2.db.tags = s.db.tags) ∨
    ((DeleteProject E id s).1.status = 200 ∧
      ∃ p, s.db.findProject id = some p ∧ s.db.claimedCount p.ID = 0 ∧
        (DeleteProject E id s).2.db.items = s.db.items.filter (fun r => r.ProjectID ≠ p.ID) ∧
        (DeleteProject E id s).2.db.projects = s.db.projects.filter (fun r => r.ID ≠ p.ID) ∧
        (DeleteProject E id s).2.db.tags = s.db.tags.filter (fun t => t.ProjectID ≠ p.ID) ∧
        (DeleteProject E id s).2.redis.LRange p.ItemsKey = []) := by
  unfold DeleteProject
  cases hpe : Project.Exact E.loadProjectFails s.db id with
  | error e => left; simp
  | ok p =>
    obtain ⟨_, hfp⟩ := Project_Exact_ok hpe
    simp only
    cases hc : E.countFails with
    | true => left; simp
    | false =>
      simp only [Bool.false_eq_true, if_false]
      by_cases hcl : s.db.claimedCount p.ID > 0
      · left; simp [hcl]
      · rw [if_neg hcl]
        cases ht : Transaction E.commitFails (deleteTx E p) s with
        | mk r s1 =>
          cases r with
          | error e =>
            left
            obtain ⟨h1, h2, h3, _⟩ := Transaction_error ht
            simp [h1, h2, h3]
          | ok u =>
            right
            obtain ⟨_, htx⟩ := Transaction_ok ht
            refine ⟨rfl, p, hfp, by omega, ?_⟩
            unfold deleteTx at htx
            cases h1 : E.deleteTagsFails <;> simp only [h1, if_true, Bool.false_eq_true,
              if_false] at htx
            · cases h2 : E.deleteItemsFails <;> simp only [h2, if_true, Bool.false_eq_true,
                if_false] at htx
              · cases h3 : E.deleteProjectFails <;> simp only [h3, if_true,
                  Bool.false_eq_true, if_false] at htx
                · cases h4 : E.delCacheFails <;> simp only [h4, if_true, Bool.false_eq_true,
                    if_false] at htx
                  · simp only [Prod.mk.injEq, true_and] at htx
                    subst htx
                    exact ⟨rfl, rfl, rfl, LRange_DelList _ _⟩
                  · simp at htx
                · simp at htx
              · simp at htx
            · simp at htx

/-- Claim C15. (1) `DeleteProject` on a project with at least one claimed item
leaves the whole state as it was (project row, tag rows, item rows and queue),
and answers 400 AlreadyReceived when the project and the count can be read.
(2) Any call of `DeleteProject` either leaves the three tables as they were,
or answers 200, and then the project had no claimed item and exactly the rows
of that project are gone from `project_items`, together with the project's
row. -/
theorem C15_delete_blocked_by_claimed_item :
    (∀ (E : DeleteEnv) (id : String) (s : State) (p : Project),
      s.db.findProject id = some p → 0 < s.db.claimedCount p.ID →
      (DeleteProject E id s).2 = s ∧
      (E.loadProjectFails = false → E.countFails = false →
        (DeleteProject E id s).1 =
          { status := 400, errorMsg := AlreadyReceived, data := none })) ∧
    (∀ (E : DeleteEnv) (id : String) (s : State),
      ((DeleteProject E id s).2.db.items = s.db.items ∧
        (DeleteProject E id s).2.db.projects = s.db.projects ∧
        (DeleteProject E id s).2.db.tags = s.db.tags) ∨
      ((DeleteProject E id s).1.status = 200 ∧
        ∃ p, s.db.findProject id = some p ∧ s.db.claimedCount p.ID = 0 ∧
          (DeleteProject E id s).2.db.items =
            s.db.items.filter (fun r => r.ProjectID ≠ p.ID) ∧
          (DeleteProject E id s).2.db.projects =
            s.db.projects.filter (fun r => r.ID ≠ p.ID))) := by
  constructor
  · intro E id s p hp hc
    constructor
    · unfold DeleteProject
      cases hpe : Project.Exact E.loadProjectFails s.db id with
      | error e => rfl
      | ok q =>
        obtain ⟨_, hfq⟩ := Project_Exact_ok hpe
        rw [hp] at hfq; cases hfq
        simp only
        cases E.countFails <;> simp [hc]
    · intro hl hcf
      simp [DeleteProject, Project.Exact, hl, hp, hcf, hc]
  · intro E id s
    rcases DeleteProject_shape E id s with ⟨_, h1, h2, h3⟩ | ⟨h0, p, hp, hc, h1, h2, _, _⟩
    · exact Or.inl ⟨h1, h2, h3⟩
    · exact Or.inr ⟨h0, p, hp, hc, h1, h2⟩

/-- Claim C15, witness: deleting project `p` whose item is claimed, and
deleting the fresh project `p`. -/
theorem C15_delete_blocked_by_claimed_item_witness :
    ((DeleteProject exDeleteEnv "p" exStale).2 = exStale ∧
      (exDeleteEnv.loadProjectFails = false → exDeleteEnv.countFails = false →
        (DeleteProject exDeleteEnv "p" exStale).1 =
          { status := 400, errorMsg := AlreadyReceived, data := none })) ∧
    (((DeleteProject exDeleteEnv "p" exFresh).2.db.items = exFresh.db.items ∧
        (DeleteProject exDeleteEnv "p" exFresh).2.db.projects = exFresh.db.projects ∧
        (DeleteProject exDeleteEnv "p" exFresh).2.db.tags = exFresh.db.tags) ∨
      ((DeleteProject exDeleteEnv "p" exFresh).1.status = 200 ∧
        ∃ p, exFresh.db.findProject "p" = some p ∧ exFresh.db.claimedCount p.ID = 0 ∧
          (DeleteProject exDeleteEnv "p" exFresh).2.db.items =
            exFresh.db.items.filter (fun r => r.ProjectID ≠ p.ID) ∧
          (DeleteProject exDeleteEnv "p" exFresh).2.db.projects =
            exFresh.db.projects.filter (fun r => r.ID ≠ p.ID))) :=
  ⟨C15_delete_blocked_by_claimed_item.1 exDeleteEnv "p" exStale exProject
      (by decide) (by decide),
   C15_delete_blocked_by_claimed_item.2 exDeleteEnv "p" exFresh⟩

/-! ## The OAuth callback -/

theorem Get_Del (c : Cache) (key : String) : (c.Del key).Get key = none := by
  unfold Cache.Del Cache.Get
  have h : (c.strings.filter (fun e => decide (e.key ≠ key))).find?
      (fun e => decide (e.key = key)) = none := by
    rw [List.find?_eq_none]
    intro x hx
    rw [List.mem_filter] at hx
    simpa using hx.2
  simp only
  rw [h]
  rfl

/-- A state that is not empty and is not stored in the cache is answered with
400 InvalidState, without code exchange and without session binding. -/
theorem Callback_rejects_unstored_state (cfg : OAuthConfig) (E : CallbackEnv)
    (req : CallbackRequest) (c : Cache) (hb : E.bindFails = false) (hne : req.State ≠ "")
    (hget : c.Get (cfg.keyFormat req.State) = none) :
    (Callback cfg E req c).response =
      { status := 400, errorMsg := cfg.InvalidState, data := none } ∧
    (Callback cfg E req c).exchanged = false ∧
    (Callback cfg E req c).session = none ∧
    (Callback cfg E req c).cache = c := by
  have hval : (if E.getFails = true then "" else (c.Get (cfg.keyFormat req.State)).getD "")
      ≠ req.State := by
    rw [hget]
    simp only [Option.getD_none, ite_self]
    exact fun h => hne h.symm
  simp only [Callback, hb, Bool.false_eq_true, if_false]
  rw [if_pos hval]
  exact ⟨rfl, rfl, rfl, rfl⟩

/-- A call that gets past the state check, and whose DEL command succeeds, has
removed the state's key from the cache. -/
theorem Callback_consumes_state (cfg : OAuthConfig) (E : CallbackEnv) (req : CallbackRequest)
    (c : Cache) (hd : E.delFails = false) (h : (Callback cfg E req c).exchanged = true) :
    (Callback cfg E req c).cache.Get (cfg.keyFormat req.State) = none := by
  unfold Callback at h ⊢
  cases hb : E.bindFails with
  | true => simp [hb] at h
  | false =>
    simp only [hb, hd, Bool.false_eq_true, if_false] at h ⊢
    generalize (if E.getFails = true then ""
      else (c.Get (cfg.keyFormat req.State)).getD "") = val at h ⊢
    by_cases hv : val ≠ req.State
    · rw [if_pos hv] at h
      simp at h
    · rw [if_neg hv]
      cases E.oauthResult with
      | error e => exact Get_Del _ _
      | ok user =>
        simp only
        split <;> exact Get_Del _ _

/-- Claim C17, the failing input evaluated. No state is stored in the cache.
A callback request with the empty state string and any code is not answered
with 400: the comparison of the GET command's empty value with the empty
state succeeds, the code exchange is made, the provider's user is bound to
the session and the answer is 200. -/
theorem C17_empty_state_passes_check :
    exNoCache.Get (exOAuthConfig.keyFormat "") = none ∧
    (Callback exOAuthConfig exCallbackEnv { State := "", Code := "code" } exNoCache).response
      = { status := 200, errorMsg := "", data := none } ∧
    (Callback exOAuthConfig exCallbackEnv { State := "", Code := "code" } exNoCache).exchanged
      = true ∧
    (Callback exOAuthConfig exCallbackEnv { State := "", Code := "code" } exNoCache).session
      = some { ID := 7, Username := "mallory" } := by
  decide

/-! ## The listing queries -/

theorem BuiltFrom_addWhen {b : QueryBuilder} {cb lb : String} {l : List String}
    (h : BuiltFrom b cb lb l) (v : Option SqlParam) (x : String) :
    BuiltFrom (b.addWhen v x x) cb lb (l ++ [x]) := by
  obtain ⟨frags, hsub, hc, hl⟩ := h
  cases v with
  | none =>
    exact ⟨frags, hsub.trans (List.sublist_append_left l [x]), hc, hl⟩
  | some p =>
    refine ⟨frags ++ [x], List.Sublist.append hsub (List.Sublist.refl _), ?_, ?_⟩
    · simp [QueryBuilder.addWhen, hc, List.foldl_append]
    · simp [QueryBuilder.addWhen, hl, List.foldl_append]

theorem BuiltFrom_applyFilters (parseTime : String → Option Int) (tags : List String)
    (req : Option ListProjectsRequest) (b : QueryBuilder) :
    BuiltFrom (applyFilters parseTime tags req b) b.countSql b.listSql filterFragments := by
  have h0 : BuiltFrom b b.countSql b.listSql [] := ⟨[], List.Sublist.refl _, rfl, rfl⟩
  unfold applyFilters
  exact BuiltFrom_addWhen (BuiltFrom_addWhen (BuiltFrom_addWhen (BuiltFrom_addWhen
    (BuiltFrom_addWhen (BuiltFrom_addWhen (BuiltFrom_addWhen (BuiltFrom_addWhen
    (BuiltFrom_addWhen h0 _ _) _ _) _ _) _ _) _ _) _ _) _ _) _ _) _ _

theorem sortFieldOf_mem (fallback : String) (req : Option ListProjectsRequest)
    (h : fallback ∈ sortColumns) : sortFieldOf fallback req ∈ sortColumns := by
  unfold sortFieldOf
  cases req with
  | none => exact h
  | some r =>
    simp only
    repeat' split
    all_goals first | exact h | simp [sortColumns]

theorem sortFieldOf_fallback (fallback : String) (req : Option ListProjectsRequest)
    (h : ∀ r, req = some r → r.SortBy ∉ sortKeys) : sortFieldOf fallback req = fallback := by
  unfold sortFieldOf
  cases req with
  | none => rfl
  | some r =>
    have hr := h r rfl
    simp only [sortKeys, List.mem_cons, List.mem_singleton, List.not_mem_nil, or_false,
      not_or] at hr
    obtain ⟨h1, h2, h3, h4, h5⟩ := hr
    simp [h1, h2, h3, h4, h5]

theorem sortDirectionList_mem (req : Option ListProjectsRequest) :
    sortDirectionList req = "ASC" ∨ sortDirectionList req = "DESC" := by
  unfold sortDirectionList
  cases req with
  | none => exact Or.inl rfl
  | some r =>
    simp only
    repeat' split
    all_goals first | exact Or.inl rfl | exact Or.inr rfl

theorem sortDirectionMine_mem (req : Option ListProjectsRequest) :
    sortDirectionMine req = "ASC" ∨ sortDirectionMine req = "DESC" := by
  unfold sortDirectionMine
  cases req with
  | none => exact Or.inr rfl
  | some r =>
    simp only
    repeat' split
    all_goals first | exact Or.inl rfl | exact Or.inr rfl

/-- Claim C20. For every request, tag list, user, clock and time parser, the
count query and the list query of `ListProjectsWithTags` and of
`ListMyProjectsWithTags` are made of literals of the source only: the initial
text, followed by some of the nine filter literals in source order (the same
ones in both queries), and for the list query by `GROUP BY p.id ORDER BY`, one
of the five columns, a space, `ASC` or `DESC`, and `LIMIT ? OFFSET ?`. A SortBy
that is none of the five known keys gives the default column (`p.end_time`,
respectively `p.created_at`). No field of the request is part of either text;
the request's values are in the parameter lists only. -/
theorem C20_queries_are_fixed_text (parseTime : String → Option Int) (statusNormal now : Int)
    (creatorID : Nat) (offset limit : Int) (tags : List String) (currentUser : ListUser)
    (req : Option ListProjectsRequest) :
    (∃ frags col dir, List.Sublist frags filterFragments ∧ col ∈ sortColumns ∧
      (dir = "ASC" ∨ dir = "DESC") ∧
      (ListProjectsWithTags parseTime statusNormal now offset limit tags currentUser req).countSql
        = frags.foldl (fun a x => a ++ x) exploreCountBase ∧
      (ListProjectsWithTags parseTime statusNormal now offset limit tags currentUser req).listSql
        = frags.foldl (fun a x => a ++ x) exploreListBase ++ " GROUP BY p.id ORDER BY " ++ col
            ++ " " ++ dir ++ " LIMIT ? OFFSET ?" ∧
      ((∀ r, req = some r → r.SortBy ∉ sortKeys) → col = "p.end_time")) ∧
    (∃ frags col dir, List.Sublist frags filterFragments ∧ col ∈ sortColumns ∧
      (dir = "ASC" ∨ dir = "DESC") ∧
      (ListMyProjectsWithTags parseTime statusNormal creatorID offset limit tags req).countSql
        = frags.foldl (fun a x => a ++ x) mineCountBase ∧
      (ListMyProjectsWithTags parseTime statusNormal creatorID offset limit tags req).listSql
        = frags.foldl (fun a x => a ++ x) mineListBase ++ " GROUP BY p.id ORDER BY " ++ col
            ++ " " ++ dir ++ " LIMIT ? OFFSET ?" ∧
      ((∀ r, req = some r → r.SortBy ∉ sortKeys) → col = "p.created_at")) := by
  constructor
  · obtain ⟨frags, hsub, hc, hl⟩ := BuiltFrom_applyFilters parseTime tags req
      { countSql := exploreCountBase, listSql := exploreListBase,
        parameters := [.time now, .int statusNormal, .int currentUser.TrustLevel,
          .int currentUser.RiskLevel, .int currentUser.ID] }
    refine ⟨frags, sortFieldOf "p.end_time" req, sortDirectionList req, hsub,
      sortFieldOf_mem _ _ (by simp [sortColumns]), sortDirectionList_mem req, ?_, ?_,
      sortFieldOf_fallback _ _⟩
    · simp only [ListProjectsWithTags]
      exact hc
    · simp only [ListProjectsWithTags]
      rw [hl]
  · obtain ⟨frags, hsub, hc, hl⟩ := BuiltFrom_applyFilters parseTime tags req
      { countSql := mineCountBase, listSql := mineListBase,
        parameters := [.int creatorID, .int statusNormal] }
    refine ⟨frags, sortFieldOf "p.created_at" req, sortDirectionMine req, hsub,
      sortFieldOf_mem _ _ (by simp [sortColumns]), sortDirectionMine_mem req, ?_, ?_,
      sortFieldOf_fallback _ _⟩
    · simp only [ListMyProjectsWithTags]
      exact hc
    · simp only [ListMyProjectsWithTags]
      rw [hl]

/-- Claim C20, witness: a request whose SortBy and SortOrder carry SQL text,
with a tag that carries SQL text. -/
theorem C20_queries_are_fixed_text_witness :
    ((ListProjectsWithTags (fun _ => none) 0 100 0 20 ["a; DROP TABLE projects"]
        { ID := 1, TrustLevel := 2, RiskLevel := 3 } (some exHostileRequest)).listSql
      = [" AND pt.tag IN (?)", " AND p.minimum_trust_level >= ?",
          " AND p.total_items <= ?"].foldl (fun a x => a ++ x) exploreListBase
          ++ " GROUP BY p.id ORDER BY " ++ "p.end_time" ++ " " ++ "ASC" ++ " LIMIT ? OFFSET ?") ∧
    ((∃ frags col dir, List.Sublist frags filterFragments ∧ col ∈ sortColumns ∧
      (dir = "ASC" ∨ dir = "DESC") ∧
      (ListProjectsWithTags (fun _ => none) 0 100 0 20 ["a; DROP TABLE projects"]
        { ID := 1, TrustLevel := 2, RiskLevel := 3 } (some exHostileRequest)).countSql
        = frags.foldl (fun a x => a ++ x) exploreCountBase ∧
      (ListProjectsWithTags (fun _ => none) 0 100 0 20 ["a; DROP TABLE projects"]
        { ID := 1, TrustLevel := 2, RiskLevel := 3 } (some exHostileRequest)).listSql
        = frags.foldl (fun a x => a ++ x) exploreListBase ++ " GROUP BY p.id ORDER BY " ++ col
            ++ " " ++ dir ++ " LIMIT ? OFFSET ?" ∧
      ((∀ r, some exHostileRequest = some r → r.SortBy ∉ sortKeys) → col = "p.end_time")) ∧
    (∃ frags col dir, List.Sublist frags filterFragments ∧ col ∈ sortColumns ∧
      (dir = "ASC" ∨ dir = "DESC") ∧
      (ListMyProjectsWithTags (fun _ => none) 0 9 0 20 ["a; DROP TABLE projects"]
        (some exHostileRequest)).countSql
        = frags.foldl (fun a x => a ++ x) mineCountBase ∧
      (ListMyProjectsWithTags (fun _ => none) 0 9 0 20 ["a; DROP TABLE projects"]
        (some exHostileRequest)).listSql
        = frags.foldl (fun a x => a ++ x) mineListBase ++ " GROUP BY p.id ORDER BY " ++ col
            ++ " " ++ dir ++ " LIMIT ? OFFSET ?" ∧
      ((∀ r, some exHostileRequest = some r → r.SortBy ∉ sortKeys) → col = "p.created_at"))) :=
  ⟨by rfl,
   C20_queries_are_fixed_text (fun _ => none) 0 100 9 0 20 ["a; DROP TABLE projects"]
    { ID := 1, TrustLevel := 2, RiskLevel := 3 } (some exHostileRequest)⟩

/-! ## Placeholders and parameters of the listing queries -/

theorem placeholders_append (a b : String) :
    placeholders (a ++ b) = placeholders a + placeholders b := by
  simp [placeholders, String.data_append, List.count_append]

/-- A filter block whose two literals hold one placeholder each keeps the
number of placeholders of both texts equal to the number of parameters. -/
theorem addWhen_balanced {b : QueryBuilder} (v : Option SqlParam) (x y : String)
    (hx : placeholders x = 1) (hy : placeholders y = 1)
    (h : placeholders b.countSql = b.parameters.length ∧
      placeholders b.listSql = b.parameters.length) :
    placeholders (b.addWhen v x y).countSql = (b.addWhen v x y).parameters.length ∧
    placeholders (b.addWhen v x y).listSql = (b.addWhen v x y).parameters.length := by
  cases v with
  | none => exact h
  | some p =>
    simp only [QueryBuilder.addWhen, placeholders_append, hx, hy, h.1, h.2, List.length_append,
      List.length_singleton, and_self]

theorem applyFilters_balanced (parseTime : String → Option Int) (tags : List String)
    (req : Option ListProjectsRequest) (b : QueryBuilder)
    (h : placeholders b.countSql = b.parameters.length ∧
      placeholders b.listSql = b.parameters.length) :
    placeholders (applyFilters parseTime tags req b).countSql
      = (applyFilters parseTime tags req b).parameters.length ∧
    placeholders (applyFilters parseTime tags req b).listSql
      = (applyFilters parseTime tags req b).parameters.length := by
  unfold applyFilters
  exact addWhen_balanced _ _ _ (by decide) (by decide)
    (addWhen_balanced _ _ _ (by decide) (by decide)
    (addWhen_balanced _ _ _ (by decide) (by decide)
    (addWhen_balanced _ _ _ (by decide) (by decide)
    (addWhen_balanced _ _ _ (by decide) (by decide)
    (addWhen_balanced _ _ _ (by decide) (by decide)
    (addWhen_balanced _ _ _ (by decide) (by decide)
    (addWhen_balanced _ _ _ (by decide) (by decide)
    (addWhen_balanced _ _ _ (by decide) (by decide) h))))))))

theorem placeholders_sortColumn {c : String} (h : c ∈ sortColumns) : placeholders c = 0 := by
  simp only [sortColumns, List.mem_cons, List.mem_singleton, List.not_mem_nil, or_false] at h
  rcases h with h | h | h | h | h <;> subst h <;> decide

theorem placeholders_direction {d : String} (h : d = "ASC" ∨ d = "DESC") :
    placeholders d = 0 := by
  rcases h with h | h <;> subst h <;> decide

set_option maxRecDepth 100000 in
theorem placeholders_exploreCountBase : placeholders exploreCountBase = 5 := by rfl

set_option maxRecDepth 100000 in
theorem placeholders_exploreListBase : placeholders exploreListBase = 5 := by rfl

set_option maxRecDepth 100000 in
theorem placeholders_mineCountBase : placeholders mineCountBase = 2 := by rfl

set_option maxRecDepth 100000 in
theorem placeholders_mineListBase : placeholders mineListBase = 2 := by rfl

/-- The order clause appended to a list query adds two placeholders. -/
theorem placeholders_order_clause (sql col dir : String) (hc : col ∈ sortColumns)
    (hd : dir = "ASC" ∨ dir = "DESC") :
    placeholders (sql ++ " GROUP BY p.id ORDER BY " ++ col ++ " " ++ dir ++ " LIMIT ? OFFSET ?")
      = placeholders sql + 2 := by
  have h1 : placeholders " GROUP BY p.id ORDER BY " = 0 := by decide
  have h2 : placeholders " " = 0 := by decide
  have h3 : placeholders " LIMIT ? OFFSET ?" = 2 := by decide
  simp only [placeholders_append, h1, h2, h3, placeholders_sortColumn hc,
    placeholders_direction hd, Nat.add_zero]

/-- Claim C21. For every request, tag list, user, clock and time parser, in
`ListProjectsWithTags` and in `ListMyProjectsWithTags`: the count query has as
many placeholders `?` as parameters are passed with it; the list query has as
many placeholders as parameters are passed with it, and these are the
parameters of the count query followed by limit and offset; and both texts
are their initial text followed by one and the same list of filter literals
(in source order), the list query continuing with the order clause. -/
theorem C21_placeholders_match_parameters (parseTime : String → Option Int)
    (statusNormal now : Int) (creatorID : Nat) (offset limit : Int) (tags : List String)
    (currentUser : ListUser) (req : Option ListProjectsRequest) :
    (placeholders
        (ListProjectsWithTags parseTime statusNormal now offset limit tags currentUser req).countSql
      = (ListProjectsWithTags parseTime statusNormal now offset limit tags currentUser
          req).countParams.length ∧
     placeholders
        (ListProjectsWithTags parseTime statusNormal now offset limit tags currentUser req).listSql
      = (ListProjectsWithTags parseTime statusNormal now offset limit tags currentUser
          req).listParams.length ∧
     (ListProjectsWithTags parseTime statusNormal now offset limit tags currentUser
          req).listParams
      = (ListProjectsWithTags parseTime statusNormal now offset limit tags currentUser
          req).countParams ++ [SqlParam.int limit, SqlParam.int offset] ∧
     ∃ frags, List.Sublist frags filterFragments ∧
      (ListProjectsWithTags parseTime statusNormal now offset limit tags currentUser req).countSql
        = frags.foldl (fun a x => a ++ x) exploreCountBase ∧
      (ListProjectsWithTags parseTime statusNormal now offset limit tags currentUser req).listSql
        = frags.foldl (fun a x => a ++ x) exploreListBase ++ " GROUP BY p.id ORDER BY "
            ++ sortFieldOf "p.end_time" req ++ " " ++ sortDirectionList req
            ++ " LIMIT ? OFFSET ?") ∧
    (placeholders
        (ListMyProjectsWithTags parseTime statusNormal creatorID offset limit tags req).countSql
      = (ListMyProjectsWithTags parseTime statusNormal creatorID offset limit tags
          req).countParams.length ∧
     placeholders
        (ListMyProjectsWithTags parseTime statusNormal creatorID offset limit tags req).listSql
      = (ListMyProjectsWithTags parseTime statusNormal creatorID offset limit tags
          req).listParams.length ∧
     (ListMyProjectsWithTags parseTime statusNormal creatorID offset limit tags req).listParams
      = (ListMyProjectsWithTags parseTime statusNormal creatorID offset limit tags
          req).countParams ++ [SqlParam.int limit, SqlParam.int offset] ∧
     ∃ frags, List.Sublist frags filterFragments ∧
      (ListMyProjectsWithTags parseTime statusNormal creatorID offset limit tags req).countSql
        = frags.foldl (fun a x => a ++ x) mineCountBase ∧
      (ListMyProjectsWithTags parseTime statusNormal creatorID offset limit tags req).listSql
        = frags.foldl (fun a x => a ++ x) mineListBase ++ " GROUP BY p.id ORDER BY "
            ++ sortFieldOf "p.created_at" req ++ " " ++ sortDirectionMine req
            ++ " LIMIT ? OFFSET ?") := by
  constructor
  · have hb := applyFilters_balanced parseTime tags req
      { countSql := exploreCountBase, listSql := exploreListBase,
        parameters := [.time now, .int statusNormal, .int currentUser.TrustLevel,
          .int currentUser.RiskLevel, .int currentUser.ID] }
      ⟨placeholders_exploreCountBase, placeholders_exploreListBase⟩
    obtain ⟨frags, hsub, hc, hl⟩ := BuiltFrom_applyFilters parseTime tags req
      { countSql := exploreCountBase, listSql := exploreListBase,
        parameters := [.time now, .int statusNormal, .int currentUser.TrustLevel,
          .int currentUser.RiskLevel, .int currentUser.ID] }
    refine ⟨hb.1, ?_, rfl, frags, hsub, hc, ?_⟩
    · simp only [ListProjectsWithTags]
      rw [placeholders_order_clause _ _ _ (sortFieldOf_mem _ _ (by simp [sortColumns]))
        (sortDirectionList_mem req), hb.2]
      simp
    · simp only [ListProjectsWithTags]
      rw [hl]
  · have hb := applyFilters_balanced parseTime tags req
      { countSql := mineCountBase, listSql := mineListBase,
        parameters := [.int creatorID, .int statusNormal] }
      ⟨placeholders_mineCountBase, placeholders_mineListBase⟩
    obtain ⟨frags, hsub, hc, hl⟩ := BuiltFrom_applyFilters parseTime tags req
      { countSql := mineCountBase, listSql := mineListBase,
        parameters := [.int creatorID, .int statusNormal] }
    refine ⟨hb.1, ?_, rfl, frags, hsub, hc, ?_⟩
    · simp only [ListMyProjectsWithTags]
      rw [placeholders_order_clause _ _ _ (sortFieldOf_mem _ _ (by simp [sortColumns]))
        (sortDirectionMine_mem req), hb.2]
      simp
    · simp only [ListMyProjectsWithTags]
      rw [hl]

end Cdk
